import Mathlib

/-!
# OSPRay MPI work units: a shallow embedding

Definitions follow `modules/mpi/common/OSPWork.cpp`.  Machine integers are
`Int`/`Nat` with explicit ranges, pointers are heap addresses (`0` is the null
pointer), strings and byte buffers are lists of bytes.
-/

namespace ospray

/-! ## Serialization streams -/

/-- Modelled from the spec: `WriteStream` is declared outside the given sources.
A write stream is the sequence of bytes appended so far. -/
abbrev WriteStream := List Nat

/-- Modelled from the spec: `ReadStream` is declared outside the given sources.
A read stream is the sequence of bytes not yet consumed. -/
abbrev ReadStream := List Nat

/-- The `n` little-endian bytes of `v` (the low `8 * n` bits). -/
def leBytes : Nat → Nat → List Nat
  | 0, _ => []
  | n + 1, v => v % 256 :: leBytes n (v / 256)

/-- The number whose little-endian bytes are given. -/
def fromLE : List Nat → Nat
  | [] => 0
  | b :: bs => b + 256 * fromLE bs

/-- Two's-complement reading of a `w`-bit pattern. -/
def toSigned (w : Nat) (v : Nat) : Int :=
  if v < 2 ^ (w - 1) then (v : Int) else (v : Int) - 2 ^ w

/-- Two's-complement bit pattern of `v` in `w` bits. -/
def toUnsigned (w : Nat) (v : Int) : Nat := (v % 2 ^ w).toNat

def isInt32 (v : Int) : Prop := -2147483648 ≤ v ∧ v < 2147483648

def isInt64 (v : Int) : Prop := -9223372036854775808 ≤ v ∧ v < 9223372036854775808

def isUInt32 (v : Nat) : Prop := v < 4294967296

def isUInt64 (v : Nat) : Prop := v < 18446744073709551616

instance (v : Int) : Decidable (isInt32 v) := by unfold isInt32; infer_instance

instance (v : Int) : Decidable (isInt64 v) := by unfold isInt64; infer_instance

instance (v : Nat) : Decidable (isUInt32 v) := by unfold isUInt32; infer_instance

instance (v : Nat) : Decidable (isUInt64 v) := by unfold isUInt64; infer_instance

/-- Modelled from the spec: reading `n` raw bytes; fails when the stream is
too short. -/
def readRaw (n : Nat) (b : ReadStream) : Option (List Nat × ReadStream) :=
  if n ≤ b.length then some (b.take n, b.drop n) else none

/-- Modelled from the spec: `int64` is written as 8 little-endian
two's-complement bytes. -/
def encInt64 (v : Int) : List Nat := leBytes 8 (toUnsigned 64 v)

def readInt64 (b : ReadStream) : Option (Int × ReadStream) :=
  match readRaw 8 b with
  | some (x, r) => some (toSigned 64 (fromLE x), r)
  | none => none

/-- Modelled from the spec: `int32` is written as 4 little-endian
two's-complement bytes. -/
def encInt32 (v : Int) : List Nat := leBytes 4 (toUnsigned 32 v)

def readInt32 (b : ReadStream) : Option (Int × ReadStream) :=
  match readRaw 4 b with
  | some (x, r) => some (toSigned 32 (fromLE x), r)
  | none => none

/-- Modelled from the spec: `uint32` is written as 4 little-endian bytes. -/
def encUInt32 (v : Nat) : List Nat := leBytes 4 v

def readUInt32 (b : ReadStream) : Option (Nat × ReadStream) :=
  match readRaw 4 b with
  | some (x, r) => some (fromLE x, r)
  | none => none

/-- Modelled from the spec: `size_t` is written as 8 little-endian bytes. -/
def encSizeT (v : Nat) : List Nat := leBytes 8 v

def readSizeT (b : ReadStream) : Option (Nat × ReadStream) :=
  match readRaw 8 b with
  | some (x, r) => some (fromLE x, r)
  | none => none

/-- Modelled from the spec: byte buffers (`std::vector<byte_t>`) are
length-prefixed with a 64-bit count. -/
def encBytes (d : List Nat) : List Nat := encSizeT d.length ++ d

def readBytes (b : ReadStream) : Option (List Nat × ReadStream) :=
  match readSizeT b with
  | some (n, r) => readRaw n r
  | none => none

/-- Modelled from the spec: strings are length-prefixed and carry no trailing
zero byte. -/
def encString (s : List Nat) : List Nat := encSizeT s.length ++ s

def readString (b : ReadStream) : Option (List Nat × ReadStream) :=
  match readSizeT b with
  | some (n, r) => readRaw n r
  | none => none

structure vec2i where
  x : Int
  y : Int
deriving DecidableEq, Repr

structure vec3i where
  x : Int
  y : Int
  z : Int
deriving DecidableEq, Repr

def encVec2i (v : vec2i) : List Nat := encInt32 v.x ++ encInt32 v.y

def readVec2i (b : ReadStream) : Option (vec2i × ReadStream) :=
  match readInt32 b with
  | some (x, r) =>
    match readInt32 r with
    | some (y, r) => some ({ x := x, y := y }, r)
    | none => none
  | none => none

def encVec3i (v : vec3i) : List Nat := encInt32 v.x ++ encInt32 v.y ++ encInt32 v.z

def readVec3i (b : ReadStream) : Option (vec3i × ReadStream) :=
  match readInt32 b with
  | some (x, r) =>
    match readInt32 r with
    | some (y, r) =>
      match readInt32 r with
      | some (z, r) => some ({ x := x, y := y, z := z }, r)
      | none => none
    | none => none
  | none => none

/-! ## Work units and their wire format -/

/-- Modelled from the spec: `ObjectHandle` is declared outside the given
sources; the only part used here is its 64-bit value `i64`. -/
structure ObjectHandle where
  i64 : Int
deriving DecidableEq, Repr

def NULL_HANDLE : ObjectHandle := { i64 := 0 }

/-- Work unit `CommitObject`. -/
structure CommitObject where
  handle : ObjectHandle
deriving DecidableEq, Repr

/-- Work unit `CreateFrameBuffer`; `format` is the value of the
`OSPFrameBufferFormat` enumerator. -/
structure CreateFrameBuffer where
  handle : ObjectHandle
  dimensions : vec2i
  format : Int
  channels : Nat
deriving DecidableEq, Repr

/-- Work unit `LoadModule`. -/
structure LoadModule where
  name : List Nat
deriving DecidableEq, Repr

/-- Work unit `NewData`; `format` is the value of the `OSPDataType`
enumerator, `localData` the application memory a non-null pointer refers to
(`none` is the null pointer). -/
structure NewData where
  handle : ObjectHandle
  nItems : Nat
  format : Int
  data : List Nat
  localData : Option (List Nat)
  flags : Int
deriving DecidableEq, Repr

/-- Work unit `NewTexture2d`; `format` is the value of the `OSPTextureFormat`
enumerator. -/
structure NewTexture2d where
  handle : ObjectHandle
  dimensions : vec2i
  format : Int
  data : List Nat
  flags : Nat
deriving DecidableEq, Repr

/-- Work unit `SetRegion`; `type` is the value of the `OSPDataType`
enumerator. -/
structure SetRegion where
  handle : ObjectHandle
  regionStart : vec3i
  regionSize : vec3i
  type : Int
  data : List Nat
deriving DecidableEq, Repr

/-- Work unit `ClearFrameBuffer`. -/
structure ClearFrameBuffer where
  handle : ObjectHandle
  channels : Nat
deriving DecidableEq, Repr

/-- Work unit `RenderFrame`.  The float result slot `varianceResult` is never
written to the stream and is left out. -/
structure RenderFrame where
  fbHandle : ObjectHandle
  rendererHandle : ObjectHandle
  channels : Nat
deriving DecidableEq, Repr

/-- Work unit `RemoveParam`. -/
structure RemoveParam where
  handle : ObjectHandle
  name : List Nat
deriving DecidableEq, Repr

/-- Work unit `SetPixelOp`. -/
structure SetPixelOp where
  fbHandle : ObjectHandle
  poHandle : ObjectHandle
deriving DecidableEq, Repr

/-- Work unit `CommandRelease`. -/
structure CommandRelease where
  handle : ObjectHandle
deriving DecidableEq, Repr

/-- Work unit `CommandFinalize`, which has no payload. -/
structure CommandFinalize where
deriving DecidableEq, Repr

/-- Source: `b << (int64)handle` -/
def CommitObject.serialize (u : CommitObject) (b : WriteStream) : WriteStream :=
  b ++ encInt64 u.handle.i64

/-- Source: `b >> handle.i64` -/
def CommitObject.deserialize (b : ReadStream) : Option (CommitObject × ReadStream) :=
  match readInt64 b with
  | some (h, b) => some ({ handle := { i64 := h } }, b)
  | none => none

/-- Source: `b << (int64)handle << dimensions << (int32)format << channels` -/
def CreateFrameBuffer.serialize (u : CreateFrameBuffer) (b : WriteStream) : WriteStream :=
  b ++ encInt64 u.handle.i64 ++ encVec2i u.dimensions ++ encInt32 u.format ++ encUInt32 u.channels

/-- Source: `b >> handle.i64 >> dimensions >> fmt >> channels; format = fmt` -/
def CreateFrameBuffer.deserialize (b : ReadStream) : Option (CreateFrameBuffer × ReadStream) :=
  match readInt64 b with
  | none => none
  | some (h, b) =>
    match readVec2i b with
    | none => none
    | some (dims, b) =>
      match readInt32 b with
      | none => none
      | some (fmt, b) =>
        match readUInt32 b with
        | none => none
        | some (ch, b) =>
          some ({ handle := { i64 := h }, dimensions := dims, format := fmt, channels := ch }, b)

/-- Source: `b << name` -/
def LoadModule.serialize (u : LoadModule) (b : WriteStream) : WriteStream :=
  b ++ encString u.name

/-- Source: `b >> name` -/
def LoadModule.deserialize (b : ReadStream) : Option (LoadModule × ReadStream) :=
  match readString b with
  | some (n, b) => some ({ name := n }, b)
  | none => none

/-- Source: `b << (int64)handle << nItems << (int32)format << flags << data` -/
def NewData.serialize (u : NewData) (b : WriteStream) : WriteStream :=
  b ++ encInt64 u.handle.i64 ++ encSizeT u.nItems ++ encInt32 u.format ++ encInt32 u.flags
    ++ encBytes u.data

/-- Source: `b >> handle.i64 >> nItems >> fmt >> flags >> data; format = fmt`, read
into a fresh unit, whose `localData` is the null pointer. -/
def NewData.deserialize (b : ReadStream) : Option (NewData × ReadStream) :=
  match readInt64 b with
  | none => none
  | some (h, b) =>
    match readSizeT b with
    | none => none
    | some (n, b) =>
      match readInt32 b with
      | none => none
      | some (fmt, b) =>
        match readInt32 b with
        | none => none
        | some (fl, b) =>
          match readBytes b with
          | none => none
          | some (d, b) =>
            some ({ handle := { i64 := h }, nItems := n, format := fmt, data := d,
                    localData := none, flags := fl }, b)

/-- Source: `b << (int64)handle << dimensions << (int32)format << flags << data` -/
def NewTexture2d.serialize (u : NewTexture2d) (b : WriteStream) : WriteStream :=
  b ++ encInt64 u.handle.i64 ++ encVec2i u.dimensions ++ encInt32 u.format ++ encUInt32 u.flags
    ++ encBytes u.data

/-- Source: `b >> handle.i64 >> dimensions >> fmt >> flags >> data; format = fmt` -/
def NewTexture2d.deserialize (b : ReadStream) : Option (NewTexture2d × ReadStream) :=
  match readInt64 b with
  | none => none
  | some (h, b) =>
    match readVec2i b with
    | none => none
    | some (dims, b) =>
      match readInt32 b with
      | none => none
      | some (fmt, b) =>
        match readUInt32 b with
        | none => none
        | some (fl, b) =>
          match readBytes b with
          | none => none
          | some (d, b) =>
            some ({ handle := { i64 := h }, dimensions := dims, format := fmt, data := d,
                    flags := fl }, b)

/-- Source: `b << (int64)handle << regionStart << regionSize << (int32)type << data` -/
def SetRegion.serialize (u : SetRegion) (b : WriteStream) : WriteStream :=
  b ++ encInt64 u.handle.i64 ++ encVec3i u.regionStart ++ encVec3i u.regionSize
    ++ encInt32 u.type ++ encBytes u.data

/-- Source: `b >> handle.i64 >> regionStart >> regionSize >> ty >> data; type = ty` -/
def SetRegion.deserialize (b : ReadStream) : Option (SetRegion × ReadStream) :=
  match readInt64 b with
  | none => none
  | some (h, b) =>
    match readVec3i b with
    | none => none
    | some (st, b) =>
      match readVec3i b with
      | none => none
      | some (sz, b) =>
        match readInt32 b with
        | none => none
        | some (ty, b) =>
          match readBytes b with
          | none => none
          | some (d, b) =>
            some ({ handle := { i64 := h }, regionStart := st, regionSize := sz, type := ty,
                    data := d }, b)

/-- Source: `b << (int64)handle << channels` -/
def ClearFrameBuffer.serialize (u : ClearFrameBuffer) (b : WriteStream) : WriteStream :=
  b ++ encInt64 u.handle.i64 ++ encUInt32 u.channels

/-- Source: `b >> handle.i64 >> channels` -/
def ClearFrameBuffer.deserialize (b : ReadStream) : Option (ClearFrameBuffer × ReadStream) :=
  match readInt64 b with
  | none => none
  | some (h, b) =>
    match readUInt32 b with
    | none => none
    | some (ch, b) => some ({ handle := { i64 := h }, channels := ch }, b)

/-- Source: `b << (int64)fbHandle << (int64)rendererHandle << channels` -/
def RenderFrame.serialize (u : RenderFrame) (b : WriteStream) : WriteStream :=
  b ++ encInt64 u.fbHandle.i64 ++ encInt64 u.rendererHandle.i64 ++ encUInt32 u.channels

/-- Source: `b >> fbHandle.i64 >> rendererHandle.i64 >> channels` -/
def RenderFrame.deserialize (b : ReadStream) : Option (RenderFrame × ReadStream) :=
  match readInt64 b with
  | none => none
  | some (fb, b) =>
    match readInt64 b with
    | none => none
    | some (r, b) =>
      match readUInt32 b with
      | none => none
      | some (ch, b) =>
        some ({ fbHandle := { i64 := fb }, rendererHandle := { i64 := r }, channels := ch }, b)

/-- Source: `b << (int64)handle << name` -/
def RemoveParam.serialize (u : RemoveParam) (b : WriteStream) : WriteStream :=
  b ++ encInt64 u.handle.i64 ++ encString u.name

/-- Source: `b >> handle.i64 >> name` -/
def RemoveParam.deserialize (b : ReadStream) : Option (RemoveParam × ReadStream) :=
  match readInt64 b with
  | none => none
  | some (h, b) =>
    match readString b with
    | none => none
    | some (n, b) => some ({ handle := { i64 := h }, name := n }, b)

/-- Source: `b << (int64)fbHandle << (int64)poHandle` -/
def SetPixelOp.serialize (u : SetPixelOp) (b : WriteStream) : WriteStream :=
  b ++ encInt64 u.fbHandle.i64 ++ encInt64 u.poHandle.i64

/-- Source: `b >> fbHandle.i64 >> poHandle.i64` -/
def SetPixelOp.deserialize (b : ReadStream) : Option (SetPixelOp × ReadStream) :=
  match readInt64 b with
  | none => none
  | some (fb, b) =>
    match readInt64 b with
    | none => none
    | some (po, b) => some ({ fbHandle := { i64 := fb }, poHandle := { i64 := po } }, b)

/-- Source: `b << (int64)handle` -/
def CommandRelease.serialize (u : CommandRelease) (b : WriteStream) : WriteStream :=
  b ++ encInt64 u.handle.i64

/-- Source: `b >> handle.i64` -/
def CommandRelease.deserialize (b : ReadStream) : Option (CommandRelease × ReadStream) :=
  match readInt64 b with
  | some (h, b) => some ({ handle := { i64 := h } }, b)
  | none => none

/-- The body of `CommandFinalize::serialize` is empty. -/
def CommandFinalize.serialize (_u : CommandFinalize) (b : WriteStream) : WriteStream := b

/-- The body of `CommandFinalize::deserialize` is empty. -/
def CommandFinalize.deserialize (b : ReadStream) : Option (CommandFinalize × ReadStream) :=
  some ({}, b)

/-- The work units whose `serialize`/`deserialize` pair is defined in
`OSPWork.cpp`. -/
inductive Work where
  | commitObject (u : CommitObject)
  | createFrameBuffer (u : CreateFrameBuffer)
  | loadModule (u : LoadModule)
  | newData (u : NewData)
  | newTexture2d (u : NewTexture2d)
  | setRegion (u : SetRegion)
  | clearFrameBuffer (u : ClearFrameBuffer)
  | renderFrame (u : RenderFrame)
  | removeParam (u : RemoveParam)
  | setPixelOp (u : SetPixelOp)
  | commandRelease (u : CommandRelease)
  | commandFinalize (u : CommandFinalize)
deriving DecidableEq, Repr

/-- The registered type of a work unit, which selects the factory used to
decode it. -/
inductive WorkTag where
  | commitObject | createFrameBuffer | loadModule | newData | newTexture2d | setRegion
  | clearFrameBuffer | renderFrame | removeParam | setPixelOp | commandRelease | commandFinalize
deriving DecidableEq, Repr

def Work.tag : Work → WorkTag
  | .commitObject _ => .commitObject
  | .createFrameBuffer _ => .createFrameBuffer
  | .loadModule _ => .loadModule
  | .newData _ => .newData
  | .newTexture2d _ => .newTexture2d
  | .setRegion _ => .setRegion
  | .clearFrameBuffer _ => .clearFrameBuffer
  | .renderFrame _ => .renderFrame
  | .removeParam _ => .removeParam
  | .setPixelOp _ => .setPixelOp
  | .commandRelease _ => .commandRelease
  | .commandFinalize _ => .commandFinalize

/-- Virtual dispatch of `Work::serialize`. -/
def Work.serialize : Work → WriteStream → WriteStream
  | .commitObject u, b => u.serialize b
  | .createFrameBuffer u, b => u.serialize b
  | .loadModule u, b => u.serialize b
  | .newData u, b => u.serialize b
  | .newTexture2d u, b => u.serialize b
  | .setRegion u, b => u.serialize b
  | .clearFrameBuffer u, b => u.serialize b
  | .renderFrame u, b => u.serialize b
  | .removeParam u, b => u.serialize b
  | .setPixelOp u, b => u.serialize b
  | .commandRelease u, b => u.serialize b
  | .commandFinalize u, b => u.serialize b

/-- A fresh unit of the registered type is created and `deserialize` is
called on it. -/
def Work.deserialize (t : WorkTag) (b : ReadStream) : Option (Work × ReadStream) :=
  match t with
  | .commitObject => (CommitObject.deserialize b).map fun r => (.commitObject r.1, r.2)
  | .createFrameBuffer => (CreateFrameBuffer.deserialize b).map fun r => (.createFrameBuffer r.1, r.2)
  | .loadModule => (LoadModule.deserialize b).map fun r => (.loadModule r.1, r.2)
  | .newData => (NewData.deserialize b).map fun r => (.newData r.1, r.2)
  | .newTexture2d => (NewTexture2d.deserialize b).map fun r => (.newTexture2d r.1, r.2)
  | .setRegion => (SetRegion.deserialize b).map fun r => (.setRegion r.1, r.2)
  | .clearFrameBuffer => (ClearFrameBuffer.deserialize b).map fun r => (.clearFrameBuffer r.1, r.2)
  | .renderFrame => (RenderFrame.deserialize b).map fun r => (.renderFrame r.1, r.2)
  | .removeParam => (RemoveParam.deserialize b).map fun r => (.removeParam r.1, r.2)
  | .setPixelOp => (SetPixelOp.deserialize b).map fun r => (.setPixelOp r.1, r.2)
  | .commandRelease => (CommandRelease.deserialize b).map fun r => (.commandRelease r.1, r.2)
  | .commandFinalize => (CommandFinalize.deserialize b).map fun r => (.commandFinalize r.1, r.2)

/-- Every field holds a value of its C++ type: handles are `int64`, vector
components, enumerators and `int` flags are `int32`, channel masks are
`uint32`, counts and lengths are `size_t`. -/
def Work.WellTyped : Work → Prop
  | .commitObject u => isInt64 u.handle.i64
  | .createFrameBuffer u =>
    isInt64 u.handle.i64 ∧ isInt32 u.dimensions.x ∧ isInt32 u.dimensions.y ∧ isInt32 u.format
      ∧ isUInt32 u.channels
  | .loadModule u => isUInt64 u.name.length
  | .newData u =>
    isInt64 u.handle.i64 ∧ isUInt64 u.nItems ∧ isInt32 u.format ∧ isInt32 u.flags
      ∧ isUInt64 u.data.length
  | .newTexture2d u =>
    isInt64 u.handle.i64 ∧ isInt32 u.dimensions.x ∧ isInt32 u.dimensions.y ∧ isInt32 u.format
      ∧ isUInt32 u.flags ∧ isUInt64 u.data.length
  | .setRegion u =>
    isInt64 u.handle.i64 ∧ isInt32 u.regionStart.x ∧ isInt32 u.regionStart.y
      ∧ isInt32 u.regionStart.z ∧ isInt32 u.regionSize.x ∧ isInt32 u.regionSize.y
      ∧ isInt32 u.regionSize.z ∧ isInt32 u.type ∧ isUInt64 u.data.length
  | .clearFrameBuffer u => isInt64 u.handle.i64 ∧ isUInt32 u.channels
  | .renderFrame u => isInt64 u.fbHandle.i64 ∧ isInt64 u.rendererHandle.i64 ∧ isUInt32 u.channels
  | .removeParam u => isInt64 u.handle.i64 ∧ isUInt64 u.name.length
  | .setPixelOp u => isInt64 u.fbHandle.i64 ∧ isInt64 u.poHandle.i64
  | .commandRelease u => isInt64 u.handle.i64
  | .commandFinalize _ => True

instance (w : Work) : Decidable w.WellTyped := by
  cases w <;> unfold Work.WellTyped <;> infer_instance

/-- The unit a receiver holds after decoding: every serialized field as sent;
the master-local pointer `localData` of `NewData` is not part of the wire
format and is null in the receiver's fresh unit. -/
def Work.received : Work → Work
  | .newData u => .newData { u with localData := none }
  | w => w

/-! ## Objects, the handle registry and the state of one rank -/

/-- A pointer is a heap address; address `0` is the null pointer. -/
abbrev Ptr := Nat

abbrev nullptr : Ptr := 0

/-- Values of enumerators and of `ospray::sizeOf`, all declared outside the
given sources and therefore taken as parameters. -/
structure OSPConstants where
  OSP_OBJECT : Int
  OSP_CAMERA : Int
  OSP_DATA : Int
  OSP_FRAMEBUFFER : Int
  OSP_GEOMETRY : Int
  OSP_LIGHT : Int
  OSP_MATERIAL : Int
  OSP_MODEL : Int
  OSP_RENDERER : Int
  OSP_TEXTURE : Int
  OSP_TRANSFER_FUNCTION : Int
  OSP_VOLUME : Int
  OSP_PIXEL_OP : Int
  OSP_STRING : Int
  OSP_DATA_SHARED_BUFFER : Int
  sizeOf : Int → Nat

/-- The dynamic type of a managed object, as far as `dynamic_cast` in the
work units can tell. -/
inductive ObjectKind where
  | object | camera | data | frameBuffer | geometry | light | material | model
  | renderer | texture | transferFunction | volume | pixelOp
deriving DecidableEq, Repr

/-- Modelled from the spec: a parameter value is a tagged variant; the string
and int32 alternatives are the ones used here. -/
inductive ParamValue where
  | str (s : List Nat)
  | int (v : Int)
deriving DecidableEq, Repr

/-- Modelled from the spec: `ospray::Data` is declared outside the given
sources.  A data array has a size, an element type, its flags and a buffer
that is either owned or borrowed; `data` is the readable content of the buffer
(`none` for a null pointer or for memory that was never written). -/
structure Data where
  numItems : Nat
  type : Int
  flags : Int
  ownsBuffer : Bool
  data : Option (List Nat)
deriving DecidableEq, Repr

/-- Modelled from the spec: `DistributedFrameBuffer` is declared outside the
given sources.  A framebuffer has integer dimensions, a pixel format and one
flag per optional channel buffer. -/
structure FrameBuffer where
  size : vec2i
  colorBufferFormat : Int
  hasDepthBuffer : Bool
  hasAccumBuffer : Bool
  hasVarianceBuffer : Bool
deriving DecidableEq, Repr

/-- Modelled from the spec: `Texture2D` is declared outside the given
sources.  A texture has dimensions, a format, its flags and texel bytes that
are either its own copy or borrowed from the caller. -/
structure Texture2D where
  size : vec2i
  type : Int
  flags : Nat
  ownsData : Bool
  data : List Nat
deriving DecidableEq, Repr

/-- Modelled from the spec: `ManagedObject` and its subclasses are declared
outside the given sources.  An object has a dynamic type, a reference count,
a bag of named parameters and, when the count reached zero, is destroyed; a
`Model` has the two sequences `geometry` and `volume` of strong references, a
`Data` object its array, a `FrameBuffer` its description and the strong
reference `pixelOp`, a `Texture2D` its description. -/
structure ManagedObject where
  kind : ObjectKind
  refCount : Int := 1
  destroyed : Bool := false
  params : List (List Nat × ParamValue) := []
  geometry : List Ptr := []
  volume : List Ptr := []
  array : Option Data := none
  frameBuffer : Option FrameBuffer := none
  pixelOp : Ptr := 0
  texture : Option Texture2D := none
deriving DecidableEq, Repr

/-- The three process-wide groups `mpi::world`, `mpi::app`, `mpi::worker`. -/
inductive GroupName where
  | world | app | worker
deriving DecidableEq, Repr

/-- Calls whose order the work units are specified by.  `commit` and
`finalize` are virtual calls into classes outside `OSPWork.cpp` and `barrier`
is a collective of the transport; a call is recorded, not executed. -/
inductive Event where
  | commit (obj : Ptr)
  | finalize (obj : Ptr)
  | barrier (g : GroupName)
  | createMaterial (renderer : Ptr)
  | createLight (renderer : Ptr)
  | globalCreateMaterial
  | globalCreateLight
  | createInstance (po fb prev : Ptr)
  | postErrorMsg
deriving DecidableEq, Repr

/-- The state of one rank: the handle registry, the heap of managed objects
(the object at address `p` is entry `p - 1`) and the calls made so far. -/
structure RankState where
  registry : List (ObjectHandle × Ptr)
  heap : List ManagedObject
  trace : List Event
deriving DecidableEq, Repr

/-- Outcome of running a piece of code: normal return, or an exception (or
failed assertion) raised in the given state. -/
inductive Result (σ : Type) where
  | ok (s : σ)
  | thrown (msg : String) (s : σ)
deriving DecidableEq, Repr

def Result.isOk {σ : Type} : Result σ → Bool
  | .ok _ => true
  | .thrown _ _ => false

/-- The state in which the code returned or threw. -/
def Result.state {σ : Type} : Result σ → σ
  | .ok s => s
  | .thrown _ s => s

def RankState.objAt (s : RankState) (p : Ptr) : Option ManagedObject :=
  if p = 0 then none else s.heap.get? (p - 1)

/-- Apply `f` to the object at address `p`. -/
def RankState.modifyObj (s : RankState) (p : Ptr) (f : ManagedObject → ManagedObject) :
    RankState :=
  match s.objAt p with
  | some o => { s with heap := s.heap.set (p - 1) (f o) }
  | none => s

/-- Whether `dynamic_cast` of the pointer to the class of kind `k` is
non-null. -/
def RankState.dynamicCast (s : RankState) (p : Ptr) (k : ObjectKind) : Bool :=
  match s.objAt p with
  | some o => o.kind == k
  | none => false

/-- Modelled from the spec: `lookup(handle)` returns the bound object without
changing its refcount, or null. -/
def ObjectHandle.lookup (h : ObjectHandle) (s : RankState) : Ptr :=
  match s.registry.lookup h with
  | some p => p
  | none => nullptr

/-- Modelled from the spec: `defined(handle)` is true if the handle is
bound. -/
def ObjectHandle.defined (h : ObjectHandle) (s : RankState) : Bool :=
  (s.registry.lookup h).isSome

/-- Modelled from the spec: `assign(handle, object)` binds the handle and
transfers one strong reference into the registry. -/
def ObjectHandle.assign (h : ObjectHandle) (p : Ptr) (s : RankState) : RankState :=
  { s with registry := (h, p) :: s.registry.filter (fun e => e.1 ≠ h) }

/-- Allocation of a new object: it is placed at the next free address. -/
def RankState.alloc (s : RankState) (o : ManagedObject) : Ptr × RankState :=
  (s.heap.length + 1, { s with heap := s.heap ++ [o] })

/-- Modelled from the spec: `refInc` adds one strong reference. -/
def RankState.refInc (s : RankState) (p : Ptr) : RankState :=
  s.modifyObj p (fun o => { o with refCount := o.refCount + 1 })

/-- Modelled from the spec: `refDec` drops one strong reference; destruction
occurs when the count reaches zero. -/
def RankState.refDec (s : RankState) (p : Ptr) : RankState :=
  s.modifyObj p (fun o =>
    { o with refCount := o.refCount - 1, destroyed := o.destroyed || (o.refCount - 1 == 0) })

def RankState.log (s : RankState) (e : Event) : RankState :=
  { s with trace := s.trace ++ [e] }

/-- Modelled from the spec: `findParam(name, true)->set(v)` finds the named
parameter, adding it when absent, and stores the value. -/
def setParam (ps : List (List Nat × ParamValue)) (name : List Nat) (v : ParamValue) :
    List (List Nat × ParamValue) :=
  match ps with
  | [] => [(name, v)]
  | (n, w) :: rest => if n = name then (n, v) :: rest else (n, w) :: setParam rest name v

/-- The value stored under a parameter name, if any. -/
def getParam (ps : List (List Nat × ParamValue)) (name : List Nat) : Option ParamValue :=
  ps.lookup name

/-! ## ospCommit -/

/-- Source: `CommitObject::run`, the worker path.  The message of the
exception also carries the rank number, which is left out. -/
def CommitObject.run (u : CommitObject) (s : RankState) : Result RankState :=
  let obj := u.handle.lookup s
  if obj ≠ nullptr then
    let s := s.log (.commit obj)
    let s := if s.dynamicCast obj .model then s.log (.finalize obj) else s
    .ok (s.log (.barrier .app))
  else
    .thrown "Error: rank did not have object to commit!" s

/-- Source: `CommitObject::runOnMaster`. -/
def CommitObject.runOnMaster (u : CommitObject) (s : RankState) : Result RankState :=
  let s :=
    if u.handle.defined s then
      let obj := u.handle.lookup s
      if s.dynamicCast obj .renderer then s.log (.commit obj) else s
    else s
  .ok (s.log (.barrier .worker))

/-! ## ospSetParam -/

/-- Work unit `SetParam<std::string>`.  Both strings come from C strings and
hold no zero byte, so `c_str()` denotes the whole string. -/
structure SetParam where
  handle : ObjectHandle
  name : List Nat
  val : List Nat
deriving DecidableEq, Repr

/-- Source: `SetParam<std::string>::run`, the worker path.  `Assert` is
declared outside the given sources; a failed `Assert` signals an error. -/
def SetParam.run (u : SetParam) (s : RankState) : Result RankState :=
  let obj := u.handle.lookup s
  if obj = nullptr then .thrown "Assert(obj)" s
  else .ok (s.modifyObj obj (fun o => { o with params := setParam o.params u.name (.str u.val) }))

/-- Source: `SetParam<std::string>::runOnMaster`. -/
def SetParam.runOnMaster (u : SetParam) (s : RankState) : Result RankState :=
  if !u.handle.defined s then .ok s
  else
    let obj := u.handle.lookup s
    if s.dynamicCast obj .renderer || s.dynamicCast obj .volume then
      .ok (s.modifyObj obj (fun o => { o with params := setParam o.params u.name (.str u.val) }))
    else .ok s

/-! ## ospNewData -/

/-- Copy of `n` bytes starting at the source region `src`.  Reading past the
end of the region is undefined in C++; such bytes read as `0` here. -/
def memcpy (n : Nat) (src : List Nat) : List Nat :=
  (List.range n).map (fun i => src.getD i 0)

/-- Test `flags & OSP_DATA_SHARED_BUFFER`. -/
def sharedBuffer (C : OSPConstants) (flags : Int) : Bool :=
  Int.land flags C.OSP_DATA_SHARED_BUFFER != 0

/-- Source: the constructor `NewData::NewData`, run on the master; `init` is
the application memory (`none` for a null pointer).  The product
`sizeOf(format) * nItems` is computed in `size_t`. -/
def NewData.new (C : OSPConstants) (handle : ObjectHandle) (nItems : Nat) (format : Int)
    (init : Option (List Nat)) (flags : Int) : NewData :=
  let u : NewData :=
    { handle := handle, nItems := nItems, format := format, data := [], localData := none,
      flags := flags }
  match init with
  | some mem =>
    if nItems ≠ 0 then
      if sharedBuffer C flags then { u with localData := some mem }
      else { u with data := memcpy (C.sizeOf format * nItems % 2 ^ 64) mem }
    else u
  | none => u

/-- Modelled from the spec: the constructor of `ospray::Data` is outside the
given sources.  With the shared-buffer flag the bytes are referenced without
copy; otherwise they become an owned buffer of `sizeOf(type) * numItems`
bytes, whose content is unwritten when `init` is null. -/
def Data.new (C : OSPConstants) (numItems : Nat) (type : Int) (init : Option (List Nat))
    (flags : Int) : Data :=
  if sharedBuffer C flags then
    { numItems := numItems, type := type, flags := flags, ownsBuffer := false, data := init }
  else
    { numItems := numItems, type := type, flags := flags, ownsBuffer := true,
      data := init.map (memcpy (C.sizeOf type * numItems % 2 ^ 64)) }

/-- Element `i` of a buffer viewed as an array of 64-bit handles
(`asHandle[i]`); `none` when the buffer does not reach that far. -/
def readHandleAt (buf : List Nat) (i : Nat) : Option Int :=
  let w := (buf.drop (8 * i)).take 8
  if w.length = 8 then some (toSigned 64 (fromLE w)) else none

/-- Store of a pointer into element `i` of a buffer viewed as an array of
64-bit pointers (`asObjPtr[i] = p`). -/
def writePtrAt (buf : List Nat) (i : Nat) (p : Ptr) : List Nat :=
  buf.take (8 * i) ++ encInt64 (p : Int) ++ buf.drop (8 * i + 8)

/-- The bytes of the array held by the `Data` object at `p`. -/
def RankState.arrayBytes (s : RankState) (p : Ptr) : Option (List Nat) :=
  match s.objAt p with
  | some o =>
    match o.array with
    | some d => d.data
    | none => none
  | none => none

def RankState.setArrayBytes (s : RankState) (p : Ptr) (bytes : List Nat) : RankState :=
  s.modifyObj p (fun o =>
    { o with array := o.array.map (fun d => { d with data := some bytes }) })

/-- The element types for which `NewData::run` translates handles. -/
def isObjectFormat (C : OSPConstants) (format : Int) : Bool :=
  format == C.OSP_OBJECT || format == C.OSP_CAMERA || format == C.OSP_DATA
    || format == C.OSP_FRAMEBUFFER || format == C.OSP_GEOMETRY || format == C.OSP_LIGHT
    || format == C.OSP_MATERIAL || format == C.OSP_MODEL || format == C.OSP_RENDERER
    || format == C.OSP_TEXTURE || format == C.OSP_TRANSFER_FUNCTION || format == C.OSP_VOLUME
    || format == C.OSP_PIXEL_OP

/-- Source: the loop `for (size_t i = 0; i < nItems; ++i)` of `NewData::run`,
with `n` iterations left, the next one for index `i`.  A read outside the
buffer and `refInc` through a null pointer are undefined in C++ and stop the
run here. -/
def translateHandles (ospdata : Ptr) : Nat → Nat → RankState → Result RankState
  | 0, _, s => .ok s
  | n + 1, i, s =>
    match s.arrayBytes ospdata with
    | none => .thrown "read through an invalid data pointer" s
    | some buf =>
      match readHandleAt buf i with
      | none => .thrown "read past the end of the data buffer" s
      | some h =>
        if h ≠ NULL_HANDLE.i64 then
          let p := ObjectHandle.lookup { i64 := h } s
          let s := s.setArrayBytes ospdata (writePtrAt buf i p)
          if p = nullptr then .thrown "refInc through a null pointer" s
          else translateHandles ospdata n (i + 1) (s.refInc p)
        else translateHandles ospdata n (i + 1) s

/-- Source: `NewData::run`. -/
def NewData.run (C : OSPConstants) (u : NewData) (s : RankState) : Result RankState :=
  let ospdata : Data :=
    if !u.data.isEmpty then Data.new C u.nItems u.format (some u.data) u.flags
    else
      match u.localData with
      | some mem => Data.new C u.nItems u.format (some mem) u.flags
      | none => Data.new C u.nItems u.format none u.flags
  let (p, s) := s.alloc { kind := .data, array := some ospdata }
  if u.format = C.OSP_STRING then .thrown "assert(format != OSP_STRING)" s
  else
    let s := u.handle.assign p s
    if isObjectFormat C u.format then translateHandles p u.nItems 0 s
    else .ok s

/-- The bytes of an array of 64-bit words. -/
def encWords : List Int → List Nat
  | [] => []
  | w :: ws => encInt64 w ++ encWords ws

/-- The pointer that `NewData::run` stores for a handle word: a null handle
stays null, any other handle is replaced by what it is bound to. -/
def translated (s : RankState) (h : Int) : Int :=
  if h = NULL_HANDLE.i64 then 0 else ((ObjectHandle.lookup { i64 := h } s : Nat) : Int)

/-- How many elements of a handle array are non-null and bound to the object
at `q`. -/
def timesNamed (s : RankState) (hs : List Int) (q : Ptr) : Nat :=
  (hs.filter (fun h => h ≠ NULL_HANDLE.i64 ∧ ObjectHandle.lookup { i64 := h } s = q)).length

/-- The sum of the reference counts of all objects of the rank. -/
def RankState.totalRefs (s : RankState) : Int :=
  (s.heap.map (fun o => o.refCount)).sum

/-! ## ospSetRegion -/

/-- Conversion of an `int` to `size_t`. -/
def toSizeT (v : Int) : Nat := toUnsigned 64 v

/-- The value `sizeOf(type) * size.x * size.y * size.z` as computed in
`size_t`. -/
def SetRegion.bytes (C : OSPConstants) (size : vec3i) (type : Int) : Nat :=
  ((C.sizeOf type % 2 ^ 64 * toSizeT size.x % 2 ^ 64) * toSizeT size.y % 2 ^ 64)
    * toSizeT size.z % 2 ^ 64

/-- Source: the constructor `SetRegion::SetRegion`; `src` is the application
memory. -/
def SetRegion.new (C : OSPConstants) (volume : ObjectHandle) (start size : vec3i)
    (src : List Nat) (type : Int) : Except String SetRegion :=
  let bytes := SetRegion.bytes C size type
  if bytes > 2000000000 then
    .error "MPI ospSetRegion does not support region sizes > 2GB"
  else
    .ok { handle := volume, regionStart := start, regionSize := size, type := type,
          data := memcpy bytes src }

/-! ## ospAddGeometry, ospAddVolume, ospRemoveGeometry, ospRemoveVolume -/

/-- Work units `AddGeometry`, `AddVolume`, `RemoveGeometry`, `RemoveVolume`
share the two fields `modelHandle` and `objectHandle`. -/
structure ModelWork where
  modelHandle : ObjectHandle
  objectHandle : ObjectHandle
deriving DecidableEq, Repr

/-- Source: `AddGeometry::run`.  `Model::geometry` is a vector of `Ref`:
storing a pointer takes one strong reference. -/
def AddGeometry.run (u : ModelWork) (s : RankState) : Result RankState :=
  let model := u.modelHandle.lookup s
  let geometry := u.objectHandle.lookup s
  if model = nullptr then .thrown "Assert(model)" s
  else if geometry = nullptr then .thrown "Assert(geometry)" s
  else
    .ok ((s.refInc geometry).modifyObj model
      (fun m => { m with geometry := m.geometry ++ [geometry] }))

/-- Source: `AddVolume::run`. -/
def AddVolume.run (u : ModelWork) (s : RankState) : Result RankState :=
  let model := u.modelHandle.lookup s
  let volume := u.objectHandle.lookup s
  if model = nullptr then .thrown "Assert(model)" s
  else if volume = nullptr then .thrown "Assert(volume)" s
  else
    .ok ((s.refInc volume).modifyObj model (fun m => { m with volume := m.volume ++ [volume] }))

/-- The geometry list of the object at `p` (empty when there is none). -/
def RankState.geometryOf (s : RankState) (p : Ptr) : List Ptr :=
  match s.objAt p with
  | some m => m.geometry
  | none => []

/-- The volume list of the object at `p` (empty when there is none). -/
def RankState.volumeOf (s : RankState) (p : Ptr) : List Ptr :=
  match s.objAt p with
  | some m => m.volume
  | none => []

/-- The reference count of the object at `p` (zero when there is none). -/
def RankState.refCountOf (s : RankState) (p : Ptr) : Int :=
  match s.objAt p with
  | some o => o.refCount
  | none => 0

/-- Source: `RemoveGeometry::run`: `std::find_if` for the first element that
is the geometry, then `erase` when one was found.  Erasing an element of the
vector of `Ref` releases its strong reference. -/
def RemoveGeometry.run (u : ModelWork) (s : RankState) : Result RankState :=
  let model := u.modelHandle.lookup s
  let geometry := u.objectHandle.lookup s
  if model = nullptr then .thrown "Assert(model)" s
  else if geometry = nullptr then .thrown "Assert(geometry)" s
  else
    match (s.geometryOf model).findIdx? (fun g => geometry == g) with
    | some it =>
      .ok ((s.modifyObj model
        (fun m => { m with geometry := m.geometry.eraseIdx it })).refDec geometry)
    | none => .ok s

/-- Source: `RemoveVolume::run`, which appends the volume before it searches
for it. -/
def RemoveVolume.run (u : ModelWork) (s : RankState) : Result RankState :=
  let model := u.modelHandle.lookup s
  let volume := u.objectHandle.lookup s
  if model = nullptr then .thrown "Assert(model)" s
  else if volume = nullptr then .thrown "Assert(volume)" s
  else
    let s := (s.refInc volume).modifyObj model (fun m => { m with volume := m.volume ++ [volume] })
    match (s.volumeOf model).findIdx? (fun v => volume == v) with
    | some it =>
      .ok ((s.modifyObj model (fun m => { m with volume := m.volume.eraseIdx it })).refDec volume)
    | none => .ok s

/-! ## ospNewFrameBuffer -/

/-- Values of the framebuffer-channel and texture-flag enumerators and of
`ospray::sizeOf` on texture formats, all declared outside the given sources
and therefore taken as parameters. -/
structure OSPFlagConstants where
  OSP_FB_DEPTH : Nat
  OSP_FB_ACCUM : Nat
  OSP_FB_VARIANCE : Nat
  OSP_TEXTURE_SHARED_BUFFER : Nat
  sizeOfTexture : Int → Nat

/-- Source: `CreateFrameBuffer::run`.  A failed `assert` signals a programmer
error; the new object starts with one reference and `refInc` adds one. -/
def CreateFrameBuffer.run (K : OSPFlagConstants) (u : CreateFrameBuffer) (s : RankState) :
    Result RankState :=
  let hasDepthBuffer : Bool := (u.channels &&& K.OSP_FB_DEPTH) != 0
  let hasAccumBuffer : Bool := (u.channels &&& K.OSP_FB_ACCUM) != 0
  let hasVarianceBuffer : Bool := (u.channels &&& K.OSP_FB_VARIANCE) != 0
  if ¬ (u.dimensions.x > 0) then .thrown "assert(dimensions.x > 0)" s
  else if ¬ (u.dimensions.y > 0) then .thrown "assert(dimensions.y > 0)" s
  else
    let (fb, s) := s.alloc
      { kind := .frameBuffer,
        frameBuffer := some { size := u.dimensions, colorBufferFormat := u.format,
                              hasDepthBuffer := hasDepthBuffer,
                              hasAccumBuffer := hasAccumBuffer,
                              hasVarianceBuffer := hasVarianceBuffer } }
    let s := s.refInc fb
    .ok (u.handle.assign fb s)

/-- Source: `CreateFrameBuffer::runOnMaster`, which calls `run()`. -/
def CreateFrameBuffer.runOnMaster (K : OSPFlagConstants) (u : CreateFrameBuffer)
    (s : RankState) : Result RankState :=
  CreateFrameBuffer.run K u s

/-! ## ospNewMaterial, ospNewLight -/

/-- The factories called by the work units, all defined outside the given
sources and therefore taken as parameters: the virtual
`Renderer::createMaterial` and `Renderer::createLight` of the renderer at an
address, the static `Material::createMaterial` and `Light::createLight`, and
the virtual `PixelOp::createInstance(fb, prev)` of the pixel-op at an address.
Each returns the object it created, or `none` for a null pointer. -/
structure Factories where
  rendererCreateMaterial : Ptr → List Nat → Option ManagedObject
  createMaterial : List Nat → Option ManagedObject
  rendererCreateLight : Ptr → List Nat → Option ManagedObject
  createLight : List Nat → Option ManagedObject
  createInstance : Ptr → Ptr → Ptr → Option ManagedObject

/-- Work unit `NewMaterial`. -/
structure NewMaterial where
  handle : ObjectHandle
  rendererHandle : ObjectHandle
  type : List Nat
deriving DecidableEq, Repr

/-- Work unit `NewLight`. -/
structure NewLight where
  handle : ObjectHandle
  rendererHandle : ObjectHandle
  type : List Nat
deriving DecidableEq, Repr

/-- Source: `NewMaterial::run`. -/
def NewMaterial.run (F : Factories) (u : NewMaterial) (s : RankState) : Result RankState :=
  let renderer := u.rendererHandle.lookup s
  let (material, s) :=
    if renderer ≠ nullptr then
      match F.rendererCreateMaterial renderer u.type with
      | some o =>
        let (m, s) := (s.log (.createMaterial renderer)).alloc o
        (m, s.refInc m)
      | none => (nullptr, s.log (.createMaterial renderer))
    else (nullptr, s)
  let (material, s) :=
    if material = nullptr then
      match F.createMaterial u.type with
      | some o => (s.log .globalCreateMaterial).alloc o
      | none => (nullptr, s.log .globalCreateMaterial)
    else (material, s)
  .ok (u.handle.assign material s)

/-- Source: `NewLight::run`. -/
def NewLight.run (F : Factories) (u : NewLight) (s : RankState) : Result RankState :=
  let renderer := u.rendererHandle.lookup s
  let (light, s) :=
    if renderer ≠ nullptr then
      match F.rendererCreateLight renderer u.type with
      | some o =>
        let (l, s) := (s.log (.createLight renderer)).alloc o
        (l, s.refInc l)
      | none => (nullptr, s.log (.createLight renderer))
    else (nullptr, s)
  let (light, s) :=
    if light = nullptr then
      match F.createLight u.type with
      | some o => (s.log .globalCreateLight).alloc o
      | none => (nullptr, s.log .globalCreateLight)
    else (light, s)
  .ok (u.handle.assign light s)

/-! ## ospNewTexture2d -/

/-- The `uint32` value of `~m` for an enumerator `m`. -/
def bitNot32 (m : Nat) : Nat := 2 ^ 32 - (m % 2 ^ 32 + 1)

/-- The value `sizeOf(format) * dimensions.x * dimensions.y` as computed in
`size_t`. -/
def NewTexture2d.bytes (K : OSPFlagConstants) (dimensions : vec2i) (format : Int) : Nat :=
  (K.sizeOfTexture format % 2 ^ 64 * toSizeT dimensions.x % 2 ^ 64) * toSizeT dimensions.y
    % 2 ^ 64

/-- Source: the constructor `NewTexture2d::NewTexture2d`; `texture` is the
application memory holding the source texture. -/
def NewTexture2d.new (K : OSPFlagConstants) (handle : ObjectHandle) (dimensions : vec2i)
    (format : Int) (texture : List Nat) (flags : Nat) : NewTexture2d :=
  { handle := handle, dimensions := dimensions, format := format,
    data := memcpy (NewTexture2d.bytes K dimensions format) texture, flags := flags }

/-- Modelled from the spec: `Texture2D::createTexture` is outside the given
sources.  With the shared-buffer flag the texel bytes are referenced without
copy, otherwise the texture is backed by its own copy. -/
def Texture2D.createTexture (K : OSPFlagConstants) (size : vec2i) (type : Int)
    (data : List Nat) (flags : Nat) : Texture2D :=
  { size := size, type := type, flags := flags,
    ownsData := (flags &&& K.OSP_TEXTURE_SHARED_BUFFER) == 0, data := data }

/-- Source: `NewTexture2d::run`. -/
def NewTexture2d.run (K : OSPFlagConstants) (u : NewTexture2d) (s : RankState) :
    Result RankState :=
  let texture := Texture2D.createTexture K u.dimensions u.format u.data
    (u.flags &&& bitNot32 K.OSP_TEXTURE_SHARED_BUFFER)
  let (p, s) := s.alloc { kind := .texture, texture := some texture }
  .ok (u.handle.assign p s)

/-- The texture description of the object at `p`, if it has one. -/
def RankState.textureOf (s : RankState) (p : Ptr) : Option Texture2D :=
  match s.objAt p with
  | some o => o.texture
  | none => none

/-! ## ospSetPixelOp -/

/-- The pixel-op of the framebuffer at `p` (null when there is no object). -/
def RankState.pixelOpOf (s : RankState) (p : Ptr) : Ptr :=
  match s.objAt p with
  | some o => o.pixelOp
  | none => nullptr

/-- Source: `SetPixelOp::run`.  `FrameBuffer::pixelOp` is a `Ref`: assigning a
pointer to it takes a reference on the new target when it is non-null and
releases the one on the old target when that is non-null. -/
def SetPixelOp.run (F : Factories) (u : SetPixelOp) (s : RankState) : Result RankState :=
  let fb := u.fbHandle.lookup s
  let po := u.poHandle.lookup s
  if fb = nullptr then .thrown "Assert(fb)" s
  else if po = nullptr then .thrown "Assert(po)" s
  else
    let prev := s.pixelOpOf fb
    let s := s.log (.createInstance po fb prev)
    let (inst, s) :=
      match F.createInstance po fb prev with
      | some o => s.alloc o
      | none => (nullptr, s)
    let s := if inst ≠ nullptr then s.refInc inst else s
    let s := if prev ≠ nullptr then s.refDec prev else s
    let s := s.modifyObj fb (fun o => { o with pixelOp := inst })
    if inst = nullptr then .ok (s.log .postErrorMsg) else .ok s

/-! ## Renderer (modules/cpu/render/Renderer.cpp) -/

/-- Three floats.  Float values are only stored and copied by
`Renderer::commit`, never computed with; they are carried as rationals. -/
structure vec3f where
  x : Rat
  y : Rat
  z : Rat
deriving DecidableEq, Repr

/-- Four floats. -/
structure vec4f where
  x : Rat
  y : Rat
  z : Rat
  w : Rat
deriving DecidableEq, Repr

/-- Modelled from the spec: the tagged value of a renderer parameter, with
the alternatives that `Renderer::commit` asks for. -/
inductive RendererParam where
  | int (v : Int)
  | uchar (v : Nat)
  | float (v : Rat)
  | vec3f (v : vec3f)
  | vec4f (v : vec4f)
  | object (p : Ptr)
  | data (p : Ptr)
deriving DecidableEq, Repr

/-- Modelled from the spec: `getParam<int>(name, valIfNotFound)` returns the
stored value when the named parameter exists with that type, else the
default. -/
def getParamInt (ps : List (String × RendererParam)) (name : String) (valIfNotFound : Int) :
    Int :=
  match ps.lookup name with
  | some (.int v) => v
  | _ => valIfNotFound

/-- Modelled from the spec: `getParam<uint8_t>(name, valIfNotFound)`. -/
def getParamUChar (ps : List (String × RendererParam)) (name : String) (valIfNotFound : Nat) :
    Nat :=
  match ps.lookup name with
  | some (.uchar v) => v
  | _ => valIfNotFound

/-- Modelled from the spec: `getParam<float>(name, valIfNotFound)`. -/
def getParamFloat (ps : List (String × RendererParam)) (name : String) (valIfNotFound : Rat) :
    Rat :=
  match ps.lookup name with
  | some (.float v) => v
  | _ => valIfNotFound

/-- Modelled from the spec: `getParam<vec3f>(name, valIfNotFound)`. -/
def getParamVec3f (ps : List (String × RendererParam)) (name : String) (valIfNotFound : vec3f) :
    vec3f :=
  match ps.lookup name with
  | some (.vec3f v) => v
  | _ => valIfNotFound

/-- Modelled from the spec: `getParam<vec4f>(name, valIfNotFound)`. -/
def getParamVec4f (ps : List (String × RendererParam)) (name : String) (valIfNotFound : vec4f) :
    vec4f :=
  match ps.lookup name with
  | some (.vec4f v) => v
  | _ => valIfNotFound

/-- Modelled from the spec: `getParamObject(name)` returns the object stored
under the name, or null. -/
def getParamObject (ps : List (String × RendererParam)) (name : String) : Ptr :=
  match ps.lookup name with
  | some (.object p) => p
  | _ => nullptr

/-- Modelled from the spec: `getParamDataT<Material *>(name)` returns the data
array stored under the name, or null. -/
def getParamDataT (ps : List (String × RendererParam)) (name : String) : Ptr :=
  match ps.lookup name with
  | some (.data p) => p
  | _ => nullptr

/-- Modelled from the spec: `setParam(name, v)` stores the value under the
name, replacing the value of an existing parameter. -/
def setRendererParam (ps : List (String × RendererParam)) (name : String) (v : RendererParam) :
    List (String × RendererParam) :=
  match ps with
  | [] => [(name, v)]
  | (n, w) :: rest =>
    if name == n then (n, v) :: rest else (n, w) :: setRendererParam rest name v

/-- The pixel filter class that `setupPixelFilter` instantiates. -/
inductive PixelFilterKind where
  | box | point | gauss | blackmanHarris | mitchell
deriving DecidableEq, Repr

/-- Enumerator values, texture attributes and the contents of data arrays,
all defined outside `Renderer.cpp` and therefore taken as parameters. -/
structure RendererEnv where
  OSP_TEXTURE_R32F : Int
  OSP_TEXTURE_FILTER_NEAREST : Int
  OSP_PIXELFILTER_POINT : Nat
  OSP_PIXELFILTER_BOX : Nat
  OSP_PIXELFILTER_GAUSS : Nat
  OSP_PIXELFILTER_MITCHELL : Nat
  OSP_PIXELFILTER_BLACKMAN_HARRIS : Nat
  textureFormat : Ptr → Int
  textureFilter : Ptr → Int
  arrayOfSh : Ptr → List Ptr

/-- The fields of the shared structure reached through `getSh()` that
`Renderer::commit` writes. -/
structure RendererSh where
  spp : Int := 0
  maxDepth : Int := 0
  minContribution : Rat := 0
  bgColor : vec4f := { x := 0, y := 0, z := 0, w := 0 }
  backplate : Ptr := nullptr
  maxDepthTexture : Ptr := nullptr
  material : Option (List Ptr) := none
  numMaterials : Nat := 0
  pixelFilter : Option PixelFilterKind := none
deriving DecidableEq, Repr

/-- The renderer: its parameter bag, the members that `commit` derives from
it, the shared structure, and whether the once-only warning about the
max-depth texture has been issued. -/
structure Renderer where
  params : List (String × RendererParam) := []
  spp : Int := 0
  errorThreshold : Rat := 0
  maxDepthTexture : Ptr := nullptr
  backplate : Ptr := nullptr
  bgColor : vec4f := { x := 0, y := 0, z := 0, w := 0 }
  materialData : Ptr := nullptr
  materialArray : Option (List Ptr) := none
  pixelFilter : Option PixelFilterKind := none
  sh : RendererSh := {}
  warnedMaxDepthTexture : Bool := false
deriving DecidableEq, Repr

/-- Conversion of an `int32_t` to `uint8_t`. -/
def toUInt8 (v : Int) : Nat := toUnsigned 8 v

/-- Source: `Renderer::setupPixelFilter`.  The `int32_t` default is converted
to `uint8_t`; the switch selects the class by the value read. -/
def Renderer.setupPixelFilter (E : RendererEnv) (r : Renderer) : Renderer :=
  let pixelFilterType : Nat :=
    getParamUChar r.params "pixelFilter"
      (toUInt8 (getParamInt r.params "pixelFilter" (E.OSP_PIXELFILTER_GAUSS : Int)))
  let kind : PixelFilterKind :=
    if pixelFilterType = E.OSP_PIXELFILTER_BOX then .box
    else if pixelFilterType = E.OSP_PIXELFILTER_POINT then .point
    else if pixelFilterType = E.OSP_PIXELFILTER_BLACKMAN_HARRIS then .blackmanHarris
    else if pixelFilterType = E.OSP_PIXELFILTER_MITCHELL then .mitchell
    else .gauss
  { r with pixelFilter := some kind }

/-- Source: `Renderer::commit`. -/
def Renderer.commit (E : RendererEnv) (r : Renderer) : Renderer :=
  let spp : Int := max 1 (getParamInt r.params "pixelSamples" 1)
  let maxDepth : Int := max 0 (getParamInt r.params "maxPathLength" 20)
  let minContribution : Rat := getParamFloat r.params "minContribution" (1 / 1000)
  let errorThreshold : Rat := getParamFloat r.params "varianceThreshold" 0
  let maxDepthTexture : Ptr := getParamObject r.params "map_maxDepth"
  let backplate : Ptr := getParamObject r.params "map_backplate"
  let warned : Bool :=
    r.warnedMaxDepthTexture
      || (maxDepthTexture != nullptr
          && (E.textureFormat maxDepthTexture != E.OSP_TEXTURE_R32F
              || E.textureFilter maxDepthTexture != E.OSP_TEXTURE_FILTER_NEAREST))
  let f : Rat := getParamFloat r.params "backgroundColor" 0
  let bgColor3 : vec3f := getParamVec3f r.params "backgroundColor" { x := f, y := f, z := f }
  let bgColor : vec4f :=
    getParamVec4f r.params "backgroundColor"
      { x := bgColor3.x, y := bgColor3.y, z := bgColor3.z, w := 0 }
  let materialData : Ptr := getParamDataT r.params "material"
  let materialArray : Option (List Ptr) :=
    if materialData ≠ nullptr then some (E.arrayOfSh materialData) else none
  let numMaterials : Nat :=
    if materialData ≠ nullptr then (E.arrayOfSh materialData).length else r.sh.numMaterials
  let r1 : Renderer :=
    { r with spp := spp, errorThreshold := errorThreshold, maxDepthTexture := maxDepthTexture,
             backplate := backplate, bgColor := bgColor, materialData := materialData,
             materialArray := materialArray, warnedMaxDepthTexture := warned,
             sh := { r.sh with material := materialArray, numMaterials := numMaterials,
                               spp := spp, maxDepth := maxDepth,
                               minContribution := minContribution, bgColor := bgColor,
                               backplate := backplate, maxDepthTexture := maxDepthTexture } }
  let r2 := Renderer.setupPixelFilter E r1
  { r2 with sh := { r2.sh with pixelFilter := r2.pixelFilter } }

/-- Setting a parameter on the renderer. -/
def Renderer.setParam (r : Renderer) (name : String) (v : RendererParam) : Renderer :=
  { r with params := setRendererParam r.params name v }

/-! ## Group (ospray/mpi/MPICommon.h) -/

/-- A communicator handle. -/
abbrev MPI_Comm := Nat

/-- What the MPI library reports, all outside the given sources and therefore
taken as parameters: `MPI_Comm_rank`, `MPI_Comm_size`, `MPI_Comm_remote_size`
and the constants `MPI_ROOT` and `MPI_COMM_NULL`. -/
structure MPI where
  Comm_rank : MPI_Comm → Int
  Comm_size : MPI_Comm → Int
  Comm_remote_size : MPI_Comm → Int
  MPI_ROOT : Int
  MPI_COMM_NULL : MPI_Comm

/-- Source: `struct Group`. -/
structure Group where
  containsMe : Bool
  comm : MPI_Comm
  rank : Int
  size : Int
deriving DecidableEq, Repr

/-- Source: the constructor `Group()`. -/
def Group.new (M : MPI) : Group :=
  { size := -1, rank := -1, comm := M.MPI_COMM_NULL, containsMe := false }

/-- Source: `Group::makeIntercomm`. -/
def Group.makeIntercomm (M : MPI) (g : Group) : Group :=
  { g with rank := M.Comm_rank g.comm, size := M.Comm_size g.comm, containsMe := true }

/-- Source: `Group::makeIntracomm`. -/
def Group.makeIntracomm (M : MPI) (g : Group) : Group :=
  { g with containsMe := false, rank := M.MPI_ROOT, size := M.Comm_remote_size g.comm }

/-! ## Floating-point arithmetic (IEEE 754 binary formats) -/

/-- The integer nearest to `m`, the even one of the two when `m` lies halfway
between them. -/
def roundHalfEven (m : Rat) : Int :=
  if m - ⌊m⌋ < 1 / 2 then ⌊m⌋
  else if 1 / 2 < m - ⌊m⌋ then ⌊m⌋ + 1
  else if ⌊m⌋ % 2 = 0 then ⌊m⌋ else ⌊m⌋ + 1

/-- Rounding of a positive value to a binary format with `t` fraction bits
and least normal exponent `emin`: the value is rounded to the nearest
multiple of the unit in the last place of its binade (of the subnormal range
below `2 ^ emin`). -/
def roundMagnitude (t : Nat) (emin : Int) (q : Rat) : Rat :=
  (roundHalfEven (q / 2 ^ (max (Int.log 2 q) emin - (t : Int))) : Rat)
    * 2 ^ (max (Int.log 2 q) emin - (t : Int))

/-- Round-to-nearest, ties-to-even, to the binary format with `t` fraction
bits and least normal exponent `emin`.  Only the finite range is modelled:
the result of a value beyond the largest finite number of the format is not
an infinity here. -/
def roundNearestEven (t : Nat) (emin : Int) (q : Rat) : Rat :=
  if q = 0 then 0 else if 0 < q then roundMagnitude t emin q else - roundMagnitude t emin (-q)

/-- The correctly rounded square root in the binary format with `t` fraction
bits: the root of a positive value scaled to an integer significand, rounded
to nearest (ties to even).  The square root of a negative number is not a
number; it reads as `0` here. -/
def sqrtNearest (t : Nat) (emin : Int) (q : Rat) : Rat :=
  if q ≤ 0 then 0
  else
    let u : Rat := 2 ^ (max (Int.log 2 q / 2) emin - (t : Int))
    let y : Rat := q / (u * u)
    let m : Nat := Nat.sqrt ⌊y⌋₊
    if y < ((m : Rat) + 1 / 2) * ((m : Rat) + 1 / 2) then (m : Rat) * u
    else if ((m : Rat) + 1 / 2) * ((m : Rat) + 1 / 2) < y then ((m : Rat) + 1) * u
    else if m % 2 = 0 then (m : Rat) * u else ((m : Rat) + 1) * u

/-! ## TransferFunctionPiecewiseLinearWidget (apps/volumeViewer) -/

/-- A `QPointF`: its coordinates are `qreal`, which is `double` here (the
source passes them to `std::min` and `std::max` together with `double`
literals).  A coordinate is carried as the rational value of the `double`;
`float` values are carried likewise. -/
structure QPointF where
  x : Rat
  y : Rat
deriving DecidableEq, Repr

/-- The arithmetic of the platform, declared outside the given sources:
`toFloat` and `toDouble` round the exact result of an operation, or a value
that is converted, to `float` and to `double`; `sqrtf` is the function of the
C library; `pointEq` is `operator==` of `QPointF`.  Every operation is rounded
to its C++ type. -/
structure FloatEnv where
  toFloat : Rat → Rat
  toDouble : Rat → Rat
  sqrtf : Rat → Rat
  pointEq : QPointF → QPointF → Bool

/-- What the statements about the widget use of the arithmetic: rounding is
monotone and leaves `0` and `1` unchanged, and a point equals itself. -/
def FloatEnv.Lawful (F : FloatEnv) : Prop :=
  Monotone F.toFloat ∧ F.toFloat 0 = 0 ∧ F.toFloat 1 = 1
  ∧ Monotone F.toDouble ∧ F.toDouble 0 = 0 ∧ F.toDouble 1 = 1
  ∧ ∀ p, F.pointEq p p = true

/-- IEEE 754 arithmetic: `float` is binary32, `double` is binary64, both
rounded to nearest with ties to even, `sqrtf` is correctly rounded, and two
points are equal when `qFuzzyIsNull` holds of both coordinate differences
(Qt 4). -/
def ieee754 : FloatEnv :=
  { toFloat := roundNearestEven 23 (-126),
    toDouble := roundNearestEven 52 (-1022),
    sqrtf := sqrtNearest 23 (-126),
    pointEq := fun p q =>
      decide (|roundNearestEven 52 (-1022) (p.x - q.x)|
          ≤ roundNearestEven 52 (-1022) (1 / 1000000000000))
        && decide (|roundNearestEven 52 (-1022) (p.y - q.y)|
          ≤ roundNearestEven 52 (-1022) (1 / 1000000000000)) }

/-- Source: `comparePointsByX`. -/
def comparePointsByX (i j : QPointF) : Bool := decide (i.x < j.x)

/-- The order in which `std::stable_sort` with `comparePointsByX` may leave
two elements: `a` before `b` unless `b` compares less than `a`. -/
def notAfter (a b : QPointF) : Prop := comparePointsByX b a = false

instance : DecidableRel notAfter := fun a b => by unfold notAfter; infer_instance

instance : IsTotal QPointF notAfter :=
  ⟨fun a b => by simp only [notAfter, comparePointsByX, decide_eq_false_iff_not, not_lt]
                 exact le_total a.x b.x⟩

instance : IsTrans QPointF notAfter :=
  ⟨fun a b c => by simp only [notAfter, comparePointsByX, decide_eq_false_iff_not, not_lt]
                   exact le_trans⟩

/-- Source: `std::stable_sort(points_.begin(), points_.end(), comparePointsByX)`,
as the stable insertion sort. -/
def stable_sort (l : List QPointF) : List QPointF := l.insertionSort notAfter

inductive MouseButton where
  | LeftButton | RightButton | OtherButton
deriving DecidableEq, Repr

/-- The widget: its control points, the selected index (`-1` for none) and
the size `width()`, `height()` of the `QWidget`. -/
structure TransferFunctionPiecewiseLinearWidget where
  points_ : List QPointF
  selectedPointIndex_ : Int
  width : Int
  height : Int
deriving DecidableEq, Repr

namespace TransferFunctionPiecewiseLinearWidget

/-- Source: the constructor, for a widget of the given size. -/
def new (width height : Int) : TransferFunctionPiecewiseLinearWidget :=
  { points_ := [{ x := 0, y := 0 }, { x := 1, y := 1 }], selectedPointIndex_ := -1,
    width := width, height := height }

/-- Source: `pointToWidgetPoint`: `point.x() * float(width())` and
`(1. - point.y()) * float(height())`, computed in `double`. -/
def pointToWidgetPoint (F : FloatEnv) (W : TransferFunctionPiecewiseLinearWidget)
    (point : QPointF) : QPointF :=
  { x := F.toDouble (point.x * F.toFloat (W.width : Rat)),
    y := F.toDouble (F.toDouble (1 - point.y) * F.toFloat (W.height : Rat)) }

/-- Source: `widgetPointToPoint`: `float(widgetPoint.x()) / float(width())`,
a `float` division, and `1. - float(widgetPoint.y()) / float(height())`, a
`float` division subtracted in `double`. -/
def widgetPointToPoint (F : FloatEnv) (W : TransferFunctionPiecewiseLinearWidget)
    (widgetPoint : QPointF) : QPointF :=
  { x := F.toFloat (F.toFloat widgetPoint.x / F.toFloat (W.width : Rat)),
    y := F.toDouble (1 - F.toFloat (F.toFloat widgetPoint.y / F.toFloat (W.height : Rat))) }

/-- Source: `getSelectedPointIndex`; `delta` is a difference of `QPointF`,
the sum of squares is computed in `double` and converted to `float` for
`sqrtf`, and `pointPixelRadius_` is 8. -/
def getSelectedPointIndex (F : FloatEnv) (W : TransferFunctionPiecewiseLinearWidget)
    (widgetClickPoint : QPointF) : Int :=
  match W.points_.findIdx? (fun p =>
      decide (F.sqrtf (F.toFloat (F.toDouble
        (F.toDouble (F.toDouble ((W.pointToWidgetPoint F p).x - widgetClickPoint.x)
            * F.toDouble ((W.pointToWidgetPoint F p).x - widgetClickPoint.x))
          + F.toDouble (F.toDouble ((W.pointToWidgetPoint F p).y - widgetClickPoint.y)
            * F.toDouble ((W.pointToWidgetPoint F p).y - widgetClickPoint.y))))) ≤ 8)) with
  | some i => (i : Int)
  | none => -1

/-- Source: `mousePressEvent`, for the button and the position `posF()`.
`std::find` compares with `operator==` of `QPointF` and gives `end()` when no
element is equal. -/
def mousePressEvent (F : FloatEnv) (W : TransferFunctionPiecewiseLinearWidget)
    (button : MouseButton) (posF : QPointF) :
    Except String TransferFunctionPiecewiseLinearWidget :=
  match button with
  | .LeftButton =>
    let selected := W.getSelectedPointIndex F posF
    if selected = -1 then
      let newPoint := W.widgetPointToPoint F posF
      let points := stable_sort (W.points_ ++ [newPoint])
      let selected : Int :=
        match points.findIdx? (fun p => F.pointEq p newPoint) with
        | some i => (i : Int)
        | none => (points.length : Int)
      if selected ≥ (points.length : Int) then
        .error "TransferFunctionPiecewiseLinearWidget::mousePressEvent(): selected point index out of range"
      else .ok { W with points_ := points, selectedPointIndex_ := selected }
    else .ok { W with selectedPointIndex_ := selected }
  | .RightButton =>
    let selected := W.getSelectedPointIndex F posF
    let W1 :=
      if selected ≠ -1 ∧ selected ≠ 0 ∧ selected ≠ (W.points_.length : Int) - 1 then
        { W with points_ := W.points_.eraseIdx selected.toNat }
      else W
    .ok { W1 with selectedPointIndex_ := -1 }
  | .OtherButton => .ok W

/-- Source: `mouseReleaseEvent`. -/
def mouseReleaseEvent (W : TransferFunctionPiecewiseLinearWidget) :
    TransferFunctionPiecewiseLinearWidget :=
  if W.selectedPointIndex_ ≠ -1 then { W with selectedPointIndex_ := -1 } else W

/-- Source: `mouseMoveEvent`, for the position `posF()`.  Indexing `points_`
out of range is undefined in C++; such a read gives the origin here. -/
def mouseMoveEvent (F : FloatEnv) (W : TransferFunctionPiecewiseLinearWidget)
    (posF : QPointF) : TransferFunctionPiecewiseLinearWidget :=
  if W.selectedPointIndex_ ≠ -1 then
    let mousePoint := W.widgetPointToPoint F posF
    let i := W.selectedPointIndex_.toNat
    let x : Rat :=
      if W.selectedPointIndex_ = 0 then 0
      else if W.selectedPointIndex_ = (W.points_.length : Int) - 1 then 1
      else
        min (max mousePoint.x (W.points_.getD (i - 1) { x := 0, y := 0 }).x)
          (W.points_.getD (i + 1) { x := 0, y := 0 }).x
    let y : Rat := max (min mousePoint.y 1) 0
    { W with points_ := W.points_.set i { x := x, y := y } }
  else W

/-- A mouse event delivered to the widget, with its position. -/
inductive MouseEvent where
  | press (button : MouseButton) (posF : QPointF)
  | move (posF : QPointF)
  | release (posF : QPointF)
deriving DecidableEq, Repr

def MouseEvent.posF : MouseEvent → QPointF
  | .press _ p => p
  | .move p => p
  | .release p => p

/-- Dispatch of one event to its handler. -/
def handleEvent (F : FloatEnv) (W : TransferFunctionPiecewiseLinearWidget) :
    MouseEvent → Except String TransferFunctionPiecewiseLinearWidget
  | .press button p => W.mousePressEvent F button p
  | .move p => .ok (W.mouseMoveEvent F p)
  | .release _ => .ok W.mouseReleaseEvent

/-- Delivery of a sequence of events, stopping at the first exception. -/
def handleEvents (F : FloatEnv) (W : TransferFunctionPiecewiseLinearWidget) :
    List MouseEvent → Except String TransferFunctionPiecewiseLinearWidget
  | [] => .ok W
  | e :: es =>
    match W.handleEvent F e with
    | .ok W1 => handleEvents F W1 es
    | .error m => .error m

/-- A position inside the widget. -/
def inside (W : TransferFunctionPiecewiseLinearWidget) (p : QPointF) : Prop :=
  0 ≤ p.x ∧ p.x ≤ (W.width : Rat) ∧ 0 ≤ p.y ∧ p.y ≤ (W.height : Rat)

/-- The linear interpolation between two control points at `x`, in exact
arithmetic. -/
def lerp (a b : QPointF) (x : Rat) : Rat := a.y + (x - a.x) / (b.x - a.x) * (b.y - a.y)

/-- The shape of a control-point list the widget is meant to keep: at least
two points, sorted by non-decreasing x, the first at x = 0, the last at x = 1,
and every coordinate in [0, 1]. -/
def GoodPoints (l : List QPointF) : Prop :=
  2 ≤ l.length
  ∧ l.Sorted (fun u v => u.x ≤ v.x)
  ∧ l.head?.map QPointF.x = some 0
  ∧ l.getLast?.map QPointF.x = some 1
  ∧ ∀ p ∈ l, 0 ≤ p.x ∧ p.x ≤ 1 ∧ 0 ≤ p.y ∧ p.y ≤ 1

instance (l : List QPointF) : Decidable (GoodPoints l) := by
  unfold GoodPoints
  infer_instance

/-- The state invariant of a widget of positive size: its points are
`GoodPoints` and the selected index is `-1` or the index of a point. -/
def WellFormed (W : TransferFunctionPiecewiseLinearWidget) : Prop :=
  GoodPoints W.points_
  ∧ (W.selectedPointIndex_ = -1
      ∨ (0 ≤ W.selectedPointIndex_ ∧ W.selectedPointIndex_ < (W.points_.length : Int)))
  ∧ 0 < W.width ∧ 0 < W.height

instance (W : TransferFunctionPiecewiseLinearWidget) : Decidable (WellFormed W) := by
  unfold WellFormed
  infer_instance

end TransferFunctionPiecewiseLinearWidget

/-! ## Concrete values used in evaluations -/

/-- A NewData unit with eight payload bytes. -/
def exampleNewData : NewData :=
  { handle := { i64 := 7 }, nItems := 2, format := 2500, data := [1, 2, 3, 4, 5, 6, 7, 8],
    localData := none, flags := 0 }

/-- Enumerator values and element sizes used in concrete evaluations. -/
def exampleConstants : OSPConstants :=
  { OSP_OBJECT := 1000, OSP_CAMERA := 1001, OSP_DATA := 1002, OSP_FRAMEBUFFER := 1003,
    OSP_GEOMETRY := 1004, OSP_LIGHT := 1005, OSP_MATERIAL := 1006, OSP_MODEL := 1007,
    OSP_RENDERER := 1008, OSP_TEXTURE := 1009, OSP_TRANSFER_FUNCTION := 1010,
    OSP_VOLUME := 1011, OSP_PIXEL_OP := 1012, OSP_STRING := 1500,
    OSP_DATA_SHARED_BUFFER := 1,
    sizeOf := fun t => if 1000 ≤ t ∧ t ≤ 1012 then 8 else if t = 2000 then 1 else 4 }

/-- A rank on which handle 11 names a model at address 1 (holding the volume
at address 5), handle 12 a geometry at address 2, handle 13 a renderer at
address 3, handle 14 a camera at address 4 and handle 15 a volume at
address 5; handle 9 is bound to nothing. -/
def exampleState : RankState :=
  { registry := [({ i64 := 11 }, 1), ({ i64 := 12 }, 2), ({ i64 := 13 }, 3), ({ i64 := 14 }, 4),
      ({ i64 := 15 }, 5)],
    heap := [{ kind := .model, volume := [5] }, { kind := .geometry },
      { kind := .renderer }, { kind := .camera }, { kind := .volume, refCount := 2 }],
    trace := [] }

/-- The parameter name `fovy`. -/
def fovy : List Nat := [102, 111, 118, 121]

/-- The unit the master builds for one four-byte item of a non-object type
with the shared-buffer flag set. -/
def exampleSharedData : NewData :=
  NewData.new exampleConstants { i64 := 7 } 1 2500 (some [1, 2, 3, 4]) 1

/-- A one-element `OSP_GEOMETRY` array naming handle 12. -/
def exampleGeometryArray : NewData :=
  { handle := { i64 := 7 }, nItems := 1, format := 1004, data := encWords [12],
    localData := none, flags := 0 }

/-- Channel and texture flag values used in concrete evaluations. -/
def exampleFlagConstants : OSPFlagConstants :=
  { OSP_FB_DEPTH := 2, OSP_FB_ACCUM := 4, OSP_FB_VARIANCE := 8, OSP_TEXTURE_SHARED_BUFFER := 1,
    sizeOfTexture := fun _ => 4 }

/-- A 4 x 4 framebuffer request with the colour and accumulation channels. -/
def exampleCreateFrameBuffer : CreateFrameBuffer :=
  { handle := { i64 := 7 }, dimensions := { x := 4, y := 4 }, format := 1, channels := 5 }

/-- Factories used in concrete evaluations: the renderer at address 3 creates
materials of type `[1]` only, the static factories create materials and lights
of the types `[1]` and `[2]`, and only the pixel-op at address 4 creates
instances. -/
def exampleFactories : Factories :=
  { rendererCreateMaterial := fun r t =>
      if r = 3 ∧ t = [1] then some { kind := .material, refCount := 1 } else none,
    createMaterial := fun t =>
      if t = [1] ∨ t = [2] then some { kind := .material, refCount := 1 } else none,
    rendererCreateLight := fun _ _ => none,
    createLight := fun t =>
      if t = [1] ∨ t = [2] then some { kind := .light, refCount := 1 } else none,
    createInstance := fun po _ _ => if po = 4 then some { kind := .pixelOp } else none }

/-- A material of type `[1]` requested for the renderer bound to handle 13. -/
def exampleNewMaterial : NewMaterial :=
  { handle := { i64 := 7 }, rendererHandle := { i64 := 13 }, type := [1] }

/-- A light of type `[2]` requested for the renderer bound to handle 13. -/
def exampleNewLight : NewLight :=
  { handle := { i64 := 8 }, rendererHandle := { i64 := 13 }, type := [2] }

/-- A 2 x 2 texture of four-byte texels with the shared-buffer flag and one
further flag set, built by the constructor from sixteen application bytes. -/
def exampleNewTexture2d : NewTexture2d :=
  NewTexture2d.new exampleFlagConstants { i64 := 7 } { x := 2, y := 2 } 3
    [1, 2, 3, 4, 5, 6, 7, 8, 9, 10, 11, 12, 13, 14, 15, 16] 3

/-- A rank on which handle 21 names a framebuffer at address 1 whose pixel-op
is the instance at address 3, handle 22 a pixel-op at address 2 and handle 24
a pixel-op at address 4. -/
def examplePixelOpState : RankState :=
  { registry := [({ i64 := 21 }, 1), ({ i64 := 22 }, 2), ({ i64 := 24 }, 4)],
    heap := [{ kind := .frameBuffer, pixelOp := 3 }, { kind := .pixelOp },
      { kind := .pixelOp }, { kind := .pixelOp }],
    trace := [] }

/-- Enumerator values used in concrete evaluations of the renderer; no
texture is consulted and the material array at any address is empty. -/
def exampleRendererEnv : RendererEnv :=
  { OSP_TEXTURE_R32F := 6, OSP_TEXTURE_FILTER_NEAREST := 1, OSP_PIXELFILTER_POINT := 0,
    OSP_PIXELFILTER_BOX := 1, OSP_PIXELFILTER_GAUSS := 2, OSP_PIXELFILTER_MITCHELL := 3,
    OSP_PIXELFILTER_BLACKMAN_HARRIS := 4, textureFormat := fun _ => 6,
    textureFilter := fun _ => 1, arrayOfSh := fun _ => [] }

/-- An MPI library in which communicator 1 has local rank 2 among 4 ranks and
a remote group of 3 ranks, and `MPI_ROOT` is -4. -/
def exampleMPI : MPI :=
  { Comm_rank := fun c => if c = 1 then 2 else 0, Comm_size := fun c => if c = 1 then 4 else 1,
    Comm_remote_size := fun c => if c = 1 then 3 else 0, MPI_ROOT := -4, MPI_COMM_NULL := 0 }

/-- A group on communicator 1 whose other fields are still those of the
constructor. -/
def exampleGroup : Group := { Group.new exampleMPI with comm := 1 }

/-- A press that creates a point, a drag, the release, and a right press on
the dragged point, all inside a 100 by 100 widget. -/
def exampleEvents : List TransferFunctionPiecewiseLinearWidget.MouseEvent :=
  [.press .LeftButton { x := 50, y := 50 }, .move { x := 80, y := 20 },
   .release { x := 80, y := 20 }, .press .RightButton { x := 80, y := 20 }]

/-- A model that holds the geometries at addresses 2 and 3 twice each and
the volume at address 5 twice, with the volume at address 4 in between. -/
def exampleModel : ManagedObject :=
  { kind := .model, geometry := [3, 2, 3, 2], volume := [5, 4, 5] }

/-- A rank on which handle 11 names `exampleModel` at address 1, handles 12
and 13 the geometries at addresses 2 and 3, handles 14 and 15 the volumes at
addresses 4 and 5, and handle 16 a volume at address 6 that the model does not
hold. -/
def exampleSceneState : RankState :=
  { registry := [({ i64 := 11 }, 1), ({ i64 := 12 }, 2), ({ i64 := 13 }, 3), ({ i64 := 14 }, 4),
      ({ i64 := 15 }, 5), ({ i64 := 16 }, 6)],
    heap := [exampleModel, { kind := .geometry, refCount := 3 },
      { kind := .geometry, refCount := 3 }, { kind := .volume, refCount := 2 },
      { kind := .volume, refCount := 3 }, { kind := .volume }],
    trace := [] }

/-! ### Stream lemmas -/

theorem leBytes_length (n v : Nat) : (leBytes n v).length = n := by
  induction n generalizing v with
  | zero => rfl
  | succ n ih => simp [leBytes, ih]

theorem fromLE_leBytes (n v : Nat) : fromLE (leBytes n v) = v % 256 ^ n := by
  induction n generalizing v with
  | zero => simp [leBytes, fromLE, Nat.mod_one]
  | succ n ih =>
    simp only [leBytes, fromLE, ih]
    rw [pow_succ, mul_comm (256 ^ n) 256, Nat.mod_mul]

theorem readRaw_append (x rest : List Nat) : readRaw x.length (x ++ rest) = some (x, rest) := by
  simp [readRaw]

theorem readRaw_leBytes (n v : Nat) (rest : List Nat) :
    readRaw n (leBytes n v ++ rest) = some (leBytes n v, rest) := by
  have h := readRaw_append (leBytes n v) rest
  rwa [leBytes_length] at h

theorem toSigned_toUnsigned_64 (v : Int) (h : isInt64 v) :
    toSigned 64 (toUnsigned 64 v % 256 ^ 8) = v := by
  unfold isInt64 at h
  unfold toSigned toUnsigned
  have h2 : ((v % 2 ^ 64).toNat : Int) = v % 2 ^ 64 := Int.toNat_of_nonneg (Int.emod_nonneg _ (by norm_num))
  have h3 : (v % 2 ^ 64).toNat % 256 ^ 8 = (v % 2 ^ 64).toNat := by
    apply Nat.mod_eq_of_lt
    have : v % 2 ^ 64 < 2 ^ 64 := Int.emod_lt_of_pos _ (by norm_num)
    omega
  rw [h3]
  split <;> omega

theorem toSigned_toUnsigned_32 (v : Int) (h : isInt32 v) :
    toSigned 32 (toUnsigned 32 v % 256 ^ 4) = v := by
  unfold isInt32 at h
  unfold toSigned toUnsigned
  have h3 : (v % 2 ^ 32).toNat % 256 ^ 4 = (v % 2 ^ 32).toNat := by
    apply Nat.mod_eq_of_lt
    have : v % 2 ^ 32 < 2 ^ 32 := Int.emod_lt_of_pos _ (by norm_num)
    omega
  rw [h3]
  split <;> omega

theorem readInt64_enc (v : Int) (h : isInt64 v) (rest : List Nat) :
    readInt64 (encInt64 v ++ rest) = some (v, rest) := by
  simp only [readInt64, encInt64, readRaw_leBytes, fromLE_leBytes, toSigned_toUnsigned_64 v h]

theorem readInt32_enc (v : Int) (h : isInt32 v) (rest : List Nat) :
    readInt32 (encInt32 v ++ rest) = some (v, rest) := by
  simp only [readInt32, encInt32, readRaw_leBytes, fromLE_leBytes, toSigned_toUnsigned_32 v h]

theorem readUInt32_enc (v : Nat) (h : isUInt32 v) (rest : List Nat) :
    readUInt32 (encUInt32 v ++ rest) = some (v, rest) := by
  unfold isUInt32 at h
  simp only [readUInt32, encUInt32, readRaw_leBytes, fromLE_leBytes]
  rw [Nat.mod_eq_of_lt (by omega)]

theorem readSizeT_enc (v : Nat) (h : isUInt64 v) (rest : List Nat) :
    readSizeT (encSizeT v ++ rest) = some (v, rest) := by
  unfold isUInt64 at h
  simp only [readSizeT, encSizeT, readRaw_leBytes, fromLE_leBytes]
  rw [Nat.mod_eq_of_lt (by omega)]

theorem readBytes_enc (d : List Nat) (h : isUInt64 d.length) (rest : List Nat) :
    readBytes (encBytes d ++ rest) = some (d, rest) := by
  simp only [readBytes, encBytes, List.append_assoc, readSizeT_enc _ h, readRaw_append]

theorem readString_enc (d : List Nat) (h : isUInt64 d.length) (rest : List Nat) :
    readString (encString d ++ rest) = some (d, rest) := by
  simp only [readString, encString, List.append_assoc, readSizeT_enc _ h, readRaw_append]

theorem readVec2i_enc (v : vec2i) (hx : isInt32 v.x) (hy : isInt32 v.y) (rest : List Nat) :
    readVec2i (encVec2i v ++ rest) = some (v, rest) := by
  simp only [readVec2i, encVec2i, List.append_assoc, readInt32_enc _ hx, readInt32_enc _ hy]

theorem readVec3i_enc (v : vec3i) (hx : isInt32 v.x) (hy : isInt32 v.y) (hz : isInt32 v.z)
    (rest : List Nat) : readVec3i (encVec3i v ++ rest) = some (v, rest) := by
  simp only [readVec3i, encVec3i, List.append_assoc, readInt32_enc _ hx, readInt32_enc _ hy,
    readInt32_enc _ hz]

/-- C1: for each of the twelve work units with a serialize/deserialize pair
in OSPWork.cpp and every well-typed value of its fields, deserializing the
stream that serialize wrote (followed by any further bytes) into a fresh unit
yields the serialized fields unchanged and in order, and consumes exactly the
bytes written. -/
theorem Work.deserialize_serialize (u : Work) (h : u.WellTyped) (rest : List Nat) :
    Work.deserialize u.tag (u.serialize [] ++ rest) = some (u.received, rest) := by
  cases u <;>
    simp only [Work.WellTyped] at h <;>
    simp [Work.tag, Work.serialize, Work.deserialize, Work.received,
      CommitObject.serialize, CommitObject.deserialize,
      CreateFrameBuffer.serialize, CreateFrameBuffer.deserialize,
      LoadModule.serialize, LoadModule.deserialize,
      NewData.serialize, NewData.deserialize,
      NewTexture2d.serialize, NewTexture2d.deserialize,
      SetRegion.serialize, SetRegion.deserialize,
      ClearFrameBuffer.serialize, ClearFrameBuffer.deserialize,
      RenderFrame.serialize, RenderFrame.deserialize,
      RemoveParam.serialize, RemoveParam.deserialize,
      SetPixelOp.serialize, SetPixelOp.deserialize,
      CommandRelease.serialize, CommandRelease.deserialize,
      CommandFinalize.serialize, CommandFinalize.deserialize,
      readInt64_enc, readInt32_enc, readUInt32_enc, readSizeT_enc, readBytes_enc,
      readString_enc, readVec2i_enc, readVec3i_enc, h]

/-- Witness for C1: a NewData unit carrying eight payload bytes, followed on
the stream by one further byte. -/
theorem Work.deserialize_serialize_witness :
    (Work.newData exampleNewData).WellTyped ∧
    Work.deserialize (Work.newData exampleNewData).tag
      ((Work.newData exampleNewData).serialize [] ++ [9])
      = some ((Work.newData exampleNewData).received, [9]) :=
  ⟨by decide, Work.deserialize_serialize (Work.newData exampleNewData) (by decide) [9]⟩

/-! ### Heap and registry lemmas -/

theorem RankState.objAt_ne_null {s : RankState} {p : Nat} {o : ManagedObject}
    (h : s.objAt p = some o) : p ≠ 0 := by
  intro hp
  simp [RankState.objAt, hp] at h

theorem RankState.objAt_modifyObj_same {s : RankState} {p : Nat} {o : ManagedObject}
    (f : ManagedObject → ManagedObject) (h : s.objAt p = some o) :
    (s.modifyObj p f).objAt p = some (f o) := by
  have hp : p ≠ 0 := RankState.objAt_ne_null h
  unfold RankState.modifyObj
  rw [h]
  simp only [RankState.objAt, hp, if_false] at h ⊢
  have hlt : p - 1 < s.heap.length := by
    rcases Nat.lt_or_ge (p - 1) s.heap.length with hl | hl
    · exact hl
    · rw [List.get?_eq_none.mpr hl] at h; cases h
  simp [List.get?_eq_getElem?, List.getElem?_set, hlt]

theorem RankState.objAt_modifyObj_ne {s : RankState} {p q : Nat}
    (f : ManagedObject → ManagedObject) (h : q ≠ p) :
    (s.modifyObj p f).objAt q = s.objAt q := by
  unfold RankState.modifyObj
  cases hp : s.objAt p with
  | none => rfl
  | some o =>
    have hp0 : p ≠ 0 := RankState.objAt_ne_null hp
    simp only [RankState.objAt]
    by_cases hq : q = 0
    · simp [hq]
    · simp only [hq, if_false, List.get?_eq_getElem?]
      rw [List.getElem?_set_ne]
      omega

theorem RankState.registry_modifyObj (s : RankState) (p : Nat)
    (f : ManagedObject → ManagedObject) : (s.modifyObj p f).registry = s.registry := by
  unfold RankState.modifyObj
  cases s.objAt p <;> rfl

theorem RankState.trace_modifyObj (s : RankState) (p : Nat)
    (f : ManagedObject → ManagedObject) : (s.modifyObj p f).trace = s.trace := by
  unfold RankState.modifyObj
  cases s.objAt p <;> rfl

theorem RankState.heap_length_modifyObj (s : RankState) (p : Nat)
    (f : ManagedObject → ManagedObject) : (s.modifyObj p f).heap.length = s.heap.length := by
  unfold RankState.modifyObj
  cases s.objAt p <;> simp

theorem ObjectHandle.lookup_modifyObj (h : ObjectHandle) (s : RankState) (p : Nat)
    (f : ManagedObject → ManagedObject) : h.lookup (s.modifyObj p f) = h.lookup s := by
  simp [ObjectHandle.lookup, RankState.registry_modifyObj]

theorem ObjectHandle.lookup_of_not_defined {h : ObjectHandle} {s : RankState}
    (hd : h.defined s = false) : h.lookup s = nullptr := by
  unfold ObjectHandle.defined at hd
  unfold ObjectHandle.lookup
  cases hl : s.registry.lookup h with
  | none => rfl
  | some p => simp [hl] at hd

theorem ObjectHandle.defined_of_lookup {h : ObjectHandle} {s : RankState}
    (hl : h.lookup s ≠ nullptr) : h.defined s = true := by
  unfold ObjectHandle.lookup at hl
  unfold ObjectHandle.defined
  cases hr : s.registry.lookup h with
  | none => simp [hr] at hl
  | some p => rfl

theorem RankState.dynamicCast_log (s : RankState) (e : Event) (p : Nat) (k : ObjectKind) :
    (s.log e).dynamicCast p k = s.dynamicCast p k := rfl

theorem getParam_setParam (ps : List (List Nat × ParamValue)) (name : List Nat) (v : ParamValue) :
    getParam (setParam ps name v) name = some v := by
  induction ps with
  | nil => simp [setParam, getParam, List.lookup]
  | cons e rest ih =>
    obtain ⟨n, w⟩ := e
    unfold setParam
    by_cases hn : n = name
    · simp [hn, getParam, List.lookup]
    · have hne : (name == n) = false := by
        simp only [beq_eq_false_iff_ne, ne_eq]
        exact fun h => hn h.symm
      simp only [hn, if_false, getParam, List.lookup, hne]
      exact ih

/-! ### ospSetParam -/

/-- C5: for SetParam on a handle bound to an object, the worker path returns
normally with the named parameter holding the value whatever the object's
kind; the master path does the same when the object is a renderer or a volume,
and for every other kind returns with the state unchanged. -/
theorem SetParam.run_sets_runOnMaster_filters (u : SetParam) (s : RankState) (o : ManagedObject)
    (ho : s.objAt (u.handle.lookup s) = some o) :
    (∃ s1 o1, SetParam.run u s = .ok s1 ∧ s1.objAt (u.handle.lookup s) = some o1
        ∧ getParam o1.params u.name = some (.str u.val)
        ∧ o1.kind = o.kind ∧ s1.registry = s.registry ∧ s1.trace = s.trace
        ∧ ∀ q, q ≠ u.handle.lookup s → s1.objAt q = s.objAt q)
    ∧ ((o.kind = .renderer ∨ o.kind = .volume) → SetParam.runOnMaster u s = SetParam.run u s)
    ∧ (¬ (o.kind = .renderer ∨ o.kind = .volume) → SetParam.runOnMaster u s = .ok s) := by
  have hp : u.handle.lookup s ≠ nullptr := RankState.objAt_ne_null ho
  have hd : u.handle.defined s = true := ObjectHandle.defined_of_lookup hp
  refine ⟨?_, ?_, ?_⟩
  · refine ⟨s.modifyObj (u.handle.lookup s)
        (fun o => { o with params := setParam o.params u.name (.str u.val) }),
      { o with params := setParam o.params u.name (.str u.val) }, ?_,
      RankState.objAt_modifyObj_same _ ho, ?_, rfl,
      RankState.registry_modifyObj _ _ _, RankState.trace_modifyObj _ _ _, ?_⟩
    · simp [SetParam.run, hp]
    · exact getParam_setParam _ _ _
    · intro q hq
      exact RankState.objAt_modifyObj_ne _ hq
  · intro hk
    have : (s.dynamicCast (u.handle.lookup s) .renderer
        || s.dynamicCast (u.handle.lookup s) .volume) = true := by
      simp only [RankState.dynamicCast, ho]
      rcases hk with hk | hk <;> simp [hk]
    simp [SetParam.runOnMaster, SetParam.run, hd, hp, this]
  · intro hk
    have : (s.dynamicCast (u.handle.lookup s) .renderer
        || s.dynamicCast (u.handle.lookup s) .volume) = false := by
      simp only [RankState.dynamicCast, ho]
      simp only [not_or] at hk
      simp [hk.1, hk.2]
    simp [SetParam.runOnMaster, hd, this]

/-- Witness for C5: setting `fovy` on the camera bound to handle 14. -/
theorem SetParam.run_sets_runOnMaster_filters_witness :
    exampleState.objAt (ObjectHandle.lookup { i64 := 14 } exampleState) = some { kind := .camera }
    ∧ SetParam.runOnMaster { handle := { i64 := 14 }, name := fovy, val := [52, 53] } exampleState
        = .ok exampleState :=
  ⟨by decide,
   (SetParam.run_sets_runOnMaster_filters
      { handle := { i64 := 14 }, name := fovy, val := [52, 53] } exampleState
      { kind := .camera } (by decide)).2.2 (by decide)⟩

/-- C6 counterexample: on a rank where handle 9 is bound to no object, the
master paths of SetParam and of CommitObject return normally instead of
failing. -/
theorem missing_handle_master_returns :
    ObjectHandle.defined { i64 := 9 } exampleState = false
    ∧ (SetParam.runOnMaster { handle := { i64 := 9 }, name := fovy, val := [52, 53] }
        exampleState).isOk = true
    ∧ (CommitObject.runOnMaster { handle := { i64 := 9 } } exampleState).isOk = true := by
  decide

/-- C6 as amended: for a handle bound to no object on the local rank, the
worker paths of SetParam and CommitObject fail with the state untouched, while
the master paths return normally: SetParam.runOnMaster changes nothing and
CommitObject.runOnMaster only calls the worker-group barrier. -/
theorem missing_handle_run_throws (h : ObjectHandle) (name val : List Nat) (s : RankState)
    (hd : h.defined s = false) :
    (∃ msg, SetParam.run { handle := h, name := name, val := val } s = .thrown msg s)
    ∧ (∃ msg, CommitObject.run { handle := h } s = .thrown msg s)
    ∧ SetParam.runOnMaster { handle := h, name := name, val := val } s = .ok s
    ∧ CommitObject.runOnMaster { handle := h } s = .ok (s.log (.barrier .worker)) := by
  have hl : h.lookup s = 0 := ObjectHandle.lookup_of_not_defined hd
  refine ⟨⟨"Assert(obj)", ?_⟩, ⟨"Error: rank did not have object to commit!", ?_⟩, ?_, ?_⟩
  · simp [SetParam.run, hl]
  · simp [CommitObject.run, hl]
  · simp [SetParam.runOnMaster, hd]
  · simp [CommitObject.runOnMaster, hd]

/-- Witness for C6 as amended: handle 9 on the example rank. -/
theorem missing_handle_run_throws_witness :
    ObjectHandle.defined { i64 := 9 } exampleState = false
    ∧ CommitObject.runOnMaster { handle := { i64 := 9 } } exampleState
        = .ok (exampleState.log (.barrier .worker)) :=
  ⟨by decide, (missing_handle_run_throws { i64 := 9 } fovy [52, 53] exampleState (by decide)).2.2.2⟩

/-! ### ospCommit -/

/-- C9: CommitObject.runOnMaster always returns normally, leaves registry and
heap alone, and the calls it makes are: one commit on the target exactly when
the handle is defined and its object is a renderer, never a finalize, and then
one worker-group barrier. -/
theorem CommitObject.runOnMaster_calls (u : CommitObject) (s : RankState) :
    ∃ s1, CommitObject.runOnMaster u s = .ok s1 ∧ s1.registry = s.registry ∧ s1.heap = s.heap
      ∧ s1.trace = s.trace
          ++ (if u.handle.defined s = true ∧ s.dynamicCast (u.handle.lookup s) .renderer = true
              then [Event.commit (u.handle.lookup s)] else [])
          ++ [Event.barrier .worker] := by
  unfold CommitObject.runOnMaster
  by_cases hd : u.handle.defined s = true
  · by_cases hr : s.dynamicCast (u.handle.lookup s) .renderer = true
    · exact ⟨_, rfl, by simp [hd, hr, RankState.log], by simp [hd, hr, RankState.log],
        by simp [hd, hr, RankState.log]⟩
    · exact ⟨_, rfl, by simp [hd, hr, RankState.log], by simp [hd, hr, RankState.log],
        by simp [hd, hr, RankState.log]⟩
  · exact ⟨_, rfl, by simp [hd, RankState.log], by simp [hd, RankState.log],
      by simp [hd, RankState.log]⟩

/-- C10 counterexample: on a worker where handle 9 is bound to no object,
CommitObject.run throws and no app-group barrier has been called. -/
theorem CommitObject.run_unbound_no_barrier :
    (CommitObject.run { handle := { i64 := 9 } } exampleState).isOk = false
    ∧ Event.barrier .app ∉ (CommitObject.run { handle := { i64 := 9 } } exampleState).state.trace := by
  decide

/-- C10 as amended: when the handle is bound, CommitObject.run on a worker
calls commit on the target once, then finalize once exactly when the target is
a model, then the app-group barrier, and returns; when the handle is bound to
nothing it throws before any call; the master path always returns after a
single worker-group barrier, which is its last call. -/
theorem CommitObject.run_calls (u : CommitObject) (s : RankState) :
    (u.handle.lookup s ≠ nullptr →
      CommitObject.run u s = .ok { s with trace := s.trace
          ++ [Event.commit (u.handle.lookup s)]
          ++ (if s.dynamicCast (u.handle.lookup s) .model = true
              then [Event.finalize (u.handle.lookup s)] else [])
          ++ [Event.barrier .app] })
    ∧ (u.handle.lookup s = nullptr → ∃ msg, CommitObject.run u s = .thrown msg s)
    ∧ (∃ s1 calls, CommitObject.runOnMaster u s = .ok s1
        ∧ s1.trace = s.trace ++ calls ++ [Event.barrier .worker]
        ∧ ∀ g, Event.barrier g ∉ calls) := by
  refine ⟨?_, ?_, ?_⟩
  · intro hp
    by_cases hm : s.dynamicCast (u.handle.lookup s) .model = true
    · simp only [CommitObject.run, ne_eq, hp, not_false_eq_true, if_true,
        RankState.dynamicCast_log, hm]
      simp [RankState.log]
    · simp only [CommitObject.run, ne_eq, hp, not_false_eq_true, if_true,
        RankState.dynamicCast_log, hm]
      simp [RankState.log]
  · intro hp
    exact ⟨"Error: rank did not have object to commit!", by simp [CommitObject.run, hp]⟩
  · unfold CommitObject.runOnMaster
    by_cases hd : u.handle.defined s = true
    · by_cases hr : s.dynamicCast (u.handle.lookup s) .renderer = true
      · exact ⟨_, [Event.commit (u.handle.lookup s)], rfl, by simp [hd, hr, RankState.log],
          by simp⟩
      · exact ⟨_, [], rfl, by simp [hd, hr, RankState.log], by simp⟩
    · exact ⟨_, [], rfl, by simp [hd, RankState.log], by simp⟩

/-- Witness for C10 as amended: committing the model bound to handle 11. -/
theorem CommitObject.run_calls_witness :
    ObjectHandle.lookup { i64 := 11 } exampleState ≠ nullptr
    ∧ CommitObject.run { handle := { i64 := 11 } } exampleState
        = .ok { exampleState with trace := exampleState.trace
            ++ [Event.commit (ObjectHandle.lookup { i64 := 11 } exampleState)]
            ++ (if exampleState.dynamicCast (ObjectHandle.lookup { i64 := 11 } exampleState) .model
                  = true
                then [Event.finalize (ObjectHandle.lookup { i64 := 11 } exampleState)] else [])
            ++ [Event.barrier .app] } :=
  ⟨by decide, (CommitObject.run_calls { handle := { i64 := 11 } } exampleState).1 (by decide)⟩

/-! ### ospAddGeometry, ospRemoveGeometry, ospRemoveVolume -/

theorem findIdx?_succ_start (l : List Nat) (q : Nat → Bool) (k : Nat) :
    List.findIdx? q l (k + 1) = (List.findIdx? q l k).map (fun i => i + 1) := by
  induction l generalizing k with
  | nil => simp
  | cons a l ih =>
    simp only [List.findIdx?_cons]
    split
    · simp
    · exact ih (k + 1)

theorem eraseIdx_findIdx?_perm (l : List Nat) (g i : Nat)
    (h : l.findIdx? (fun x => g == x) = some i) : (g :: l.eraseIdx i).Perm l := by
  induction l generalizing i with
  | nil => simp at h
  | cons a l ih =>
    simp only [List.findIdx?_cons] at h
    by_cases hga : (g == a) = true
    · simp only [hga, if_true, Option.some.injEq] at h
      subst h
      have : g = a := by simpa using hga
      subst this
      simp
    · simp only [hga] at h
      rw [findIdx?_succ_start] at h
      cases hj : List.findIdx? (fun x => g == x) l with
      | none => simp [hj] at h
      | some j =>
        simp [hj] at h
        subst h
        simp only [List.eraseIdx_cons_succ]
        exact (List.Perm.swap a g _).trans ((ih j hj).cons a)

theorem findIdx?_append_self (l : List Nat) (g : Nat) :
    ∃ i, (l ++ [g]).findIdx? (fun x => g == x) = some i := by
  cases h : (l ++ [g]).findIdx? (fun x => g == x) with
  | some i => exact ⟨i, rfl⟩
  | none =>
    rw [List.findIdx?_eq_none_iff] at h
    have := h g (by simp)
    simp at this

/-- C7: for a model m and a geometry g, AddGeometry(m, g) followed by
RemoveGeometry(m, g) both return normally and leave m's geometry list a
permutation of what it was, m's volume list unchanged and g's reference count
at its value before the two calls. -/
theorem AddGeometry_then_RemoveGeometry (u : ModelWork) (s : RankState) (mo go : ManagedObject)
    (hm : s.objAt (u.modelHandle.lookup s) = some mo) (hmk : mo.kind = .model)
    (hg : s.objAt (u.objectHandle.lookup s) = some go) (hgk : go.kind = .geometry) :
    ∃ s1 s2, AddGeometry.run u s = .ok s1 ∧ RemoveGeometry.run u s1 = .ok s2
      ∧ (s2.geometryOf (u.modelHandle.lookup s)).Perm (s.geometryOf (u.modelHandle.lookup s))
      ∧ s2.volumeOf (u.modelHandle.lookup s) = s.volumeOf (u.modelHandle.lookup s)
      ∧ s2.refCountOf (u.objectHandle.lookup s) = s.refCountOf (u.objectHandle.lookup s) := by
  generalize hmp : u.modelHandle.lookup s = m at hm
  generalize hgp : u.objectHandle.lookup s = g at hg
  have hm0 : m ≠ 0 := RankState.objAt_ne_null hm
  have hg0 : g ≠ 0 := RankState.objAt_ne_null hg
  have hne : m ≠ g := by
    intro h
    subst h
    rw [hm] at hg
    cases hg
    rw [hmk] at hgk
    cases hgk
  -- the state after AddGeometry
  have hA : AddGeometry.run u s = .ok ((s.refInc g).modifyObj m
      (fun m => { m with geometry := m.geometry ++ [g] })) := by
    simp [AddGeometry.run, hmp, hgp, hm0, hg0]
  have hmA : (s.refInc g).objAt m = some mo := by
    unfold RankState.refInc
    rw [RankState.objAt_modifyObj_ne _ hne, hm]
  have hgA : (s.refInc g).objAt g = some { go with refCount := go.refCount + 1 } :=
    RankState.objAt_modifyObj_same _ hg
  generalize hs1 : (s.refInc g).modifyObj m (fun m => { m with geometry := m.geometry ++ [g] })
    = s1 at hA
  have hm1 : s1.objAt m = some { mo with geometry := mo.geometry ++ [g] } := by
    rw [← hs1]
    exact RankState.objAt_modifyObj_same _ hmA
  have hg1 : s1.objAt g = some { go with refCount := go.refCount + 1 } := by
    rw [← hs1, RankState.objAt_modifyObj_ne _ (Ne.symm hne), hgA]
  have hlm : u.modelHandle.lookup s1 = m := by
    rw [← hs1, ObjectHandle.lookup_modifyObj]
    unfold RankState.refInc
    rw [ObjectHandle.lookup_modifyObj, hmp]
  have hlg : u.objectHandle.lookup s1 = g := by
    rw [← hs1, ObjectHandle.lookup_modifyObj]
    unfold RankState.refInc
    rw [ObjectHandle.lookup_modifyObj, hgp]
  obtain ⟨i, hi⟩ := findIdx?_append_self mo.geometry g
  have hgeo1 : s1.geometryOf m = mo.geometry ++ [g] := by
    simp [RankState.geometryOf, hm1]
  have hR : RemoveGeometry.run u s1 = .ok ((s1.modifyObj m
      (fun m => { m with geometry := m.geometry.eraseIdx i })).refDec g) := by
    simp [RemoveGeometry.run, hlm, hlg, hm0, hg0, hgeo1, hi]
  have hm2 : ((s1.modifyObj m (fun m => { m with geometry := m.geometry.eraseIdx i })).refDec g).objAt m
      = some { mo with geometry := (mo.geometry ++ [g]).eraseIdx i } := by
    unfold RankState.refDec
    rw [RankState.objAt_modifyObj_ne _ hne, RankState.objAt_modifyObj_same _ hm1]
  have hg2 : ((s1.modifyObj m (fun m => { m with geometry := m.geometry.eraseIdx i })).refDec g).objAt g
      = some { go with refCount := go.refCount + 1 - 1,
                       destroyed := go.destroyed || (go.refCount + 1 - 1 == 0) } := by
    unfold RankState.refDec
    have : (s1.modifyObj m (fun m => { m with geometry := m.geometry.eraseIdx i })).objAt g
        = some { go with refCount := go.refCount + 1 } := by
      rw [RankState.objAt_modifyObj_ne _ (Ne.symm hne), hg1]
    rw [RankState.objAt_modifyObj_same _ this]
  refine ⟨s1, _, hA, hR, ?_, ?_, ?_⟩
  · simp only [RankState.geometryOf, hm2, hm]
    have h1 := eraseIdx_findIdx?_perm _ g i hi
    have h2 : (mo.geometry ++ [g]).Perm (g :: mo.geometry) := List.perm_append_singleton g _
    exact (h1.trans h2).cons_inv
  · simp only [RankState.volumeOf, hm2, hm]
  · simp only [RankState.refCountOf, hg2, hg]
    omega

/-- Witness for C7: the model bound to handle 11 and the geometry bound to
handle 12 on the example rank. -/
theorem AddGeometry_then_RemoveGeometry_witness :
    ∃ s1 s2, AddGeometry.run { modelHandle := { i64 := 11 }, objectHandle := { i64 := 12 } }
        exampleState = .ok s1
      ∧ RemoveGeometry.run { modelHandle := { i64 := 11 }, objectHandle := { i64 := 12 } } s1
        = .ok s2
      ∧ (s2.geometryOf (ObjectHandle.lookup { i64 := 11 } exampleState)).Perm
          (exampleState.geometryOf (ObjectHandle.lookup { i64 := 11 } exampleState))
      ∧ s2.volumeOf (ObjectHandle.lookup { i64 := 11 } exampleState)
          = exampleState.volumeOf (ObjectHandle.lookup { i64 := 11 } exampleState)
      ∧ s2.refCountOf (ObjectHandle.lookup { i64 := 12 } exampleState)
          = exampleState.refCountOf (ObjectHandle.lookup { i64 := 12 } exampleState) :=
  AddGeometry_then_RemoveGeometry
    { modelHandle := { i64 := 11 }, objectHandle := { i64 := 12 } } exampleState
    { kind := .model, volume := [5] } { kind := .geometry }
    (by decide) (by decide) (by decide) (by decide)

/-- C8, evaluated: the model bound to handle 11 holds the volume bound to
handle 15 exactly once; after RemoveVolume.run the volume list still holds it
and is no shorter. -/
theorem RemoveVolume.run_keeps_single_volume :
    exampleState.volumeOf 1 = [5]
    ∧ ObjectHandle.lookup { i64 := 15 } exampleState = 5
    ∧ (RemoveVolume.run { modelHandle := { i64 := 11 }, objectHandle := { i64 := 15 } }
        exampleState).isOk = true
    ∧ (RemoveVolume.run { modelHandle := { i64 := 11 }, objectHandle := { i64 := 15 } }
        exampleState).state.volumeOf 1 = [5] := by
  decide

/-! ### ospNewData -/

theorem encInt64_length (v : Int) : (encInt64 v).length = 8 := leBytes_length 8 _

theorem encWords_length (ws : List Int) : (encWords ws).length = 8 * ws.length := by
  induction ws with
  | nil => rfl
  | cons w ws ih => simp [encWords, encInt64_length, ih]; omega

theorem readHandleAt_append (pre rest : List Nat) (i : Nat) (h : Int) (hpre : pre.length = 8 * i)
    (hh : isInt64 h) : readHandleAt (pre ++ (encInt64 h ++ rest)) i = some h := by
  unfold readHandleAt
  have h1 : List.drop (8 * i) (pre ++ (encInt64 h ++ rest)) = encInt64 h ++ rest :=
    List.drop_left' hpre
  have h2 : List.take 8 (encInt64 h ++ rest) = encInt64 h := List.take_left' (encInt64_length h)
  simp only [h1, h2, encInt64_length, if_true]
  simp only [encInt64, fromLE_leBytes, toSigned_toUnsigned_64 h hh]

theorem writePtrAt_append (pre rest : List Nat) (i : Nat) (h : Int) (p : Nat)
    (hpre : pre.length = 8 * i) :
    writePtrAt (pre ++ (encInt64 h ++ rest)) i p = (pre ++ encInt64 (p : Int)) ++ rest := by
  unfold writePtrAt
  have h1 : List.take (8 * i) (pre ++ (encInt64 h ++ rest)) = pre := List.take_left' hpre
  have h2 : List.drop (8 * i + 8) (pre ++ (encInt64 h ++ rest)) = rest := by
    have : pre ++ (encInt64 h ++ rest) = (pre ++ encInt64 h) ++ rest := by simp
    rw [this]
    exact List.drop_left' (by simp [hpre, encInt64_length])
  rw [h1, h2]

theorem memcpy_length_self (l : List Nat) : memcpy l.length l = l := by
  unfold memcpy
  apply List.ext_getElem
  · simp
  · intro i h1 h2
    simp [List.getD_eq_getElem?_getD, List.getElem?_eq_getElem h2]

theorem RankState.totalRefs_modifyObj {s : RankState} {p : Nat} {o : ManagedObject}
    (f : ManagedObject → ManagedObject) (h : s.objAt p = some o) :
    (s.modifyObj p f).totalRefs = s.totalRefs + ((f o).refCount - o.refCount) := by
  have hp : p ≠ 0 := RankState.objAt_ne_null h
  unfold RankState.modifyObj
  rw [h]
  simp only [RankState.objAt, hp, if_false, List.get?_eq_getElem?] at h
  have hlt : p - 1 < s.heap.length := by
    rcases Nat.lt_or_ge (p - 1) s.heap.length with hl | hl
    · exact hl
    · rw [List.getElem?_eq_none hl] at h; cases h
  have hget : s.heap[p - 1] = o := by
    rw [List.getElem?_eq_getElem hlt] at h
    exact Option.some.inj h
  have hsplit : s.heap = s.heap.take (p - 1) ++ o :: s.heap.drop (p - 1 + 1) := by
    rw [← hget]
    simp
  simp only [RankState.totalRefs]
  rw [List.set_eq_take_append_cons_drop]
  simp only [hlt, if_true]
  conv_rhs => rw [hsplit]
  simp only [List.map_append, List.map_cons, List.sum_append, List.sum_cons]
  omega

theorem RankState.isSome_objAt_modifyObj (s : RankState) (p q : Nat)
    (f : ManagedObject → ManagedObject) :
    ((s.modifyObj p f).objAt q).isSome = (s.objAt q).isSome := by
  by_cases hq : q = p
  · subst hq
    cases h : s.objAt q with
    | none => simp [RankState.modifyObj, h]
    | some o => simp [RankState.objAt_modifyObj_same f h]
  · rw [RankState.objAt_modifyObj_ne f hq]

theorem translateHandles_spec (d : Nat) (lk : Int → Nat) (hs : List Int) :
    ∀ (i : Nat) (s : RankState) (pre : List Nat) (od : ManagedObject) (D : Data),
      s.objAt d = some od → od.array = some D → D.data = some (pre ++ encWords hs) →
      pre.length = 8 * i → (∀ h ∈ hs, isInt64 h) →
      (∀ h ∈ hs, h ≠ 0 →
        ObjectHandle.lookup { i64 := h } s = lk h ∧ lk h ≠ d ∧ (s.objAt (lk h)).isSome = true) →
      ∃ s1, translateHandles d hs.length i s = .ok s1 ∧ s1.registry = s.registry
        ∧ s1.trace = s.trace ∧ s1.heap.length = s.heap.length
        ∧ s1.objAt d = some { od with array := some { D with data := some (pre ++
            encWords (hs.map (fun h => if h = 0 then 0 else ((lk h : Nat) : Int)))) } }
        ∧ (∀ q o, q ≠ d → s.objAt q = some o → s1.objAt q = some { o with refCount :=
            o.refCount + ((hs.filter (fun h => h ≠ 0 ∧ lk h = q)).length : Int) })
        ∧ s1.totalRefs = s.totalRefs + ((hs.filter (fun h => h ≠ 0)).length : Int) := by
  induction hs with
  | nil =>
    intro i s pre od D hod hD hdata _ _ _
    refine ⟨s, rfl, rfl, rfl, rfl, ?_, ?_, ?_⟩
    · rw [hod]
      cases od
      cases D
      simp only [encWords, List.append_nil] at hdata
      simp_all [encWords]
    · intro q o _ ho
      rw [ho]
      simp
    · simp
  | cons h t ih =>
    intro i s pre od D hod hD hdata hpre hrange hbound
    have hbytes : s.arrayBytes d = some (pre ++ (encInt64 h ++ encWords t)) := by
      simp [RankState.arrayBytes, hod, hD, hdata, encWords]
    have hread : readHandleAt (pre ++ (encInt64 h ++ encWords t)) i = some h :=
      readHandleAt_append pre _ i h hpre (hrange h (by simp))
    have hrange' : ∀ x ∈ t, isInt64 x := fun x hx => hrange x (by simp [hx])
    by_cases h0 : h = 0
    · -- a null handle is left alone
      subst h0
      have hstep : translateHandles d (0 :: t).length i s = translateHandles d t.length (i + 1) s := by
        simp only [List.length_cons, translateHandles, hbytes, hread, NULL_HANDLE]
        simp
      have hdata' : D.data = some ((pre ++ encInt64 0) ++ encWords t) := by
        rw [hdata]; simp [encWords]
      obtain ⟨s1, hrun, hreg, htr, hlen, hd1, hothers, htot⟩ :=
        ih (i + 1) s (pre ++ encInt64 0) od D hod hD hdata'
          (by simp [hpre, encInt64_length]; omega) hrange'
          (fun x hx hx0 => hbound x (by simp [hx]) hx0)
      refine ⟨s1, by rw [hstep]; exact hrun, hreg, htr, hlen, ?_, ?_, ?_⟩
      · rw [hd1]; simp [encWords]
      · intro q o hq ho
        rw [hothers q o hq ho]
        simp
      · rw [htot]; simp
    · -- a non-null handle is replaced by its object, which gains a reference
      obtain ⟨hlk, hpd, hsome⟩ := hbound h (by simp) h0
      obtain ⟨op, hop⟩ := Option.isSome_iff_exists.mp hsome
      have hp0 : lk h ≠ 0 := RankState.objAt_ne_null hop
      let buf1 : List Nat := (pre ++ encInt64 ((lk h : Nat) : Int)) ++ encWords t
      let od1 : ManagedObject := { od with array := some { D with data := some buf1 } }
      let sA : RankState := s.setArrayBytes d buf1
      let sB : RankState := sA.refInc (lk h)
      have hstep : translateHandles d (h :: t).length i s = translateHandles d t.length (i + 1) sB := by
        have hw : writePtrAt (pre ++ (encInt64 h ++ encWords t)) i (lk h) = buf1 :=
          writePtrAt_append pre _ i h (lk h) hpre
        simp only [List.length_cons, translateHandles, hbytes, hread, NULL_HANDLE, hlk, hw]
        simp [h0, hp0, sB, sA]
      have hodA : sA.objAt d = some od1 := by
        have := RankState.objAt_modifyObj_same (s := s) (p := d)
          (fun o => { o with array := o.array.map (fun d => { d with data := some buf1 }) }) hod
        simp only [sA, RankState.setArrayBytes, this, od1, hD, Option.map_some']
      have hodB : sB.objAt d = some od1 := by
        simp only [sB, RankState.refInc]
        rw [RankState.objAt_modifyObj_ne _ (Ne.symm hpd), hodA]
      have hopA : sA.objAt (lk h) = some op := by
        simp only [sA, RankState.setArrayBytes]
        rw [RankState.objAt_modifyObj_ne _ hpd, hop]
      have hboundB : ∀ x ∈ t, x ≠ 0 →
          ObjectHandle.lookup { i64 := x } sB = lk x ∧ lk x ≠ d ∧ (sB.objAt (lk x)).isSome = true := by
        intro x hx hx0
        obtain ⟨h1, h2, h3⟩ := hbound x (by simp [hx]) hx0
        refine ⟨?_, h2, ?_⟩
        · simp only [sB, sA, RankState.refInc, RankState.setArrayBytes,
            ObjectHandle.lookup_modifyObj, h1]
        · simp only [sB, sA, RankState.refInc, RankState.setArrayBytes,
            RankState.isSome_objAt_modifyObj, h3]
      obtain ⟨s1, hrun, hreg, htr, hlen, hd1, hothers, htot⟩ :=
        ih (i + 1) sB (pre ++ encInt64 ((lk h : Nat) : Int)) od1 { D with data := some buf1 }
          hodB rfl rfl (by simp [hpre, encInt64_length]; omega) hrange' hboundB
      refine ⟨s1, by rw [hstep]; exact hrun, ?_, ?_, ?_, ?_, ?_, ?_⟩
      · rw [hreg]
        simp only [sB, sA, RankState.refInc, RankState.setArrayBytes, RankState.registry_modifyObj]
      · rw [htr]
        simp only [sB, sA, RankState.refInc, RankState.setArrayBytes, RankState.trace_modifyObj]
      · rw [hlen]
        simp only [sB, sA, RankState.refInc, RankState.setArrayBytes,
          RankState.heap_length_modifyObj]
      · rw [hd1]
        simp [od1, encWords, h0]
      · intro q o hq ho
        have hoA : sA.objAt q = some o := by
          simp only [sA, RankState.setArrayBytes]
          rw [RankState.objAt_modifyObj_ne _ hq, ho]
        by_cases hqp : q = lk h
        · subst hqp
          have hoB : sB.objAt (lk h) = some { o with refCount := o.refCount + 1 } :=
            RankState.objAt_modifyObj_same _ hoA
          rw [hothers _ _ hq hoB]
          simp only [List.filter_cons, h0, ne_eq, not_false_eq_true, and_self, decide_True,
            if_true, List.length_cons, Nat.cast_add, Nat.cast_one]
          congr 2
          omega
        · have hoB : sB.objAt q = some o := by
            simp only [sB, RankState.refInc]
            rw [RankState.objAt_modifyObj_ne _ hqp, hoA]
          rw [hothers _ _ hq hoB]
          have : decide (h ≠ 0 ∧ lk h = q) = false := by
            simp only [decide_eq_false_iff_not, not_and]
            exact fun _ hc => hqp hc.symm
          simp only [List.filter_cons, this]
          simp
      · rw [htot]
        have htA : sA.totalRefs = s.totalRefs := by
          have := RankState.totalRefs_modifyObj (s := s) (p := d)
            (fun o => { o with array := o.array.map (fun d => { d with data := some buf1 }) }) hod
          simp only [sA, RankState.setArrayBytes, this]
          simp
        have htB : sB.totalRefs = sA.totalRefs + 1 := by
          have := RankState.totalRefs_modifyObj (s := sA) (p := lk h)
            (fun o => { o with refCount := o.refCount + 1 }) hopA
          simp only [sB, RankState.refInc, this]
          omega
        rw [htB, htA]
        simp only [List.filter_cons, h0, ne_eq, not_false_eq_true, decide_True, if_true,
          List.length_cons, Nat.cast_add, Nat.cast_one]
        omega

theorem RankState.objAt_lt {s : RankState} {q : Nat} {o : ManagedObject}
    (h : s.objAt q = some o) : q - 1 < s.heap.length := by
  have hq : q ≠ 0 := RankState.objAt_ne_null h
  simp only [RankState.objAt, hq, if_false, List.get?_eq_getElem?] at h
  rcases Nat.lt_or_ge (q - 1) s.heap.length with hl | hl
  · exact hl
  · rw [List.getElem?_eq_none hl] at h; cases h

theorem RankState.objAt_alloc_old {s : RankState} {q : Nat} {o : ManagedObject}
    (ob : ManagedObject) (h : s.objAt q = some o) : (s.alloc ob).2.objAt q = some o := by
  have hq : q ≠ 0 := RankState.objAt_ne_null h
  have hlt := RankState.objAt_lt h
  simp only [RankState.objAt, hq, if_false, List.get?_eq_getElem?, RankState.alloc] at h ⊢
  rw [List.getElem?_append_left hlt, h]

theorem RankState.objAt_alloc_new (s : RankState) (ob : ManagedObject) :
    (s.alloc ob).2.objAt (s.heap.length + 1) = some ob := by
  simp [RankState.objAt, RankState.alloc, List.get?_eq_getElem?]

theorem RankState.totalRefs_alloc (s : RankState) (ob : ManagedObject) :
    (s.alloc ob).2.totalRefs = s.totalRefs + ob.refCount := by
  simp [RankState.totalRefs, RankState.alloc]

theorem lookup_filter_ne (l : List (ObjectHandle × Ptr)) (h k : ObjectHandle) (hne : k ≠ h) :
    (l.filter (fun e => e.1 ≠ h)).lookup k = l.lookup k := by
  induction l with
  | nil => rfl
  | cons e l ih =>
    obtain ⟨a, b⟩ := e
    simp only [ne_eq, decide_not] at ih ⊢
    by_cases ha : a = h
    · subst ha
      have hk : (k == a) = false := by simpa using hne
      simp only [List.filter_cons, List.lookup, hk, decide_True, Bool.not_true]
      exact ih
    · by_cases hka : k = a
      · subst hka
        simp [List.filter_cons, List.lookup, ha]
      · have hk : (k == a) = false := by simpa using hka
        simp only [List.filter_cons, List.lookup, ha, hk, decide_False, Bool.not_false, if_true]
        exact ih

theorem ObjectHandle.lookup_assign_ne (h k : ObjectHandle) (p : Nat) (s : RankState)
    (hne : k ≠ h) : k.lookup (h.assign p s) = k.lookup s := by
  have hk : (k == h) = false := by simpa using hne
  have hf := lookup_filter_ne s.registry h k hne
  simp only [ObjectHandle.lookup, ObjectHandle.assign, List.lookup, hk, hf]

theorem ObjectHandle.lookup_assign_self (h : ObjectHandle) (p : Nat) (s : RankState) :
    h.lookup (h.assign p s) = p := by
  simp [ObjectHandle.lookup, ObjectHandle.assign, List.lookup]

/-- The object-typed half of C3, with the run traced through allocation,
binding and the translation loop. -/
theorem NewData.run_object_format (C : OSPConstants) (u : NewData) (s : RankState)
    (hs : List Int) (hfmt : isObjectFormat C u.format = true) (hstr : u.format ≠ C.OSP_STRING)
    (hsize : C.sizeOf u.format = 8) (hn : u.nItems = hs.length) (hfit : isUInt64 (8 * hs.length))
    (hdata : u.data = encWords hs) (hrange : ∀ h ∈ hs, isInt64 h)
    (hfresh : u.handle.defined s = false)
    (hbound : ∀ h ∈ hs, h ≠ 0 → (s.objAt (ObjectHandle.lookup { i64 := h } s)).isSome = true) :
    ∃ s1, NewData.run C u s = .ok s1
      ∧ u.handle.lookup s1 = s.heap.length + 1
      ∧ (hs ≠ [] →
          s1.arrayBytes (s.heap.length + 1) = some (encWords (hs.map (translated s))))
      ∧ (∀ q o, s.objAt q = some o →
          s1.objAt q = some { o with refCount := o.refCount + (timesNamed s hs q : Int) })
      ∧ s1.totalRefs = s.totalRefs + 1 + ((hs.filter (fun h => h ≠ 0)).length : Int) := by
  -- the array object that is created
  obtain ⟨D, hD, hDdata⟩ : ∃ D : Data,
      (if !u.data.isEmpty then Data.new C u.nItems u.format (some u.data) u.flags
        else match u.localData with
          | some mem => Data.new C u.nItems u.format (some mem) u.flags
          | none => Data.new C u.nItems u.format none u.flags) = D
      ∧ (hs ≠ [] → D.data = some (encWords hs)) := by
    refine ⟨_, rfl, ?_⟩
    intro hne
    have hlen : u.data.length = 8 * hs.length := by rw [hdata, encWords_length]
    have hnonempty : u.data.isEmpty = false := by
      cases hd : u.data with
      | nil =>
        rw [hd] at hlen
        cases hs with
        | nil => exact absurd rfl hne
        | cons a t => simp at hlen
      | cons a t => rfl
    have hcopy : memcpy (C.sizeOf u.format * u.nItems % 2 ^ 64) u.data = u.data := by
      unfold isUInt64 at hfit
      rw [hsize, hn, Nat.mod_eq_of_lt (by omega), ← hlen]
      exact memcpy_length_self _
    simp only [hnonempty, Bool.not_false, if_true, Data.new]
    split
    · simp [hdata]
    · simp only [Option.map_some', hcopy]
      rw [hdata]
  let ob : ManagedObject := { kind := .data, array := some D }
  let d : Nat := s.heap.length + 1
  let sB : RankState := u.handle.assign d (s.alloc ob).2
  have hrun : NewData.run C u s = translateHandles d u.nItems 0 sB := by
    simp only [NewData.run, hD, RankState.alloc, hstr, if_false, hfmt, if_true]
    rfl
  have hodB : sB.objAt d = some ob := RankState.objAt_alloc_new s ob
  have holdB : ∀ (q : Nat) o, s.objAt q = some o → sB.objAt q = some o ∧ q ≠ d := by
    intro q o ho
    refine ⟨RankState.objAt_alloc_old ob ho, ?_⟩
    have := RankState.objAt_lt ho
    have hq : q ≠ 0 := RankState.objAt_ne_null ho
    show q ≠ s.heap.length + 1
    omega
  have hlkB : ∀ h ∈ hs, h ≠ 0 →
      ObjectHandle.lookup { i64 := h } sB = ObjectHandle.lookup { i64 := h } s
      ∧ ObjectHandle.lookup { i64 := h } s ≠ d
      ∧ (sB.objAt (ObjectHandle.lookup { i64 := h } s)).isSome = true := by
    intro h hh h0
    obtain ⟨o, ho⟩ := Option.isSome_iff_exists.mp (hbound h hh h0)
    have hne : ({ i64 := h } : ObjectHandle) ≠ u.handle := by
      intro hc
      have hl : ObjectHandle.lookup { i64 := h } s = 0 := by
        rw [hc]; exact ObjectHandle.lookup_of_not_defined hfresh
      exact RankState.objAt_ne_null ho hl
    refine ⟨?_, (holdB _ o ho).2, ?_⟩
    · exact ObjectHandle.lookup_assign_ne _ _ _ _ hne
    · rw [(holdB _ o ho).1]; rfl
  have htotB : sB.totalRefs = s.totalRefs + 1 := RankState.totalRefs_alloc s ob
  have hself : u.handle.lookup sB = d := ObjectHandle.lookup_assign_self _ _ _
  by_cases hnil : hs = []
  · subst hnil
    simp only [List.length_nil] at hn
    refine ⟨sB, ?_, hself, fun h => absurd rfl h, ?_, ?_⟩
    · rw [hrun, hn]; rfl
    · intro q o ho
      rw [(holdB q o ho).1]
      simp [timesNamed]
    · rw [htotB]; simp
  · obtain ⟨s1, h1, hreg, _, hlen, hd1, hothers, htot⟩ :=
      translateHandles_spec d (fun h => ObjectHandle.lookup { i64 := h } s) hs 0 sB [] ob D
        hodB rfl (by simpa using hDdata hnil) rfl hrange hlkB
    refine ⟨s1, ?_, ?_, ?_, ?_, ?_⟩
    · rw [hrun, hn]; exact h1
    · have : u.handle.lookup s1 = u.handle.lookup sB := by
        simp only [ObjectHandle.lookup, hreg]
      rw [this]; exact hself
    · intro _
      simp only [RankState.arrayBytes, hd1, List.nil_append]
      rfl
    · intro q o ho
      rw [hothers q o (holdB q o ho).2 (holdB q o ho).1]
      rfl
    · rw [htot, htotB]

/-- The other half of C3: for an element type outside the object kinds the
run touches no existing object, and returns normally unless the type is
`OSP_STRING`. -/
theorem NewData.run_plain_format (C : OSPConstants) (u : NewData) (s : RankState)
    (hfmt : isObjectFormat C u.format = false) :
    (∀ (q : Nat) o, s.objAt q = some o → (NewData.run C u s).state.objAt q = some o)
    ∧ (u.format ≠ C.OSP_STRING → (NewData.run C u s).isOk = true) := by
  by_cases hstr : u.format = C.OSP_STRING
  · refine ⟨?_, fun h => absurd hstr h⟩
    intro q o ho
    simp only [NewData.run, RankState.alloc, hstr, if_true, Result.state]
    exact RankState.objAt_alloc_old _ ho
  · refine ⟨?_, fun _ => by simp only [NewData.run, RankState.alloc, hstr, if_false, hfmt]; rfl⟩
    intro q o ho
    simp only [NewData.run, RankState.alloc, hstr, if_false, hfmt, Result.state]
    exact RankState.objAt_alloc_old _ ho

/-- C3: for a NewData unit of an object element type whose n elements are
handles, each either null or bound to an object, run returns normally, the
array then holds for each non-null handle the address of the object it is
bound to and null for each null element, every object gains as many
references as there are elements naming it, and the sum of all reference
counts grows by the number k of non-null elements (plus the one reference of
the array object just created); for an element type outside the object kinds
no existing object changes. -/
theorem NewData.run_translates_and_counts (C : OSPConstants) (u : NewData) (s : RankState)
    (hs : List Int) :
    (isObjectFormat C u.format = true → u.format ≠ C.OSP_STRING → C.sizeOf u.format = 8 →
      u.nItems = hs.length → isUInt64 (8 * hs.length) → u.data = encWords hs →
      (∀ h ∈ hs, isInt64 h) → u.handle.defined s = false →
      (∀ h ∈ hs, h ≠ 0 → (s.objAt (ObjectHandle.lookup { i64 := h } s)).isSome = true) →
      ∃ s1, NewData.run C u s = .ok s1
        ∧ u.handle.lookup s1 = s.heap.length + 1
        ∧ (hs ≠ [] →
            s1.arrayBytes (s.heap.length + 1) = some (encWords (hs.map (translated s))))
        ∧ (∀ q o, s.objAt q = some o →
            s1.objAt q = some { o with refCount := o.refCount + (timesNamed s hs q : Int) })
        ∧ s1.totalRefs = s.totalRefs + 1 + ((hs.filter (fun h => h ≠ 0)).length : Int))
    ∧ (isObjectFormat C u.format = false →
      ∀ (q : Nat) o, s.objAt q = some o → (NewData.run C u s).state.objAt q = some o) :=
  ⟨fun hfmt hstr hsize hn hfit hdata hrange hfresh hbound =>
      NewData.run_object_format C u s hs hfmt hstr hsize hn hfit hdata hrange hfresh hbound,
   fun hfmt => (NewData.run_plain_format C u s hfmt).1⟩

/-- Witness for C3: the geometry bound to handle 12 (address 2, one
reference) is named once by a one-element OSP_GEOMETRY array and ends with two
references. -/
theorem NewData.run_translates_and_counts_witness :
    exampleState.refCountOf 2 = 1
    ∧ ∃ s1, NewData.run exampleConstants exampleGeometryArray exampleState = .ok s1
        ∧ s1.arrayBytes 6 = some (encWords [2])
        ∧ s1.objAt 2 = some { kind := .geometry, refCount := 2 } := by
  refine ⟨by decide, ?_⟩
  obtain ⟨s1, h1, _, h3, h4, _⟩ :=
    (NewData.run_translates_and_counts exampleConstants exampleGeometryArray exampleState
      [12]).1 (by decide) (by decide) (by decide) (by decide) (by decide) rfl (by decide)
      (by decide) (by decide)
  exact ⟨s1, h1, h3 (by decide), h4 2 { kind := .geometry } (by decide)⟩

theorem NewData.decode_sent_unit (u : NewData) (h1 : isInt64 u.handle.i64)
    (h2 : isUInt64 u.nItems) (h3 : isInt32 u.format) (h4 : isInt32 u.flags)
    (h5 : isUInt64 u.data.length) :
    NewData.deserialize (u.serialize []) = some ({ u with localData := none }, []) := by
  have h := readBytes_enc u.data h5 []
  simp only [List.append_nil] at h
  simp [NewData.serialize, NewData.deserialize, readInt64_enc, readSizeT_enc, readInt32_enc,
    h1, h2, h3, h4, h]

/-- The part of C2 that holds: without the shared-buffer flag, for a non-null
payload of sizeOf(format) * nItems > 0 bytes of a non-object, non-string
element type, the unit the worker decodes creates, when run, an array that
owns a buffer holding exactly the application's bytes. -/
theorem NewData.unshared_owned_on_worker (C : OSPConstants) (handle : ObjectHandle)
    (nItems : Nat) (format : Int) (mem : List Nat) (flags : Int) (s : RankState)
    (hflag : sharedBuffer C flags = false) (hlen : mem.length = C.sizeOf format * nItems)
    (hpos : 0 < mem.length) (h1 : isInt64 handle.i64) (h2 : isUInt64 nItems)
    (h3 : isInt32 format) (h4 : isInt32 flags) (h5 : isUInt64 mem.length)
    (hobj : isObjectFormat C format = false) (hstr : format ≠ C.OSP_STRING) :
    ∃ w s1, NewData.deserialize ((NewData.new C handle nItems format (some mem) flags).serialize [])
        = some (w, [])
      ∧ NewData.run C w s = .ok s1
      ∧ (s1.objAt (handle.lookup s1)).map (fun o => o.array)
        = some (some { numItems := nItems, type := format, flags := flags, ownsBuffer := true,
                       data := some mem }) := by
  have hn : nItems ≠ 0 := by
    intro h; rw [h] at hlen; omega
  have hcopy : memcpy (C.sizeOf format * nItems % 2 ^ 64) mem = mem := by
    unfold isUInt64 at h5
    rw [← hlen, Nat.mod_eq_of_lt (by omega)]
    exact memcpy_length_self _
  have hmaster : NewData.new C handle nItems format (some mem) flags
      = { handle := handle, nItems := nItems, format := format, data := mem, localData := none,
          flags := flags } := by
    simp only [NewData.new, ne_eq, hn, not_false_eq_true, if_true, hflag, hcopy]
    simp
  have hne : mem.isEmpty = false := by
    cases mem with
    | nil => simp at hpos
    | cons a t => rfl
  rw [hmaster]
  let D : Data :=
    { numItems := nItems, type := format, flags := flags, ownsBuffer := true, data := some mem }
  refine ⟨{ handle := handle, nItems := nItems, format := format, data := mem,
            localData := none, flags := flags },
    handle.assign (s.heap.length + 1) (s.alloc { kind := .data, array := some D }).2,
    NewData.decode_sent_unit _ h1 h2 h3 h4 h5, ?_, ?_⟩
  · simp only [NewData.run, RankState.alloc, hstr, if_false, hobj, hne, Bool.not_false, if_true,
      Data.new, hflag, hcopy, Option.map_some']
    rfl
  · rw [ObjectHandle.lookup_assign_self]
    exact congrArg (Option.map (fun o => o.array)) (RankState.objAt_alloc_new s _)

/-- C2, evaluated: the master builds a NewData unit for four application
bytes with the shared-buffer flag; the unit keeps them only behind localData,
the stream carries an empty buffer, and the array the worker creates from the
decoded unit borrows a null pointer instead of owning the four bytes. -/
theorem NewData.shared_buffer_not_owned_on_worker :
    exampleSharedData.data = [] ∧ exampleSharedData.localData = some [1, 2, 3, 4]
    ∧ (NewData.deserialize (exampleSharedData.serialize [])).map
        (fun r => (NewData.run exampleConstants r.1 exampleState).isOk) = some true
    ∧ (NewData.deserialize (exampleSharedData.serialize [])).map
        (fun r => ((NewData.run exampleConstants r.1 exampleState).state.objAt 6).map
          (fun o => o.array))
      = some (some (some { numItems := 1, type := 2500, flags := 1, ownsBuffer := false,
                           data := none })) := by
  decide

/-! ### ospSetRegion -/

theorem memcpy_length (n : Nat) (src : List Nat) : (memcpy n src).length = n := by
  simp [memcpy]

theorem toSizeT_of_nonneg (v : Int) (h0 : 0 ≤ v) (h : isInt32 v) : (toSizeT v : Int) = v := by
  unfold isInt32 at h
  unfold toSizeT toUnsigned
  rw [Int.toNat_of_nonneg (Int.emod_nonneg _ (by norm_num))]
  exact Int.emod_eq_of_lt h0 (by omega)

theorem SetRegion.bytes_eq_mod (C : OSPConstants) (size : vec3i) (type : Int) :
    SetRegion.bytes C size type
      = C.sizeOf type * toSizeT size.x * toSizeT size.y * toSizeT size.z % 2 ^ 64 := by
  unfold SetRegion.bytes
  simp [Nat.mul_mod, Nat.mod_mod]

/-- The size check of `SetRegion::SetRegion` where no `size_t` product wraps:
for a non-negative extent whose byte size is below 2^64 the constructor throws
exactly when the byte size exceeds 2*10^9, and otherwise the data buffer has
exactly that many bytes. -/
theorem SetRegion.new_without_wraparound (C : OSPConstants) (volume : ObjectHandle)
    (start size : vec3i) (src : List Nat) (type : Int)
    (hx : 0 ≤ size.x) (hy : 0 ≤ size.y) (hz : 0 ≤ size.z)
    (hx32 : isInt32 size.x) (hy32 : isInt32 size.y) (hz32 : isInt32 size.z)
    (hfit : (C.sizeOf type : Int) * size.x * size.y * size.z < 2 ^ 64) :
    (2000000000 < (C.sizeOf type : Int) * size.x * size.y * size.z →
      ∃ msg, SetRegion.new C volume start size src type = .error msg)
    ∧ ((C.sizeOf type : Int) * size.x * size.y * size.z ≤ 2000000000 →
      ∃ r, SetRegion.new C volume start size src type = .ok r
        ∧ (r.data.length : Int) = (C.sizeOf type : Int) * size.x * size.y * size.z) := by
  have hprod : ((C.sizeOf type * toSizeT size.x * toSizeT size.y * toSizeT size.z : Nat) : Int)
      = (C.sizeOf type : Int) * size.x * size.y * size.z := by
    push_cast
    rw [toSizeT_of_nonneg _ hx hx32, toSizeT_of_nonneg _ hy hy32, toSizeT_of_nonneg _ hz hz32]
  have hlt : C.sizeOf type * toSizeT size.x * toSizeT size.y * toSizeT size.z < 2 ^ 64 := by
    have : ((C.sizeOf type * toSizeT size.x * toSizeT size.y * toSizeT size.z : Nat) : Int)
        < 2 ^ 64 := by rw [hprod]; exact hfit
    exact_mod_cast this
  have hbytes : ((SetRegion.bytes C size type : Nat) : Int)
      = (C.sizeOf type : Int) * size.x * size.y * size.z := by
    rw [SetRegion.bytes_eq_mod, Nat.mod_eq_of_lt hlt, hprod]
  constructor
  · intro hbig
    have : SetRegion.bytes C size type > 2000000000 := by
      have : (2000000000 : Int) < (SetRegion.bytes C size type : Nat) := by rw [hbytes]; exact hbig
      exact_mod_cast this
    exact ⟨"MPI ospSetRegion does not support region sizes > 2GB", by simp [SetRegion.new, this]⟩
  · intro hsmall
    have : ¬ SetRegion.bytes C size type > 2000000000 := by
      have : ((SetRegion.bytes C size type : Nat) : Int) ≤ 2000000000 := by
        rw [hbytes]; exact hsmall
      have : SetRegion.bytes C size type ≤ 2000000000 := by exact_mod_cast this
      omega
    refine ⟨{ handle := volume, regionStart := start, regionSize := size, type := type,
              data := memcpy (SetRegion.bytes C size type) src },
      by simp only [SetRegion.new, this, if_false], ?_⟩
    simp only [memcpy_length, hbytes]

/-- C4, evaluated: for an element type of at least one byte, the extent
(4194304, 4194304, 1048576) has a byte size of at least 2^64, far above
2*10^9, yet the product computed in size_t is 0, so the constructor does not
throw and returns a unit with an empty data buffer. -/
theorem SetRegion.new_accepts_wrapped_size (C : OSPConstants) (volume : ObjectHandle)
    (start : vec3i) (src : List Nat) (type : Int) (hpos : 0 < C.sizeOf type) :
    (2000000000 : Int) < (C.sizeOf type : Int) * 4194304 * 4194304 * 1048576
    ∧ SetRegion.new C volume start { x := 4194304, y := 4194304, z := 1048576 } src type
      = .ok { handle := volume, regionStart := start,
              regionSize := { x := 4194304, y := 4194304, z := 1048576 }, type := type,
              data := [] } := by
  constructor
  · have : (1 : Int) ≤ (C.sizeOf type : Int) := by exact_mod_cast hpos
    omega
  · have hb : SetRegion.bytes C { x := 4194304, y := 4194304, z := 1048576 } type = 0 := by
      rw [SetRegion.bytes_eq_mod]
      have h1 : toSizeT 4194304 = 4194304 := by decide
      have h2 : toSizeT 1048576 = 1048576 := by decide
      simp only [h1, h2]
      omega
    simp [SetRegion.new, hb, memcpy]

/-- Witness for the evaluation of C4: four-byte elements. -/
theorem SetRegion.new_accepts_wrapped_size_witness :
    0 < exampleConstants.sizeOf 2500
    ∧ SetRegion.new exampleConstants { i64 := 15 } { x := 0, y := 0, z := 0 }
        { x := 4194304, y := 4194304, z := 1048576 } [] 2500
      = .ok { handle := { i64 := 15 }, regionStart := { x := 0, y := 0, z := 0 },
              regionSize := { x := 4194304, y := 4194304, z := 1048576 }, type := 2500,
              data := [] } :=
  ⟨by decide,
   (SetRegion.new_accepts_wrapped_size exampleConstants { i64 := 15 } { x := 0, y := 0, z := 0 }
      [] 2500 (by decide)).2⟩

/-- An extent of 1024 x 1024 x 768 four-byte elements (3 GiB) is rejected. -/
theorem SetRegion.new_rejects_three_gib :
    SetRegion.new exampleConstants { i64 := 15 } { x := 0, y := 0, z := 0 }
        { x := 1024, y := 1024, z := 768 } [] 2500
      = .error "MPI ospSetRegion does not support region sizes > 2GB" := by
  rfl

/-! ### ospNewFrameBuffer -/

/-- C11: CreateFrameBuffer.run signals an error and leaves the rank's state
(so also the handle) untouched when dimensions.x <= 0 or dimensions.y <= 0;
when both are positive it returns normally with the handle bound to a new
framebuffer of those dimensions and that format whose depth, accumulation and
variance flags say whether channels has a bit in common with OSP_FB_DEPTH,
OSP_FB_ACCUM and OSP_FB_VARIANCE; runOnMaster is the same body. -/
theorem CreateFrameBuffer.run_checks_dimensions (K : OSPFlagConstants) (u : CreateFrameBuffer)
    (s : RankState) :
    ((u.dimensions.x ≤ 0 ∨ u.dimensions.y ≤ 0) →
      ∃ msg, CreateFrameBuffer.run K u s = .thrown msg s)
    ∧ ((0 < u.dimensions.x ∧ 0 < u.dimensions.y) →
      ∃ s1 o fb, CreateFrameBuffer.run K u s = .ok s1
        ∧ s1.objAt (u.handle.lookup s1) = some o ∧ o.kind = .frameBuffer
        ∧ o.frameBuffer = some fb ∧ fb.size = u.dimensions ∧ fb.colorBufferFormat = u.format
        ∧ (fb.hasDepthBuffer = true ↔ u.channels &&& K.OSP_FB_DEPTH ≠ 0)
        ∧ (fb.hasAccumBuffer = true ↔ u.channels &&& K.OSP_FB_ACCUM ≠ 0)
        ∧ (fb.hasVarianceBuffer = true ↔ u.channels &&& K.OSP_FB_VARIANCE ≠ 0)
        ∧ ∀ (q : Nat) o0, s.objAt q = some o0 → s1.objAt q = some o0)
    ∧ CreateFrameBuffer.runOnMaster K u s = CreateFrameBuffer.run K u s := by
  refine ⟨?_, ?_, rfl⟩
  · intro h
    by_cases hx : u.dimensions.x > 0
    · have hy : ¬ u.dimensions.y > 0 := by omega
      exact ⟨"assert(dimensions.y > 0)", by simp [CreateFrameBuffer.run, hx, hy]⟩
    · exact ⟨"assert(dimensions.x > 0)", by simp [CreateFrameBuffer.run, hx]⟩
  · intro ⟨hx, hy⟩
    let ob : ManagedObject :=
      { kind := .frameBuffer,
        frameBuffer := some { size := u.dimensions, colorBufferFormat := u.format,
                              hasDepthBuffer := (u.channels &&& K.OSP_FB_DEPTH) != 0,
                              hasAccumBuffer := (u.channels &&& K.OSP_FB_ACCUM) != 0,
                              hasVarianceBuffer := (u.channels &&& K.OSP_FB_VARIANCE) != 0 } }
    have hnew : ((s.alloc ob).2.refInc (s.heap.length + 1)).objAt (s.heap.length + 1)
        = some { ob with refCount := ob.refCount + 1 } :=
      RankState.objAt_modifyObj_same _ (RankState.objAt_alloc_new s ob)
    refine ⟨u.handle.assign (s.heap.length + 1) ((s.alloc ob).2.refInc (s.heap.length + 1)),
      { ob with refCount := ob.refCount + 1 }, _, ?_, ?_, rfl, rfl, rfl, rfl, ?_, ?_, ?_, ?_⟩
    · simp only [CreateFrameBuffer.run, RankState.alloc, hx, hy, not_true_eq_false, if_false]
    · rw [ObjectHandle.lookup_assign_self]
      exact hnew
    · simp
    · simp
    · simp
    · intro q o0 ho
      have hq : q ≠ s.heap.length + 1 := by
        have := RankState.objAt_lt ho
        have := RankState.objAt_ne_null ho
        omega
      show ((s.alloc ob).2.refInc (s.heap.length + 1)).objAt q = some o0
      unfold RankState.refInc
      rw [RankState.objAt_modifyObj_ne _ hq]
      exact RankState.objAt_alloc_old ob ho

/-- Witness for C11: a 4 x 4 framebuffer with channels 5 (colour and
accumulation) on the example rank. -/
theorem CreateFrameBuffer.run_checks_dimensions_witness :
    (0 < exampleCreateFrameBuffer.dimensions.x ∧ 0 < exampleCreateFrameBuffer.dimensions.y)
    ∧ ∃ s1 o fb, CreateFrameBuffer.run exampleFlagConstants exampleCreateFrameBuffer exampleState
          = .ok s1
        ∧ s1.objAt (exampleCreateFrameBuffer.handle.lookup s1) = some o ∧ o.kind = .frameBuffer
        ∧ o.frameBuffer = some fb ∧ fb.size = exampleCreateFrameBuffer.dimensions
        ∧ fb.colorBufferFormat = exampleCreateFrameBuffer.format
        ∧ (fb.hasDepthBuffer = true
            ↔ exampleCreateFrameBuffer.channels &&& exampleFlagConstants.OSP_FB_DEPTH ≠ 0)
        ∧ (fb.hasAccumBuffer = true
            ↔ exampleCreateFrameBuffer.channels &&& exampleFlagConstants.OSP_FB_ACCUM ≠ 0)
        ∧ (fb.hasVarianceBuffer = true
            ↔ exampleCreateFrameBuffer.channels &&& exampleFlagConstants.OSP_FB_VARIANCE ≠ 0)
        ∧ ∀ (q : Nat) o0, exampleState.objAt q = some o0 → s1.objAt q = some o0 :=
  ⟨by decide,
   (CreateFrameBuffer.run_checks_dimensions exampleFlagConstants exampleCreateFrameBuffer
      exampleState).2.1 (by decide)⟩

/-! ### ospNewMaterial, ospNewLight -/

theorem NewMaterial.run_renderer_factory (F : Factories) (u : NewMaterial) (s : RankState)
    (o : ManagedObject) (hr : u.rendererHandle.lookup s ≠ nullptr)
    (hf : F.rendererCreateMaterial (u.rendererHandle.lookup s) u.type = some o) :
    ∃ s1, NewMaterial.run F u s = .ok s1
      ∧ s1.objAt (u.handle.lookup s1) = some { o with refCount := o.refCount + 1 }
      ∧ s1.trace = s.trace ++ [Event.createMaterial (u.rendererHandle.lookup s)] := by
  have hne : s.heap.length + 1 ≠ 0 := by omega
  refine ⟨u.handle.assign (s.heap.length + 1)
    (((s.log (.createMaterial (u.rendererHandle.lookup s))).alloc o).2.refInc
      (s.heap.length + 1)), ?_, ?_, ?_⟩
  · simp [NewMaterial.run, hr, hf, RankState.alloc, RankState.log, hne]
  · rw [ObjectHandle.lookup_assign_self]
    exact RankState.objAt_modifyObj_same _
      (RankState.objAt_alloc_new (s.log (.createMaterial (u.rendererHandle.lookup s))) o)
  · show (((s.log (.createMaterial (u.rendererHandle.lookup s))).alloc o).2.refInc
      (s.heap.length + 1)).trace = _
    unfold RankState.refInc
    rw [RankState.trace_modifyObj]
    rfl

theorem NewMaterial.run_global_factory (F : Factories) (u : NewMaterial) (s : RankState)
    (h : u.rendererHandle.lookup s = nullptr
      ∨ F.rendererCreateMaterial (u.rendererHandle.lookup s) u.type = none) :
    ∃ s1, NewMaterial.run F u s = .ok s1
      ∧ s1.objAt (u.handle.lookup s1) = F.createMaterial u.type
      ∧ s1.trace = s.trace
          ++ (if u.rendererHandle.lookup s ≠ nullptr
              then [Event.createMaterial (u.rendererHandle.lookup s)] else [])
          ++ [Event.globalCreateMaterial] := by
  have key : ∀ s0 : RankState, ∃ s1,
      (match F.createMaterial u.type with
        | some o => Result.ok (u.handle.assign (s0.heap.length + 1)
            ((s0.log .globalCreateMaterial).alloc o).2)
        | none => Result.ok (u.handle.assign nullptr (s0.log .globalCreateMaterial))) = .ok s1
      ∧ s1.objAt (u.handle.lookup s1) = F.createMaterial u.type
      ∧ s1.trace = s0.trace ++ [Event.globalCreateMaterial] := by
    intro s0
    cases hg : F.createMaterial u.type with
    | none =>
      refine ⟨_, rfl, ?_, rfl⟩
      rw [ObjectHandle.lookup_assign_self]
      rfl
    | some og =>
      refine ⟨_, rfl, ?_, rfl⟩
      rw [ObjectHandle.lookup_assign_self]
      exact RankState.objAt_alloc_new (s0.log .globalCreateMaterial) og
  by_cases hr : u.rendererHandle.lookup s = nullptr
  · obtain ⟨s1, h1, h2, h3⟩ := key s
    refine ⟨s1, ?_, h2, by simpa [hr] using h3⟩
    rw [← h1]
    simp only [NewMaterial.run, hr, ne_eq, not_true_eq_false, if_false, if_true]
    cases F.createMaterial u.type <;> rfl
  · have hf : F.rendererCreateMaterial (u.rendererHandle.lookup s) u.type = none := by
      rcases h with h | h
      · exact absurd h hr
      · exact h
    obtain ⟨s1, h1, h2, h3⟩ := key (s.log (.createMaterial (u.rendererHandle.lookup s)))
    refine ⟨s1, ?_, h2, by simpa [hr, RankState.log] using h3⟩
    rw [← h1]
    simp only [NewMaterial.run, hr, ne_eq, not_false_eq_true, if_true, hf]
    cases F.createMaterial u.type <;> rfl

theorem NewLight.run_light_renderer_factory (F : Factories) (u : NewLight) (s : RankState)
    (o : ManagedObject) (hr : u.rendererHandle.lookup s ≠ nullptr)
    (hf : F.rendererCreateLight (u.rendererHandle.lookup s) u.type = some o) :
    ∃ s1, NewLight.run F u s = .ok s1
      ∧ s1.objAt (u.handle.lookup s1) = some { o with refCount := o.refCount + 1 }
      ∧ s1.trace = s.trace ++ [Event.createLight (u.rendererHandle.lookup s)] := by
  have hne : s.heap.length + 1 ≠ 0 := by omega
  refine ⟨u.handle.assign (s.heap.length + 1)
    (((s.log (.createLight (u.rendererHandle.lookup s))).alloc o).2.refInc
      (s.heap.length + 1)), ?_, ?_, ?_⟩
  · simp [NewLight.run, hr, hf, RankState.alloc, RankState.log, hne]
  · rw [ObjectHandle.lookup_assign_self]
    exact RankState.objAt_modifyObj_same _
      (RankState.objAt_alloc_new (s.log (.createLight (u.rendererHandle.lookup s))) o)
  · show (((s.log (.createLight (u.rendererHandle.lookup s))).alloc o).2.refInc
      (s.heap.length + 1)).trace = _
    unfold RankState.refInc
    rw [RankState.trace_modifyObj]
    rfl

theorem NewLight.run_light_global_factory (F : Factories) (u : NewLight) (s : RankState)
    (h : u.rendererHandle.lookup s = nullptr
      ∨ F.rendererCreateLight (u.rendererHandle.lookup s) u.type = none) :
    ∃ s1, NewLight.run F u s = .ok s1
      ∧ s1.objAt (u.handle.lookup s1) = F.createLight u.type
      ∧ s1.trace = s.trace
          ++ (if u.rendererHandle.lookup s ≠ nullptr
              then [Event.createLight (u.rendererHandle.lookup s)] else [])
          ++ [Event.globalCreateLight] := by
  have key : ∀ s0 : RankState, ∃ s1,
      (match F.createLight u.type with
        | some o => Result.ok (u.handle.assign (s0.heap.length + 1)
            ((s0.log .globalCreateLight).alloc o).2)
        | none => Result.ok (u.handle.assign nullptr (s0.log .globalCreateLight))) = .ok s1
      ∧ s1.objAt (u.handle.lookup s1) = F.createLight u.type
      ∧ s1.trace = s0.trace ++ [Event.globalCreateLight] := by
    intro s0
    cases hg : F.createLight u.type with
    | none =>
      refine ⟨_, rfl, ?_, rfl⟩
      rw [ObjectHandle.lookup_assign_self]
      rfl
    | some og =>
      refine ⟨_, rfl, ?_, rfl⟩
      rw [ObjectHandle.lookup_assign_self]
      exact RankState.objAt_alloc_new (s0.log .globalCreateLight) og
  by_cases hr : u.rendererHandle.lookup s = nullptr
  · obtain ⟨s1, h1, h2, h3⟩ := key s
    refine ⟨s1, ?_, h2, by simpa [hr] using h3⟩
    rw [← h1]
    simp only [NewLight.run, hr, ne_eq, not_true_eq_false, if_false, if_true]
    cases F.createLight u.type <;> rfl
  · have hf : F.rendererCreateLight (u.rendererHandle.lookup s) u.type = none := by
      rcases h with h | h
      · exact absurd h hr
      · exact h
    obtain ⟨s1, h1, h2, h3⟩ := key (s.log (.createLight (u.rendererHandle.lookup s)))
    refine ⟨s1, ?_, h2, by simpa [hr, RankState.log] using h3⟩
    rw [← h1]
    simp only [NewLight.run, hr, ne_eq, not_false_eq_true, if_true, hf]
    cases F.createLight u.type <;> rfl

/-- C12: for NewMaterial.run and NewLight.run, when the renderer handle
resolves to a renderer whose factory returns an object for the type name, that
object is bound to the new handle and the only factory call made is the
renderer's; otherwise (no renderer, or its factory returns null) the static
factory is called and what it returns for the type name is bound to the
handle. -/
theorem NewMaterial_NewLight_factory_order (F : Factories) (u : NewMaterial) (v : NewLight)
    (s : RankState) :
    (∀ o, u.rendererHandle.lookup s ≠ nullptr →
      F.rendererCreateMaterial (u.rendererHandle.lookup s) u.type = some o →
      ∃ s1, NewMaterial.run F u s = .ok s1
        ∧ s1.objAt (u.handle.lookup s1) = some { o with refCount := o.refCount + 1 }
        ∧ s1.trace = s.trace ++ [Event.createMaterial (u.rendererHandle.lookup s)])
    ∧ ((u.rendererHandle.lookup s = nullptr
        ∨ F.rendererCreateMaterial (u.rendererHandle.lookup s) u.type = none) →
      ∃ s1, NewMaterial.run F u s = .ok s1
        ∧ s1.objAt (u.handle.lookup s1) = F.createMaterial u.type
        ∧ s1.trace = s.trace
            ++ (if u.rendererHandle.lookup s ≠ nullptr
                then [Event.createMaterial (u.rendererHandle.lookup s)] else [])
            ++ [Event.globalCreateMaterial])
    ∧ (∀ o, v.rendererHandle.lookup s ≠ nullptr →
      F.rendererCreateLight (v.rendererHandle.lookup s) v.type = some o →
      ∃ s1, NewLight.run F v s = .ok s1
        ∧ s1.objAt (v.handle.lookup s1) = some { o with refCount := o.refCount + 1 }
        ∧ s1.trace = s.trace ++ [Event.createLight (v.rendererHandle.lookup s)])
    ∧ ((v.rendererHandle.lookup s = nullptr
        ∨ F.rendererCreateLight (v.rendererHandle.lookup s) v.type = none) →
      ∃ s1, NewLight.run F v s = .ok s1
        ∧ s1.objAt (v.handle.lookup s1) = F.createLight v.type
        ∧ s1.trace = s.trace
            ++ (if v.rendererHandle.lookup s ≠ nullptr
                then [Event.createLight (v.rendererHandle.lookup s)] else [])
            ++ [Event.globalCreateLight]) :=
  ⟨fun o hr hf => NewMaterial.run_renderer_factory F u s o hr hf,
   fun h => NewMaterial.run_global_factory F u s h,
   fun o hr hf => NewLight.run_light_renderer_factory F v s o hr hf,
   fun h => NewLight.run_light_global_factory F v s h⟩

/-- Witness for C12: on the example rank the renderer bound to handle 13
creates materials of type `[1]` itself, and has no light factory, so a light
of type `[2]` comes from the static factory. -/
theorem NewMaterial_NewLight_factory_order_witness :
    (∃ s1, NewMaterial.run exampleFactories exampleNewMaterial exampleState = .ok s1
      ∧ s1.objAt (exampleNewMaterial.handle.lookup s1) = some { kind := .material, refCount := 2 }
      ∧ s1.trace = exampleState.trace ++ [Event.createMaterial 3])
    ∧ (∃ s1, NewLight.run exampleFactories exampleNewLight exampleState = .ok s1
      ∧ s1.objAt (exampleNewLight.handle.lookup s1) = some { kind := .light, refCount := 1 }
      ∧ s1.trace = exampleState.trace ++ [Event.createLight 3] ++ [Event.globalCreateLight]) :=
  ⟨(NewMaterial_NewLight_factory_order exampleFactories exampleNewMaterial exampleNewLight
      exampleState).1 { kind := .material, refCount := 1 } (by decide) (by decide),
   (NewMaterial_NewLight_factory_order exampleFactories exampleNewMaterial exampleNewLight
      exampleState).2.2.2 (Or.inr (by decide))⟩

/-! ### ospNewTexture2d -/

theorem testBit_bitNot32 (m i : Nat) :
    (bitNot32 m).testBit i = (decide (i < 32) && !m.testBit i) := by
  unfold bitNot32
  rw [Nat.testBit_two_pow_sub_succ (Nat.mod_lt _ (by norm_num)), Nat.testBit_mod_two_pow]
  by_cases h : i < 32 <;> simp [h]

theorem testBit_of_isUInt32 {f : Nat} (hf : isUInt32 f) {i : Nat} (hi : 32 ≤ i) :
    f.testBit i = false := by
  apply Nat.testBit_lt_two_pow
  unfold isUInt32 at hf
  calc f < 2 ^ 32 := by omega
    _ ≤ 2 ^ i := Nat.pow_le_pow_right (by norm_num) hi

theorem memcpy_eq_take (n : Nat) (src : List Nat) (h : n ≤ src.length) :
    memcpy n src = src.take n := by
  unfold memcpy
  apply List.ext_getElem
  · simp [h]
  · intro i h1 h2
    simp only [List.length_map, List.length_range] at h1
    simp [List.getD_eq_getElem?_getD, List.getElem?_eq_getElem (show i < src.length by omega)]

theorem NewTexture2d.texture_bytes_eq_mod (K : OSPFlagConstants) (dimensions : vec2i) (format : Int) :
    NewTexture2d.bytes K dimensions format
      = K.sizeOfTexture format * toSizeT dimensions.x * toSizeT dimensions.y % 2 ^ 64 := by
  unfold NewTexture2d.bytes
  simp [Nat.mul_mod, Nat.mod_mod]

/-- C13: for every uint32 flags value, NewTexture2d.run returns normally with
the handle bound to a texture built from the unit's dimensions, format and
data buffer that owns its copy of the data, and whose flags have every bit of
OSP_TEXTURE_SHARED_BUFFER cleared and every other bit as in the unit's flags;
and for non-negative dimensions whose byte size sizeOf(format) * x * y fits
size_t, the constructor fills the unit's buffer with exactly that many bytes
from the start of the source texture. -/
theorem NewTexture2d.run_clears_shared_flag (K : OSPFlagConstants) (u : NewTexture2d)
    (s : RankState) (hf : isUInt32 u.flags) :
    (∃ s1 t, NewTexture2d.run K u s = .ok s1
      ∧ s1.textureOf (u.handle.lookup s1) = some t
      ∧ t.size = u.dimensions ∧ t.type = u.format ∧ t.data = u.data ∧ t.ownsData = true
      ∧ (∀ i, K.OSP_TEXTURE_SHARED_BUFFER.testBit i = true → t.flags.testBit i = false)
      ∧ (∀ i, K.OSP_TEXTURE_SHARED_BUFFER.testBit i = false →
          t.flags.testBit i = u.flags.testBit i))
    ∧ (∀ (handle : ObjectHandle) (dimensions : vec2i) (format : Int) (texture : List Nat)
        (flags : Nat) (n : Nat),
        0 ≤ dimensions.x → 0 ≤ dimensions.y → isInt32 dimensions.x → isInt32 dimensions.y →
        (n : Int) = (K.sizeOfTexture format : Int) * dimensions.x * dimensions.y →
        isUInt64 n → n ≤ texture.length →
        (NewTexture2d.new K handle dimensions format texture flags).data = texture.take n
        ∧ (NewTexture2d.new K handle dimensions format texture flags).data.length = n) := by
  constructor
  · let t : Texture2D := Texture2D.createTexture K u.dimensions u.format u.data
      (u.flags &&& bitNot32 K.OSP_TEXTURE_SHARED_BUFFER)
    have hclear : ∀ i, K.OSP_TEXTURE_SHARED_BUFFER.testBit i = true →
        (u.flags &&& bitNot32 K.OSP_TEXTURE_SHARED_BUFFER).testBit i = false := by
      intro i hi
      rw [Nat.testBit_and, testBit_bitNot32, hi]
      simp
    have hkeep : ∀ i, K.OSP_TEXTURE_SHARED_BUFFER.testBit i = false →
        (u.flags &&& bitNot32 K.OSP_TEXTURE_SHARED_BUFFER).testBit i = u.flags.testBit i := by
      intro i hi
      rw [Nat.testBit_and, testBit_bitNot32, hi]
      by_cases h32 : i < 32
      · simp [h32]
      · simp [h32, testBit_of_isUInt32 hf (Nat.le_of_not_lt h32)]
    have hown : (u.flags &&& bitNot32 K.OSP_TEXTURE_SHARED_BUFFER)
        &&& K.OSP_TEXTURE_SHARED_BUFFER = 0 := by
      apply Nat.eq_of_testBit_eq
      intro i
      rw [Nat.testBit_and, Nat.zero_testBit]
      cases hm : K.OSP_TEXTURE_SHARED_BUFFER.testBit i with
      | false => simp
      | true => simp [hclear i hm]
    refine ⟨u.handle.assign (s.heap.length + 1)
      (s.alloc { kind := .texture, texture := some t }).2, t, rfl, ?_, rfl, rfl, rfl, ?_,
      hclear, hkeep⟩
    · rw [ObjectHandle.lookup_assign_self]
      have := RankState.objAt_alloc_new s { kind := .texture, texture := some t }
      simp only [RankState.textureOf]
      show (match (s.alloc { kind := .texture, texture := some t }).2.objAt (s.heap.length + 1)
        with | some o => o.texture | none => none) = some t
      rw [this]
    · show ((u.flags &&& bitNot32 K.OSP_TEXTURE_SHARED_BUFFER)
        &&& K.OSP_TEXTURE_SHARED_BUFFER == 0) = true
      rw [hown]
      rfl
  · intro handle dimensions format texture flags n hx hy hx32 hy32 hn hfit hlen
    have hprod : K.sizeOfTexture format * toSizeT dimensions.x * toSizeT dimensions.y = n := by
      have : ((K.sizeOfTexture format * toSizeT dimensions.x * toSizeT dimensions.y : Nat) : Int)
          = (n : Int) := by
        push_cast
        rw [toSizeT_of_nonneg _ hx hx32, toSizeT_of_nonneg _ hy hy32, hn]
      exact_mod_cast this
    have hbytes : NewTexture2d.bytes K dimensions format = n := by
      unfold isUInt64 at hfit
      rw [NewTexture2d.texture_bytes_eq_mod, hprod, Nat.mod_eq_of_lt (by omega)]
    have hd : (NewTexture2d.new K handle dimensions format texture flags).data
        = texture.take n := by
      simp only [NewTexture2d.new, hbytes, memcpy_eq_take n texture hlen]
    exact ⟨hd, by rw [hd, List.length_take]; omega⟩

/-- Witness for C13: the 2 x 2 example texture with flags 3; the texture the
worker creates has flags 2 and owns its sixteen bytes. -/
theorem NewTexture2d.run_clears_shared_flag_witness :
    isUInt32 exampleNewTexture2d.flags
    ∧ ∃ s1 t, NewTexture2d.run exampleFlagConstants exampleNewTexture2d exampleState = .ok s1
      ∧ s1.textureOf (exampleNewTexture2d.handle.lookup s1) = some t
      ∧ t.size = exampleNewTexture2d.dimensions ∧ t.type = exampleNewTexture2d.format
      ∧ t.data = exampleNewTexture2d.data ∧ t.ownsData = true
      ∧ (∀ i, exampleFlagConstants.OSP_TEXTURE_SHARED_BUFFER.testBit i = true →
          t.flags.testBit i = false)
      ∧ (∀ i, exampleFlagConstants.OSP_TEXTURE_SHARED_BUFFER.testBit i = false →
          t.flags.testBit i = exampleNewTexture2d.flags.testBit i) :=
  ⟨by decide,
   (NewTexture2d.run_clears_shared_flag exampleFlagConstants exampleNewTexture2d exampleState
      (by decide)).1⟩

/-! ### ospSetPixelOp -/

theorem RankState.pixelOpOf_modifyObj_set {s : RankState} {fb : Nat} (p : Nat)
    (h : (s.objAt fb).isSome = true) :
    (s.modifyObj fb (fun o => { o with pixelOp := p })).pixelOpOf fb = p := by
  obtain ⟨o, ho⟩ := Option.isSome_iff_exists.mp h
  simp only [RankState.pixelOpOf, RankState.objAt_modifyObj_same _ ho]

theorem ne_succ_of_pred_lt (p n : Nat) (h : p - 1 < n) : p ≠ n + 1 := by omega

theorem succ_ne_of_le (p n : Nat) (h : p ≤ n) : n + 1 ≠ p := by omega

theorem RankState.objAt_refDec_if (s : RankState) (prev q : Nat) (hq : q ≠ prev) :
    (if prev ≠ nullptr then s.refDec prev else s).objAt q = s.objAt q := by
  split
  · exact RankState.objAt_modifyObj_ne _ hq
  · rfl

theorem RankState.isSome_objAt_refDec_if (s : RankState) (prev q : Nat) :
    ((if prev ≠ nullptr then s.refDec prev else s).objAt q).isSome = (s.objAt q).isSome := by
  split
  · exact RankState.isSome_objAt_modifyObj _ _ _ _
  · rfl

theorem RankState.trace_refDec_if (s : RankState) (prev : Nat) :
    (if prev ≠ nullptr then s.refDec prev else s).trace = s.trace := by
  split
  · exact RankState.trace_modifyObj _ _ _
  · rfl

/-- C14 counterexample: the framebuffer bound to handle 21 has the pixel-op at
address 3; the pixel-op bound to handle 22 creates no instance; after
SetPixelOp.run the framebuffer's pixel-op is null, not the one it had. -/
theorem SetPixelOp.run_null_instance_clears :
    examplePixelOpState.pixelOpOf 1 = 3
    ∧ exampleFactories.createInstance 2 1 3 = none
    ∧ (SetPixelOp.run exampleFactories { fbHandle := { i64 := 21 }, poHandle := { i64 := 22 } }
        examplePixelOpState).isOk = true
    ∧ (SetPixelOp.run exampleFactories { fbHandle := { i64 := 21 }, poHandle := { i64 := 22 } }
        examplePixelOpState).state.pixelOpOf 1 = 0 := by
  decide

/-- C14 as amended: for SetPixelOp.run on a framebuffer fb and a pixel-op po,
po's factory is called once, over fb's previous pixel-op; if it produces an
instance, that instance becomes fb's pixel-op and no warning is logged; if it
returns null, a warning is logged and fb's pixel-op is null after the call. -/
theorem SetPixelOp.run_replaces_or_clears (F : Factories) (u : SetPixelOp) (s : RankState)
    (fo : ManagedObject) (hfb : s.objAt (u.fbHandle.lookup s) = some fo)
    (hpo : u.poHandle.lookup s ≠ nullptr) (hprev : fo.pixelOp ≤ s.heap.length) :
    (∀ inst, F.createInstance (u.poHandle.lookup s) (u.fbHandle.lookup s) fo.pixelOp = some inst →
      ∃ s1, SetPixelOp.run F u s = .ok s1
        ∧ s1.pixelOpOf (u.fbHandle.lookup s) = s.heap.length + 1
        ∧ s1.objAt (s.heap.length + 1) = some { inst with refCount := inst.refCount + 1 }
        ∧ s1.trace = s.trace
            ++ [Event.createInstance (u.poHandle.lookup s) (u.fbHandle.lookup s) fo.pixelOp])
    ∧ (F.createInstance (u.poHandle.lookup s) (u.fbHandle.lookup s) fo.pixelOp = none →
      ∃ s1, SetPixelOp.run F u s = .ok s1
        ∧ s1.pixelOpOf (u.fbHandle.lookup s) = nullptr
        ∧ s1.trace = s.trace
            ++ [Event.createInstance (u.poHandle.lookup s) (u.fbHandle.lookup s) fo.pixelOp,
                Event.postErrorMsg]) := by
  generalize hfbp : u.fbHandle.lookup s = fb at hfb
  generalize hpop : u.poHandle.lookup s = po at hpo
  have hfb0 : fb ≠ 0 := RankState.objAt_ne_null hfb
  have hfbne : fb ≠ s.heap.length + 1 :=
    ne_succ_of_pred_lt fb s.heap.length (RankState.objAt_lt hfb)
  have hprevne : s.heap.length + 1 ≠ fo.pixelOp := succ_ne_of_le fo.pixelOp s.heap.length hprev
  have hprevOf : s.pixelOpOf fb = fo.pixelOp := by simp [RankState.pixelOpOf, hfb]
  constructor
  · intro inst hinst
    let s0 : RankState := s.log (.createInstance po fb fo.pixelOp)
    let sB : RankState := (s0.alloc inst).2.refInc (s.heap.length + 1)
    let sC : RankState := if fo.pixelOp ≠ nullptr then sB.refDec fo.pixelOp else sB
    have hrun : SetPixelOp.run F u s = .ok (sC.modifyObj fb
        (fun o => { o with pixelOp := s.heap.length + 1 })) := by
      have hne : s.heap.length + 1 ≠ 0 := by omega
      simp only [SetPixelOp.run, hfbp, hpop, hfb0, hpo, hprevOf, hinst, if_false]
      simp [RankState.alloc, RankState.log, hne, sC, sB, s0]
    have hB_new : sB.objAt (s.heap.length + 1)
        = some { inst with refCount := inst.refCount + 1 } :=
      RankState.objAt_modifyObj_same _ (RankState.objAt_alloc_new s0 inst)
    have hB_fb : (sB.objAt fb).isSome = true := by
      have h1 : (s0.alloc inst).2.objAt fb = some fo := RankState.objAt_alloc_old inst hfb
      simp only [sB, RankState.refInc, RankState.isSome_objAt_modifyObj, h1, Option.isSome_some]
    have hC_new : sC.objAt (s.heap.length + 1)
        = some { inst with refCount := inst.refCount + 1 } := by
      show (if fo.pixelOp ≠ nullptr then sB.refDec fo.pixelOp else sB).objAt _ = _
      rw [RankState.objAt_refDec_if sB fo.pixelOp _ hprevne, hB_new]
    have hC_fb : (sC.objAt fb).isSome = true := by
      show ((if fo.pixelOp ≠ nullptr then sB.refDec fo.pixelOp else sB).objAt fb).isSome = true
      rw [RankState.isSome_objAt_refDec_if, hB_fb]
    have hC_tr : sC.trace = s.trace ++ [Event.createInstance po fb fo.pixelOp] := by
      show (if fo.pixelOp ≠ nullptr then sB.refDec fo.pixelOp else sB).trace = _
      rw [RankState.trace_refDec_if]
      show ((s0.alloc inst).2.modifyObj _ _).trace = _
      rw [RankState.trace_modifyObj]
      rfl
    refine ⟨_, hrun, RankState.pixelOpOf_modifyObj_set _ hC_fb, ?_, ?_⟩
    · rw [RankState.objAt_modifyObj_ne _ (Ne.symm hfbne), hC_new]
    · rw [RankState.trace_modifyObj, hC_tr]
  · intro hnone
    let s0 : RankState := s.log (.createInstance po fb fo.pixelOp)
    let sC : RankState := if fo.pixelOp ≠ nullptr then s0.refDec fo.pixelOp else s0
    have hrun : SetPixelOp.run F u s = .ok ((sC.modifyObj fb
        (fun o => { o with pixelOp := nullptr })).log .postErrorMsg) := by
      simp only [SetPixelOp.run, hfbp, hpop, hfb0, hpo, hprevOf, hnone, if_false]
      simp [sC, s0]
    have hC_fb : (sC.objAt fb).isSome = true := by
      have h0 : s0.objAt fb = some fo := hfb
      show ((if fo.pixelOp ≠ nullptr then s0.refDec fo.pixelOp else s0).objAt fb).isSome = true
      rw [RankState.isSome_objAt_refDec_if, h0]
      rfl
    have hC_tr : sC.trace = s.trace ++ [Event.createInstance po fb fo.pixelOp] := by
      show (if fo.pixelOp ≠ nullptr then s0.refDec fo.pixelOp else s0).trace = _
      rw [RankState.trace_refDec_if]
      rfl
    refine ⟨_, hrun, ?_, ?_⟩
    · show (sC.modifyObj fb (fun o => { o with pixelOp := nullptr })).pixelOpOf fb = nullptr
      exact RankState.pixelOpOf_modifyObj_set _ hC_fb
    · show (sC.modifyObj fb (fun o => { o with pixelOp := nullptr })).trace
        ++ [Event.postErrorMsg] = _
      rw [RankState.trace_modifyObj, hC_tr]
      simp

/-- Witness for C14 as amended: the pixel-op bound to handle 24 creates an
instance, which becomes the pixel-op of the framebuffer bound to handle 21. -/
theorem SetPixelOp.run_replaces_or_clears_witness :
    ∃ s1, SetPixelOp.run exampleFactories { fbHandle := { i64 := 21 }, poHandle := { i64 := 24 } }
        examplePixelOpState = .ok s1
      ∧ s1.pixelOpOf 1 = 5
      ∧ s1.objAt 5 = some { kind := .pixelOp, refCount := 2 }
      ∧ s1.trace = [Event.createInstance 4 1 3] :=
  (SetPixelOp.run_replaces_or_clears exampleFactories
    { fbHandle := { i64 := 21 }, poHandle := { i64 := 24 } } examplePixelOpState
    { kind := .frameBuffer, pixelOp := 3 } (by decide) (by decide) (by decide)).1
    { kind := .pixelOp } (by decide)

/-! ### Renderer -/

theorem Renderer.commit_params (E : RendererEnv) (r : Renderer) :
    (Renderer.commit E r).params = r.params := rfl

/-- C15: after Renderer.commit the samples per pixel (member and shared
structure) equal max(1, p) when pixelSamples is set to the int p and 1 when it
is unset, so they are at least 1; the maximum depth equals max(0, d) when
maxPathLength is set to the int d and 20 when it is unset, so it is at least
0. -/
theorem Renderer.commit_clamps (E : RendererEnv) (r : Renderer) :
    (∀ p, r.params.lookup "pixelSamples" = some (.int p) →
      (Renderer.commit E r).spp = max 1 p ∧ (Renderer.commit E r).sh.spp = max 1 p)
    ∧ (r.params.lookup "pixelSamples" = none →
      (Renderer.commit E r).spp = 1 ∧ (Renderer.commit E r).sh.spp = 1)
    ∧ 1 ≤ (Renderer.commit E r).spp ∧ 1 ≤ (Renderer.commit E r).sh.spp
    ∧ (∀ d, r.params.lookup "maxPathLength" = some (.int d) →
      (Renderer.commit E r).sh.maxDepth = max 0 d)
    ∧ (r.params.lookup "maxPathLength" = none → (Renderer.commit E r).sh.maxDepth = 20)
    ∧ 0 ≤ (Renderer.commit E r).sh.maxDepth := by
  have hspp : (Renderer.commit E r).spp = max 1 (getParamInt r.params "pixelSamples" 1) := rfl
  have hshspp : (Renderer.commit E r).sh.spp = max 1 (getParamInt r.params "pixelSamples" 1) :=
    rfl
  have hdepth : (Renderer.commit E r).sh.maxDepth
      = max 0 (getParamInt r.params "maxPathLength" 20) := rfl
  refine ⟨?_, ?_, ?_, ?_, ?_, ?_, ?_⟩
  · intro p hp
    simp [hspp, hshspp, getParamInt, hp]
  · intro hp
    simp [hspp, hshspp, getParamInt, hp]
  · rw [hspp]; exact le_max_left _ _
  · rw [hshspp]; exact le_max_left _ _
  · intro d hd
    simp [hdepth, getParamInt, hd]
  · intro hd
    simp [hdepth, getParamInt, hd]
  · rw [hdepth]; exact le_max_left _ _

/-- Witness for C15: pixelSamples = -3 gives 1 sample per pixel. -/
theorem Renderer.commit_clamps_witness :
    (Renderer.commit exampleRendererEnv { params := [("pixelSamples", .int (-3))] }).spp = 1
    ∧ (Renderer.commit exampleRendererEnv { params := [("pixelSamples", .int (-3))] }).sh.spp
      = 1 := by
  have h := (Renderer.commit_clamps exampleRendererEnv
    { params := [("pixelSamples", .int (-3))] }).1 (-3) (by decide)
  simpa using h

/-- C16 counterexample: committing a renderer without any parameter leaves a
background colour whose alpha is 0, not 1. -/
theorem Renderer.commit_default_background_alpha :
    (Renderer.commit exampleRendererEnv { params := [] }).bgColor
      = { x := 0, y := 0, z := 0, w := 0 }
    ∧ (Renderer.commit exampleRendererEnv { params := [] }).bgColor.w ≠ 1 := by
  decide

/-- C16 as amended: after Renderer.commit with backgroundColor unset the
background colour has red, green, blue and alpha all 0; set as a float f it is
(f, f, f, 0), set as a vec3 c it is (c.x, c.y, c.z, 0), and set as a vec4 q it
is q itself. -/
theorem Renderer.commit_background (E : RendererEnv) (r : Renderer) :
    (r.params.lookup "backgroundColor" = none →
      (Renderer.commit E r).bgColor = { x := 0, y := 0, z := 0, w := 0 })
    ∧ (∀ f, r.params.lookup "backgroundColor" = some (.float f) →
      (Renderer.commit E r).bgColor = { x := f, y := f, z := f, w := 0 })
    ∧ (∀ c : vec3f, r.params.lookup "backgroundColor" = some (.vec3f c) →
      (Renderer.commit E r).bgColor = { x := c.x, y := c.y, z := c.z, w := 0 })
    ∧ (∀ q : vec4f, r.params.lookup "backgroundColor" = some (.vec4f q) →
      (Renderer.commit E r).bgColor = q)
    ∧ (Renderer.commit E r).sh.bgColor = (Renderer.commit E r).bgColor := by
  have hbg : (Renderer.commit E r).bgColor
      = getParamVec4f r.params "backgroundColor"
          { x := (getParamVec3f r.params "backgroundColor"
                    { x := getParamFloat r.params "backgroundColor" 0,
                      y := getParamFloat r.params "backgroundColor" 0,
                      z := getParamFloat r.params "backgroundColor" 0 }).x,
            y := (getParamVec3f r.params "backgroundColor"
                    { x := getParamFloat r.params "backgroundColor" 0,
                      y := getParamFloat r.params "backgroundColor" 0,
                      z := getParamFloat r.params "backgroundColor" 0 }).y,
            z := (getParamVec3f r.params "backgroundColor"
                    { x := getParamFloat r.params "backgroundColor" 0,
                      y := getParamFloat r.params "backgroundColor" 0,
                      z := getParamFloat r.params "backgroundColor" 0 }).z,
            w := 0 } := rfl
  refine ⟨?_, ?_, ?_, ?_, rfl⟩
  · intro h
    simp [hbg, getParamVec4f, getParamVec3f, getParamFloat, h]
  · intro f h
    simp [hbg, getParamVec4f, getParamVec3f, getParamFloat, h]
  · intro c h
    simp [hbg, getParamVec4f, getParamVec3f, getParamFloat, h]
  · intro q h
    simp [hbg, getParamVec4f, getParamVec3f, getParamFloat, h]

/-- Witness for C16 as amended: a background colour given as the float 1/2. -/
theorem Renderer.commit_background_witness :
    (Renderer.commit exampleRendererEnv { params := [("backgroundColor", .float (1 / 2))] }).bgColor
      = { x := 1 / 2, y := 1 / 2, z := 1 / 2, w := 0 } :=
  (Renderer.commit_background exampleRendererEnv
    { params := [("backgroundColor", .float (1 / 2))] }).2.1 (1 / 2) rfl

theorem setRendererParam_of_lookup (ps : List (String × RendererParam)) (name : String)
    (v : RendererParam) (h : ps.lookup name = some v) : setRendererParam ps name v = ps := by
  induction ps with
  | nil => simp [List.lookup] at h
  | cons e rest ih =>
    obtain ⟨n, w⟩ := e
    unfold setRendererParam
    by_cases hn : (name == n) = true
    · simp only [List.lookup, hn] at h
      simp only [hn, if_true]
      cases h
      rfl
    · have hn' : (name == n) = false := by simpa using hn
      simp only [List.lookup, hn'] at h
      simp only [hn', Bool.false_eq_true, if_false, ih h]

theorem lookup_setRendererParam (ps : List (String × RendererParam)) (name : String)
    (v : RendererParam) : (setRendererParam ps name v).lookup name = some v := by
  induction ps with
  | nil => simp [setRendererParam, List.lookup]
  | cons e rest ih =>
    obtain ⟨n, w⟩ := e
    unfold setRendererParam
    by_cases hn : (name == n) = true
    · simp [hn, List.lookup]
    · have hn' : (name == n) = false := by simpa using hn
      simp only [hn', Bool.false_eq_true, if_false, List.lookup]
      exact ih

/-- C17: Renderer.commit is idempotent: committing twice in a row leaves the
renderer, with every member and shared-structure field that commit derives,
exactly as committing once; setting a parameter to the value it already has
leaves the parameter bag, and so the result of commit, unchanged; and
repeating a SetParam with the same value changes nothing either. -/
theorem Renderer.commit_idempotent (E : RendererEnv) (r : Renderer) :
    Renderer.commit E (Renderer.commit E r) = Renderer.commit E r
    ∧ (∀ name v, r.params.lookup name = some v →
        Renderer.commit E (r.setParam name v) = Renderer.commit E r)
    ∧ (∀ name v, Renderer.commit E ((r.setParam name v).setParam name v)
        = Renderer.commit E (r.setParam name v)) := by
  refine ⟨?_, ?_, ?_⟩
  · simp only [Renderer.commit, Renderer.setupPixelFilter]
    by_cases hm : getParamDataT r.params "material" = nullptr
    · simp [hm, Bool.or_assoc]
    · simp [hm, Bool.or_assoc]
  · intro name v h
    have : r.setParam name v = r := by
      simp only [Renderer.setParam, setRendererParam_of_lookup _ _ _ h]
    rw [this]
  · intro name v
    have : (r.setParam name v).setParam name v = r.setParam name v := by
      simp only [Renderer.setParam,
        setRendererParam_of_lookup _ _ _ (lookup_setRendererParam r.params name v)]
    rw [this]

/-- Witness for C17: pixelSamples is already 4 and is set to 4 again. -/
theorem Renderer.commit_idempotent_witness :
    Renderer.commit exampleRendererEnv
        (Renderer.setParam { params := [("pixelSamples", .int 4)] } "pixelSamples" (.int 4))
      = Renderer.commit exampleRendererEnv { params := [("pixelSamples", .int 4)] } :=
  (Renderer.commit_idempotent exampleRendererEnv { params := [("pixelSamples", .int 4)] }).2.1
    "pixelSamples" (.int 4) rfl

/-! ### Group -/

/-- C18 counterexample: on communicator 1 (local rank 2 of 4, remote size 3)
makeIntracomm leaves the group not containing the local rank, with rank
MPI_ROOT and the remote size, and makeIntercomm marks it as a member with the
local rank and size: the opposite of what the two names are claimed to do. -/
theorem Group.makeIntracomm_is_not_member :
    (Group.makeIntracomm exampleMPI exampleGroup).containsMe = false
    ∧ (Group.makeIntracomm exampleMPI exampleGroup).rank = exampleMPI.MPI_ROOT
    ∧ (Group.makeIntracomm exampleMPI exampleGroup).size = 3
    ∧ (Group.makeIntracomm exampleMPI exampleGroup).rank ≠ exampleMPI.Comm_rank 1
    ∧ (Group.makeIntercomm exampleMPI exampleGroup).containsMe = true
    ∧ (Group.makeIntercomm exampleMPI exampleGroup).rank = 2
    ∧ (Group.makeIntercomm exampleMPI exampleGroup).size = 4 := by
  decide

/-- C18 as amended: makeIntercomm marks the local rank as a member and sets
rank and size to the local rank and size of the communicator; makeIntracomm
marks the local rank as not a member, sets rank to MPI_ROOT and size to the
remote group's size; neither changes the communicator; a default-constructed
Group is not a member, has rank -1 and size -1 and the null communicator. -/
theorem Group.make_modes (M : MPI) (g : Group) :
    ((Group.makeIntercomm M g).containsMe = true
      ∧ (Group.makeIntercomm M g).rank = M.Comm_rank g.comm
      ∧ (Group.makeIntercomm M g).size = M.Comm_size g.comm
      ∧ (Group.makeIntercomm M g).comm = g.comm)
    ∧ ((Group.makeIntracomm M g).containsMe = false
      ∧ (Group.makeIntracomm M g).rank = M.MPI_ROOT
      ∧ (Group.makeIntracomm M g).size = M.Comm_remote_size g.comm
      ∧ (Group.makeIntracomm M g).comm = g.comm)
    ∧ ((Group.new M).containsMe = false ∧ (Group.new M).rank = -1 ∧ (Group.new M).size = -1
      ∧ (Group.new M).comm = M.MPI_COMM_NULL) :=
  ⟨⟨rfl, rfl, rfl, rfl⟩, ⟨rfl, rfl, rfl, rfl⟩, ⟨rfl, rfl, rfl, rfl⟩⟩

/-! ### Floating-point rounding -/

theorem roundHalfEven_intCast (k : Int) : roundHalfEven (k : Rat) = k := by
  simp [roundHalfEven]

theorem floor_le_roundHalfEven (m : Rat) : ⌊m⌋ ≤ roundHalfEven m := by
  unfold roundHalfEven
  split_ifs <;> omega

theorem roundHalfEven_le_floor_succ (m : Rat) : roundHalfEven m ≤ ⌊m⌋ + 1 := by
  unfold roundHalfEven
  split_ifs <;> omega

theorem roundHalfEven_mono {m1 m2 : Rat} (h : m1 ≤ m2) :
    roundHalfEven m1 ≤ roundHalfEven m2 := by
  have hf : ⌊m1⌋ ≤ ⌊m2⌋ := Int.floor_mono h
  rcases lt_or_eq_of_le hf with hlt | heq
  · calc roundHalfEven m1 ≤ ⌊m1⌋ + 1 := roundHalfEven_le_floor_succ m1
      _ ≤ ⌊m2⌋ := hlt
      _ ≤ roundHalfEven m2 := floor_le_roundHalfEven m2
  · unfold roundHalfEven
    rw [heq]
    have h1 : m1 - (⌊m2⌋ : Rat) ≤ m2 - (⌊m2⌋ : Rat) := by linarith
    split_ifs <;> first | omega | (exfalso; linarith)

theorem le_roundHalfEven {k : Int} {m : Rat} (h : (k : Rat) ≤ m) : k ≤ roundHalfEven m := by
  have := roundHalfEven_mono h
  rwa [roundHalfEven_intCast] at this

theorem roundHalfEven_le {k : Int} {m : Rat} (h : m ≤ (k : Rat)) : roundHalfEven m ≤ k := by
  have := roundHalfEven_mono h
  rwa [roundHalfEven_intCast] at this

theorem two_zpow_split (a : Int) (k : Nat) :
    (2 : Rat) ^ (a + (k : Int)) = (((2 : Int) ^ k : Int) : Rat) * 2 ^ a := by
  rw [zpow_add₀ (by norm_num : (2 : Rat) ≠ 0), zpow_natCast]
  push_cast
  ring

theorem roundMagnitude_nonneg (t : Nat) (emin : Int) (q : Rat) (hq : 0 < q) :
    0 ≤ roundMagnitude t emin q := by
  unfold roundMagnitude
  have hu : (0 : Rat) < 2 ^ (max (Int.log 2 q) emin - (t : Int)) := zpow_pos (by norm_num) _
  have h0 : ((0 : Int) : Rat) ≤ q / 2 ^ (max (Int.log 2 q) emin - (t : Int)) := by
    rw [Int.cast_zero]
    exact le_of_lt (div_pos hq hu)
  have := le_roundHalfEven h0
  exact mul_nonneg (by exact_mod_cast this) (le_of_lt hu)

theorem roundMagnitude_le (t : Nat) (emin : Int) (q : Rat) :
    roundMagnitude t emin q ≤ 2 ^ (max (Int.log 2 q) emin + 1) := by
  unfold roundMagnitude
  generalize hE : max (Int.log 2 q) emin = E
  have hu : (0 : Rat) < 2 ^ (E - (t : Int)) := zpow_pos (by norm_num) _
  have hlt : q < 2 ^ (Int.log 2 q + 1) := Int.lt_zpow_succ_log_self (by norm_num) q
  have hle : (2 : Rat) ^ (Int.log 2 q + 1) ≤ 2 ^ (E + 1) :=
    zpow_le_zpow_right₀ (by norm_num)
      (by rw [← hE]; have := le_max_left (Int.log 2 q) emin; omega)
  have hsplit : (2 : Rat) ^ (E + 1)
      = (((2 : Int) ^ (t + 1) : Int) : Rat) * 2 ^ (E - (t : Int)) := by
    rw [← two_zpow_split]
    congr 1
    push_cast
    ring
  have hm : q / 2 ^ (E - (t : Int)) ≤ (((2 : Int) ^ (t + 1) : Int) : Rat) := by
    rw [div_le_iff₀ hu, ← hsplit]
    exact le_of_lt (lt_of_lt_of_le hlt hle)
  have := roundHalfEven_le hm
  rw [hsplit]
  exact mul_le_mul_of_nonneg_right (by exact_mod_cast this) (le_of_lt hu)

theorem le_roundMagnitude (t : Nat) (emin : Int) (q : Rat) (hq : 0 < q)
    (he : emin ≤ Int.log 2 q) : 2 ^ Int.log 2 q ≤ roundMagnitude t emin q := by
  unfold roundMagnitude
  rw [max_eq_left he]
  have hge : (2 : Rat) ^ Int.log 2 q ≤ q := Int.zpow_log_le_self (by norm_num) hq
  generalize Int.log 2 q = E at *
  have hu : (0 : Rat) < 2 ^ (E - (t : Int)) := zpow_pos (by norm_num) _
  have hsplit : (2 : Rat) ^ E = (((2 : Int) ^ t : Int) : Rat) * 2 ^ (E - (t : Int)) := by
    rw [← two_zpow_split]
    congr 1
    ring
  have hm : (((2 : Int) ^ t : Int) : Rat) ≤ q / 2 ^ (E - (t : Int)) := by
    rw [le_div_iff₀ hu, ← hsplit]
    exact hge
  have := le_roundHalfEven hm
  rw [hsplit]
  exact mul_le_mul_of_nonneg_right (by exact_mod_cast this) (le_of_lt hu)

theorem roundMagnitude_mono (t : Nat) (emin : Int) {q1 q2 : Rat} (h1 : 0 < q1)
    (h : q1 ≤ q2) : roundMagnitude t emin q1 ≤ roundMagnitude t emin q2 := by
  have h2 : 0 < q2 := lt_of_lt_of_le h1 h
  have hlog : Int.log 2 q1 ≤ Int.log 2 q2 := Int.log_mono_right h1 h
  have hE : max (Int.log 2 q1) emin ≤ max (Int.log 2 q2) emin := max_le_max hlog (le_refl _)
  rcases lt_or_eq_of_le hE with hlt | heq
  · have he2 : emin ≤ Int.log 2 q2 := by
      by_contra hc
      rw [max_eq_right (le_of_lt (lt_of_not_le hc))] at hlt
      have := le_max_right (Int.log 2 q1) emin
      omega
    calc roundMagnitude t emin q1 ≤ 2 ^ (max (Int.log 2 q1) emin + 1) :=
          roundMagnitude_le t emin q1
      _ ≤ 2 ^ Int.log 2 q2 :=
          zpow_le_zpow_right₀ (by norm_num) (by rw [max_eq_left he2] at hlt; omega)
      _ ≤ roundMagnitude t emin q2 := le_roundMagnitude t emin q2 h2 he2
  · unfold roundMagnitude
    rw [heq]
    have hu : (0 : Rat) < 2 ^ (max (Int.log 2 q2) emin - (t : Int)) := zpow_pos (by norm_num) _
    have hm : q1 / 2 ^ (max (Int.log 2 q2) emin - (t : Int))
        ≤ q2 / 2 ^ (max (Int.log 2 q2) emin - (t : Int)) :=
      div_le_div_of_nonneg_right h (le_of_lt hu)
    have := roundHalfEven_mono hm
    exact mul_le_mul_of_nonneg_right (by exact_mod_cast this) (le_of_lt hu)

theorem roundNearestEven_mono (t : Nat) (emin : Int) : Monotone (roundNearestEven t emin) := by
  intro q1 q2 h
  unfold roundNearestEven
  rcases lt_trichotomy q1 0 with h1 | h1 | h1
  · have hn1 : 0 < -q1 := by linarith
    rw [if_neg (ne_of_lt h1), if_neg (not_lt.mpr (le_of_lt h1))]
    rcases lt_trichotomy q2 0 with h2 | h2 | h2
    · have hn2 : 0 < -q2 := by linarith
      rw [if_neg (ne_of_lt h2), if_neg (not_lt.mpr (le_of_lt h2))]
      have := roundMagnitude_mono t emin hn2 (by linarith : -q2 ≤ -q1)
      linarith
    · rw [if_pos h2]
      have := roundMagnitude_nonneg t emin (-q1) hn1
      linarith
    · rw [if_neg (ne_of_gt h2), if_pos h2]
      have := roundMagnitude_nonneg t emin (-q1) hn1
      have := roundMagnitude_nonneg t emin q2 h2
      linarith
  · rw [if_pos h1]
    rcases lt_or_eq_of_le (h1 ▸ h : 0 ≤ q2) with h2 | h2
    · rw [if_neg (ne_of_gt h2), if_pos h2]
      exact roundMagnitude_nonneg t emin q2 h2
    · rw [if_pos h2.symm]
  · have h2 : 0 < q2 := lt_of_lt_of_le h1 h
    rw [if_neg (ne_of_gt h1), if_pos h1, if_neg (ne_of_gt h2), if_pos h2]
    exact roundMagnitude_mono t emin h1 h

theorem roundNearestEven_zero (t : Nat) (emin : Int) : roundNearestEven t emin 0 = 0 := by
  simp [roundNearestEven]

/-- A positive value with at most `t + 1` significant bits at a normal
exponent `e` is a number of the format: rounding leaves it unchanged. -/
theorem roundNearestEven_of_representable (t : Nat) (emin : Int) (q : Rat) (e k : Int)
    (hlo : (2 : Rat) ^ e ≤ q) (hhi : q < 2 ^ (e + 1)) (he : emin ≤ e)
    (hk : q = (k : Rat) * 2 ^ (e - (t : Int))) : roundNearestEven t emin q = q := by
  have hq : 0 < q := lt_of_lt_of_le (zpow_pos (by norm_num) _) hlo
  have hlog : Int.log 2 q = e := by
    have a := (Int.zpow_le_iff_le_log (b := 2) (by norm_num) hq).mp hlo
    have b := (Int.lt_zpow_iff_log_lt (b := 2) (by norm_num) hq).mp hhi
    omega
  unfold roundNearestEven roundMagnitude
  rw [if_neg (ne_of_gt hq), if_pos hq, hlog, max_eq_left he]
  have hu : (2 : Rat) ^ (e - (t : Int)) ≠ 0 := ne_of_gt (zpow_pos (by norm_num) _)
  have : q / 2 ^ (e - (t : Int)) = (k : Rat) := by
    rw [hk, mul_div_assoc, div_self hu, mul_one]
  rw [this, roundHalfEven_intCast, ← hk]

theorem roundNearestEven_one (t : Nat) (emin : Int) (he : emin ≤ 0) :
    roundNearestEven t emin 1 = 1 := by
  apply roundNearestEven_of_representable t emin 1 0 ((2 : Int) ^ t) (by norm_num)
    (by norm_num) he
  rw [zero_sub, zpow_neg, zpow_natCast]
  push_cast
  rw [mul_inv_cancel₀ (by positivity)]

theorem ieee754_lawful : ieee754.Lawful := by
  refine ⟨roundNearestEven_mono 23 (-126), roundNearestEven_zero 23 (-126),
    roundNearestEven_one 23 (-126) (by norm_num), roundNearestEven_mono 52 (-1022),
    roundNearestEven_zero 52 (-1022), roundNearestEven_one 52 (-1022) (by norm_num), ?_⟩
  intro p
  have h0 : (0 : Rat) ≤ roundNearestEven 52 (-1022) (1 / 1000000000000) := by
    have := roundNearestEven_mono 52 (-1022)
      (by norm_num : (0 : Rat) ≤ 1 / 1000000000000)
    rwa [roundNearestEven_zero] at this
  simp only [ieee754, sub_self, roundNearestEven_zero, abs_zero, h0, decide_True, Bool.and_self]

theorem FloatEnv.Lawful.toFloat_nonneg {F : FloatEnv} (hF : F.Lawful) {q : Rat} (h : 0 ≤ q) :
    0 ≤ F.toFloat q := by
  have := hF.1 h
  rwa [hF.2.1] at this

theorem FloatEnv.Lawful.toFloat_le_one {F : FloatEnv} (hF : F.Lawful) {q : Rat} (h : q ≤ 1) :
    F.toFloat q ≤ 1 := by
  have := hF.1 h
  rwa [hF.2.2.1] at this

theorem FloatEnv.Lawful.one_le_toFloat {F : FloatEnv} (hF : F.Lawful) {q : Rat} (h : 1 ≤ q) :
    1 ≤ F.toFloat q := by
  have := hF.1 h
  rwa [hF.2.2.1] at this

theorem FloatEnv.Lawful.toDouble_nonneg {F : FloatEnv} (hF : F.Lawful) {q : Rat}
    (h : 0 ≤ q) : 0 ≤ F.toDouble q := by
  have := hF.2.2.2.1 h
  rwa [hF.2.2.2.2.1] at this

theorem FloatEnv.Lawful.toDouble_le_one {F : FloatEnv} (hF : F.Lawful) {q : Rat}
    (h : q ≤ 1) : F.toDouble q ≤ 1 := by
  have := hF.2.2.2.1 h
  rwa [hF.2.2.2.2.2.1] at this

/-! ### TransferFunctionPiecewiseLinearWidget: interpolation -/

namespace TransferFunctionPiecewiseLinearWidget

theorem lerp_at_right (a b : QPointF) (h : a.x < b.x) : lerp a b b.x = b.y := by
  have h2 : b.x - a.x ≠ 0 := by linarith
  unfold lerp
  rw [div_self h2]
  ring

end TransferFunctionPiecewiseLinearWidget

namespace TransferFunctionPiecewiseLinearWidget

end TransferFunctionPiecewiseLinearWidget

/-! ### TransferFunctionPiecewiseLinearWidget: mouse events -/

theorem notAfter_iff (a b : QPointF) : notAfter a b ↔ a.x ≤ b.x := by
  simp [notAfter, comparePointsByX]

theorem stable_sort_sorted (l : List QPointF) :
    (stable_sort l).Sorted (fun u v => u.x ≤ v.x) :=
  (List.sorted_insertionSort notAfter l).imp (fun {a b} h => (notAfter_iff a b).mp h)

theorem mem_stable_sort (l : List QPointF) (p : QPointF) : p ∈ stable_sort l ↔ p ∈ l :=
  (List.perm_insertionSort notAfter l).mem_iff

namespace TransferFunctionPiecewiseLinearWidget

theorem goodPoints_of_sorted (l : List QPointF) (hs : l.Sorted (fun u v => u.x ≤ v.x))
    (hr : ∀ p ∈ l, 0 ≤ p.x ∧ p.x ≤ 1 ∧ 0 ≤ p.y ∧ p.y ≤ 1)
    (h0 : ∃ p ∈ l, p.x = 0) (h1 : ∃ p ∈ l, p.x = 1) : GoodPoints l := by
  obtain ⟨p0, hp0, hx0⟩ := h0
  obtain ⟨p1, hp1, hx1⟩ := h1
  obtain ⟨j, hj, hjp⟩ := List.mem_iff_getElem.mp hp0
  obtain ⟨k, hk, hkp⟩ := List.mem_iff_getElem.mp hp1
  have hpw := List.pairwise_iff_getElem.mp hs
  have hjk : j ≠ k := by
    intro h
    subst h
    rw [hjp] at hkp
    rw [hkp, hx1] at hx0
    exact absurd hx0 (by norm_num)
  have hlen : 2 ≤ l.length := by omega
  refine ⟨hlen, hs, ?_, ?_, hr⟩
  · rw [List.head?_eq_getElem?, List.getElem?_eq_getElem (by omega : 0 < l.length)]
    simp only [Option.map_some']
    congr 1
    have hlo := (hr l[0] (List.getElem_mem _)).1
    by_cases hj0 : j = 0
    · subst hj0
      rw [hjp]
      exact hx0
    · have := hpw 0 j (by omega) hj (by omega)
      rw [hjp, hx0] at this
      exact le_antisymm this hlo
  · rw [List.getLast?_eq_getElem?, List.getElem?_eq_getElem (by omega : l.length - 1 < l.length)]
    simp only [Option.map_some']
    congr 1
    have hhi := (hr l[l.length - 1] (List.getElem_mem _)).2.1
    by_cases hk0 : k = l.length - 1
    · subst hk0
      rw [hkp]
      exact hx1
    · have := hpw k (l.length - 1) hk (by omega) (by omega)
      rw [hkp, hx1] at this
      exact le_antisymm hhi this

theorem GoodPoints.first (l : List QPointF) (h : GoodPoints l) :
    ∃ p, l[0]? = some p ∧ p.x = 0 := by
  obtain ⟨_, _, h0, _, _⟩ := h
  rw [List.head?_eq_getElem?] at h0
  simpa using h0

theorem GoodPoints.last (l : List QPointF) (h : GoodPoints l) :
    ∃ p, l[l.length - 1]? = some p ∧ p.x = 1 := by
  obtain ⟨_, _, _, h1, _⟩ := h
  rw [List.getLast?_eq_getElem?] at h1
  simpa using h1

theorem sorted_set (l : List QPointF) (i : Nat) (q : QPointF)
    (hs : l.Sorted (fun u v => u.x ≤ v.x))
    (hlo : ∀ (j : Nat) (hj : j < l.length), j < i → l[j].x ≤ q.x)
    (hhi : ∀ (k : Nat) (hk : k < l.length), i < k → q.x ≤ l[k].x) :
    (l.set i q).Sorted (fun u v => u.x ≤ v.x) := by
  have hpw := List.pairwise_iff_getElem.mp hs
  apply List.pairwise_iff_getElem.mpr
  intro j k hj hk hjk
  rw [List.length_set] at hj hk
  rw [List.getElem_set, List.getElem_set]
  by_cases hij : i = j
  · subst hij
    rw [if_pos rfl, if_neg (by omega)]
    exact hhi k hk hjk
  · by_cases hik : i = k
    · subst hik
      rw [if_neg hij, if_pos rfl]
      exact hlo j hj hjk
    · rw [if_neg hij, if_neg hik]
      exact hpw j k hj hk hjk

theorem getSelectedPointIndex_range (F : FloatEnv) (W : TransferFunctionPiecewiseLinearWidget)
    (p : QPointF) :
    W.getSelectedPointIndex F p = -1
      ∨ ∃ i : Nat, i < W.points_.length ∧ W.getSelectedPointIndex F p = (i : Int) := by
  unfold getSelectedPointIndex
  split
  · rename_i i h
    obtain ⟨hi, _⟩ := List.findIdx?_eq_some_iff_getElem.mp h
    exact Or.inr ⟨i, hi, rfl⟩
  · exact Or.inl rfl

theorem widgetPointToPoint_range (F : FloatEnv) (hF : F.Lawful)
    (W : TransferFunctionPiecewiseLinearWidget) (p : QPointF)
    (hw : 0 < W.width) (hh : 0 < W.height) (hp : W.inside p) :
    0 ≤ (W.widgetPointToPoint F p).x ∧ (W.widgetPointToPoint F p).x ≤ 1
      ∧ 0 ≤ (W.widgetPointToPoint F p).y ∧ (W.widgetPointToPoint F p).y ≤ 1 := by
  obtain ⟨hx0, hx1, hy0, hy1⟩ := hp
  have hw1 : (1 : Rat) ≤ (W.width : Rat) := by exact_mod_cast (by omega : 1 ≤ W.width)
  have hh1 : (1 : Rat) ≤ (W.height : Rat) := by exact_mod_cast (by omega : 1 ≤ W.height)
  have fw : 0 < F.toFloat (W.width : Rat) := lt_of_lt_of_le one_pos (hF.one_le_toFloat hw1)
  have fh : 0 < F.toFloat (W.height : Rat) := lt_of_lt_of_le one_pos (hF.one_le_toFloat hh1)
  have a1 : 0 ≤ F.toFloat p.x / F.toFloat (W.width : Rat) :=
    div_nonneg (hF.toFloat_nonneg hx0) (le_of_lt fw)
  have a2 : F.toFloat p.x / F.toFloat (W.width : Rat) ≤ 1 := (div_le_one fw).mpr (hF.1 hx1)
  have a3 : 0 ≤ F.toFloat p.y / F.toFloat (W.height : Rat) :=
    div_nonneg (hF.toFloat_nonneg hy0) (le_of_lt fh)
  have a4 : F.toFloat p.y / F.toFloat (W.height : Rat) ≤ 1 := (div_le_one fh).mpr (hF.1 hy1)
  have b3 := hF.toFloat_nonneg a3
  have b4 := hF.toFloat_le_one a4
  refine ⟨hF.toFloat_nonneg a1, hF.toFloat_le_one a2, ?_, ?_⟩
  · exact hF.toDouble_nonneg (by linarith)
  · exact hF.toDouble_le_one (by linarith)

theorem findIdx?_pointEq (F : FloatEnv) (hF : F.Lawful) (l : List QPointF) (q : QPointF)
    (hq : q ∈ l) : ∃ i, l.findIdx? (fun p => F.pointEq p q) = some i ∧ i < l.length := by
  cases h : l.findIdx? (fun p => F.pointEq p q) with
  | none =>
    rw [List.findIdx?_eq_none_iff] at h
    have := h q hq
    rw [hF.2.2.2.2.2.2 q] at this
    exact absurd this (by simp)
  | some i =>
    obtain ⟨hi, _⟩ := List.findIdx?_eq_some_iff_getElem.mp h
    exact ⟨i, rfl, hi⟩

theorem goodPoints_insert (l : List QPointF) (q : QPointF) (h : GoodPoints l)
    (hq : 0 ≤ q.x ∧ q.x ≤ 1 ∧ 0 ≤ q.y ∧ q.y ≤ 1) : GoodPoints (stable_sort (l ++ [q])) := by
  obtain ⟨p0, hp0, hx0⟩ := GoodPoints.first l h
  obtain ⟨p1, hp1, hx1⟩ := GoodPoints.last l h
  have hm0 : p0 ∈ l := List.getElem?_mem hp0
  have hm1 : p1 ∈ l := List.getElem?_mem hp1
  apply goodPoints_of_sorted _ (stable_sort_sorted _)
  · intro p hp
    rw [mem_stable_sort, List.mem_append, List.mem_singleton] at hp
    rcases hp with hp | hp
    · exact h.2.2.2.2 p hp
    · rw [hp]
      exact hq
  · exact ⟨p0, by rw [mem_stable_sort]; simp [hm0], hx0⟩
  · exact ⟨p1, by rw [mem_stable_sort]; simp [hm1], hx1⟩

theorem goodPoints_eraseIdx (l : List QPointF) (i : Nat) (h : GoodPoints l) (h0 : 0 < i)
    (h1 : i + 1 < l.length) :
    GoodPoints (l.eraseIdx i) ∧ (l.eraseIdx i).head? = l.head?
      ∧ (l.eraseIdx i).getLast? = l.getLast? := by
  have hhead : (l.eraseIdx i).head? = l.head? := by
    rw [List.head?_eq_getElem?, List.head?_eq_getElem?, List.getElem?_eraseIdx_of_lt l i 0 h0]
  have hlast : (l.eraseIdx i).getLast? = l.getLast? := by
    rw [List.getLast?_eq_getElem?, List.getLast?_eq_getElem?, List.length_eraseIdx,
      if_pos (by omega), List.getElem?_eraseIdx_of_ge l i _ (by omega)]
    congr 1
    omega
  refine ⟨⟨?_, h.2.1.sublist (List.eraseIdx_sublist l i), ?_, ?_, ?_⟩, hhead, hlast⟩
  · rw [List.length_eraseIdx, if_pos (by omega)]
    omega
  · rw [hhead]
    exact h.2.2.1
  · rw [hlast]
    exact h.2.2.2.1
  · intro p hp
    exact h.2.2.2.2 p (List.mem_of_mem_eraseIdx hp)

theorem goodPoints_set_of (l : List QPointF) (i : Nat) (q : QPointF) (h : GoodPoints l)
    (hi : i < l.length) (hq : 0 ≤ q.x ∧ q.x ≤ 1 ∧ 0 ≤ q.y ∧ q.y ≤ 1)
    (hlo : ∀ (j : Nat) (hj : j < l.length), j < i → l[j].x ≤ q.x)
    (hhi : ∀ (k : Nat) (hk : k < l.length), i < k → q.x ≤ l[k].x)
    (h0 : i = 0 → q.x = 0) (h1 : i + 1 = l.length → q.x = 1) : GoodPoints (l.set i q) := by
  obtain ⟨p0, hp0, hx0⟩ := GoodPoints.first l h
  obtain ⟨p1, hp1, hx1⟩ := GoodPoints.last l h
  have hlen : 2 ≤ l.length := h.1
  apply goodPoints_of_sorted _ (sorted_set l i q h.2.1 hlo hhi)
  · intro p hp
    rcases List.mem_or_eq_of_mem_set hp with hp | hp
    · exact h.2.2.2.2 p hp
    · rw [hp]
      exact hq
  · by_cases hi0 : i = 0
    · exact ⟨q, List.mem_set l i hi q, h0 hi0⟩
    · refine ⟨p0, List.getElem?_mem (n := 0) ?_, hx0⟩
      rw [List.getElem?_set, if_neg hi0]
      exact hp0
  · by_cases hi1 : i + 1 = l.length
    · exact ⟨q, List.mem_set l i hi q, h1 hi1⟩
    · refine ⟨p1, List.getElem?_mem (n := l.length - 1) ?_, hx1⟩
      rw [List.getElem?_set, if_neg (by omega)]
      exact hp1

theorem clamp_between (m lo hi : Rat) (h : lo ≤ hi) :
    lo ≤ min (max m lo) hi ∧ min (max m lo) hi ≤ hi :=
  ⟨le_min (le_max_right m lo) h, min_le_right _ _⟩

theorem clamp_unit (y : Rat) : 0 ≤ max (min y 1) 0 ∧ max (min y 1) 0 ≤ 1 :=
  ⟨le_max_right _ _, max_le (min_le_right _ _) zero_le_one⟩

/-- The point `mouseMoveEvent` stores at index `i` for the mouse point `m`. -/
theorem goodPoints_drag (l : List QPointF) (i : Nat) (m : QPointF) (h : GoodPoints l)
    (hi : i < l.length) :
    GoodPoints (l.set i
      { x := if i = 0 then 0 else if i + 1 = l.length then 1
             else min (max m.x (l.getD (i - 1) { x := 0, y := 0 }).x)
                    (l.getD (i + 1) { x := 0, y := 0 }).x,
        y := max (min m.y 1) 0 }) := by
  have hpw := List.pairwise_iff_getElem.mp h.2.1
  have hr := h.2.2.2.2
  by_cases hi0 : i = 0
  · simp only [if_pos hi0]
    exact goodPoints_set_of l i _ h hi ⟨le_refl 0, zero_le_one, clamp_unit m.y⟩
      (fun j _ hji => by omega) (fun k hk _ => (hr l[k] (List.getElem_mem _)).1)
      (fun _ => rfl) (fun h1 => by have := h.1; omega)
  · by_cases hi1 : i + 1 = l.length
    · simp only [if_neg hi0, if_pos hi1]
      exact goodPoints_set_of l i _ h hi ⟨zero_le_one, le_refl 1, clamp_unit m.y⟩
        (fun j hj _ => (hr l[j] (List.getElem_mem _)).2.1) (fun k hk hik => by omega)
        (fun h0 => absurd h0 hi0) (fun _ => rfl)
    · simp only [if_neg hi0, if_neg hi1]
      have hA : i - 1 < l.length := by omega
      have hB : i + 1 < l.length := by omega
      rw [List.getD_eq_getElem l _ hA, List.getD_eq_getElem l _ hB]
      have hab : l[i - 1].x ≤ l[i + 1].x := hpw (i - 1) (i + 1) hA hB (by omega)
      obtain ⟨c1, c2⟩ := clamp_between m.x l[i - 1].x l[i + 1].x hab
      have ha0 := (hr l[i - 1] (List.getElem_mem _)).1
      have hb1 := (hr l[i + 1] (List.getElem_mem _)).2.1
      refine goodPoints_set_of l i _ h hi
        ⟨le_trans ha0 c1, le_trans c2 hb1, clamp_unit m.y⟩ ?_ ?_
        (fun h0 => absurd h0 hi0) (fun h1 => absurd h1 hi1)
      · intro j hj hji
        by_cases hj1 : j = i - 1
        · subst hj1
          exact c1
        · exact le_trans (hpw j (i - 1) hj hA (by omega)) c1
      · intro k hk hik
        by_cases hk1 : k = i + 1
        · subst hk1
          exact c2
        · exact le_trans c2 (hpw (i + 1) k hB hk (by omega))

theorem mouseMoveEvent_selected (F : FloatEnv) (W : TransferFunctionPiecewiseLinearWidget)
    (p : QPointF) (i : Nat) (hsel : W.selectedPointIndex_ = (i : Int)) :
    W.mouseMoveEvent F p =
      { W with
        points_ :=
          W.points_.set i
            { x := if i = 0 then 0 else if i + 1 = W.points_.length then 1
                   else min (max (W.widgetPointToPoint F p).x
                          (W.points_.getD (i - 1) { x := 0, y := 0 }).x)
                        (W.points_.getD (i + 1) { x := 0, y := 0 }).x,
              y := max (min (W.widgetPointToPoint F p).y 1) 0 } } := by
  have e0 : (i : Int) ≠ -1 := by omega
  have e1 : ((i : Int) = 0) ↔ i = 0 := by omega
  have e2 : ((i : Int) = (W.points_.length : Int) - 1) ↔ i + 1 = W.points_.length := by omega
  simp only [mouseMoveEvent, hsel, e1, e2, Int.toNat_ofNat, if_pos e0]

theorem mouseMoveEvent_unselected (F : FloatEnv) (W : TransferFunctionPiecewiseLinearWidget)
    (p : QPointF) (hsel : W.selectedPointIndex_ = -1) : W.mouseMoveEvent F p = W := by
  simp [mouseMoveEvent, hsel]

theorem mouseMoveEvent_wellFormed (F : FloatEnv) (W : TransferFunctionPiecewiseLinearWidget)
    (p : QPointF) (hW : WellFormed W) :
    WellFormed (W.mouseMoveEvent F p) ∧ (W.mouseMoveEvent F p).width = W.width
      ∧ (W.mouseMoveEvent F p).height = W.height := by
  obtain ⟨hg, hsel, hw, hh⟩ := hW
  rcases hsel with hsel | ⟨hs0, hs1⟩
  · rw [mouseMoveEvent_unselected F W p hsel]
    exact ⟨⟨hg, Or.inl hsel, hw, hh⟩, rfl, rfl⟩
  · obtain ⟨i, hi⟩ := Int.eq_ofNat_of_zero_le hs0
    have hil : i < W.points_.length := by omega
    rw [mouseMoveEvent_selected F W p i hi]
    refine ⟨⟨goodPoints_drag W.points_ i _ hg hil, Or.inr ?_, hw, hh⟩, rfl, rfl⟩
    dsimp only
    rw [List.length_set]
    exact ⟨hs0, hs1⟩

theorem mouseReleaseEvent_wellFormed (W : TransferFunctionPiecewiseLinearWidget)
    (hW : WellFormed W) :
    WellFormed W.mouseReleaseEvent ∧ W.mouseReleaseEvent.points_ = W.points_
      ∧ W.mouseReleaseEvent.selectedPointIndex_ = -1
      ∧ W.mouseReleaseEvent.width = W.width ∧ W.mouseReleaseEvent.height = W.height := by
  obtain ⟨hg, _, hw, hh⟩ := hW
  unfold mouseReleaseEvent
  split
  · exact ⟨⟨hg, Or.inl rfl, hw, hh⟩, rfl, rfl, rfl, rfl⟩
  · rename_i hsel
    have hsel' : W.selectedPointIndex_ = -1 := not_not.mp hsel
    exact ⟨⟨hg, Or.inl hsel', hw, hh⟩, rfl, hsel', rfl, rfl⟩

theorem mousePressEvent_left_wellFormed (F : FloatEnv) (hF : F.Lawful)
    (W : TransferFunctionPiecewiseLinearWidget) (p : QPointF) (hW : WellFormed W)
    (hp : W.inside p) :
    ∃ W1, W.mousePressEvent F .LeftButton p = .ok W1 ∧ WellFormed W1 ∧ W1.width = W.width
      ∧ W1.height = W.height := by
  obtain ⟨hg, _, hw, hh⟩ := hW
  rcases getSelectedPointIndex_range F W p with hsel | ⟨i, hi, hsel⟩
  · have hgood := goodPoints_insert W.points_ (W.widgetPointToPoint F p) hg
      (widgetPointToPoint_range F hF W p hw hh hp)
    have hmem : W.widgetPointToPoint F p
        ∈ stable_sort (W.points_ ++ [W.widgetPointToPoint F p]) := by
      rw [mem_stable_sort]
      simp
    obtain ⟨k, hk, hkl⟩ := findIdx?_pointEq F hF _ _ hmem
    have hnot : ¬ (k : Int)
        ≥ ((stable_sort (W.points_ ++ [W.widgetPointToPoint F p])).length : Int) := by
      omega
    refine ⟨{ W with
        points_ := stable_sort (W.points_ ++ [W.widgetPointToPoint F p]),
        selectedPointIndex_ := (k : Int) }, ?_, ?_, rfl, rfl⟩
    · simp only [mousePressEvent, hsel, if_true, hk, if_neg hnot]
    · exact ⟨hgood, Or.inr ⟨by dsimp only; omega, by dsimp only; omega⟩, hw, hh⟩
  · have hne : ¬ ((i : Int) = -1) := by omega
    refine ⟨{ W with selectedPointIndex_ := (i : Int) }, ?_, ?_, rfl, rfl⟩
    · simp only [mousePressEvent, hsel, if_neg hne]
    · exact ⟨hg, Or.inr ⟨by show (0 : Int) ≤ (i : Int); omega,
        by show (i : Int) < (W.points_.length : Int); omega⟩, hw, hh⟩

theorem mousePressEvent_right_wellFormed (F : FloatEnv)
    (W : TransferFunctionPiecewiseLinearWidget) (p : QPointF) (hW : WellFormed W) :
    ∃ W1, W.mousePressEvent F .RightButton p = .ok W1 ∧ WellFormed W1 ∧ W1.width = W.width
      ∧ W1.height = W.height ∧ W1.points_.head? = W.points_.head?
      ∧ W1.points_.getLast? = W.points_.getLast? ∧ W1.points_.Sublist W.points_ := by
  obtain ⟨hg, _, hw, hh⟩ := hW
  by_cases hc : W.getSelectedPointIndex F p ≠ -1 ∧ W.getSelectedPointIndex F p ≠ 0
      ∧ W.getSelectedPointIndex F p ≠ (W.points_.length : Int) - 1
  · rcases getSelectedPointIndex_range F W p with hsel | ⟨i, hi, hsel⟩
    · exact absurd hsel hc.1
    · rw [hsel] at hc
      obtain ⟨hgood, hhead, hlast⟩ := goodPoints_eraseIdx W.points_ i hg (by omega) (by omega)
      refine ⟨{ W with points_ := W.points_.eraseIdx i, selectedPointIndex_ := -1 }, ?_,
        ⟨hgood, Or.inl rfl, hw, hh⟩, rfl, rfl, hhead, hlast, List.eraseIdx_sublist _ _⟩
      simp only [mousePressEvent, hsel, if_pos hc, Int.toNat_ofNat]
  · refine ⟨{ W with selectedPointIndex_ := -1 }, ?_, ⟨hg, Or.inl rfl, hw, hh⟩, rfl, rfl, rfl,
      rfl, List.Sublist.refl _⟩
    simp only [mousePressEvent, if_neg hc]

theorem handleEvent_wellFormed (F : FloatEnv) (hF : F.Lawful)
    (W : TransferFunctionPiecewiseLinearWidget) (e : MouseEvent)
    (hW : WellFormed W) (hp : W.inside e.posF) :
    ∃ W1, W.handleEvent F e = .ok W1 ∧ WellFormed W1 ∧ W1.width = W.width
      ∧ W1.height = W.height := by
  cases e with
  | press button q =>
    cases button with
    | LeftButton => exact mousePressEvent_left_wellFormed F hF W q hW hp
    | RightButton =>
      obtain ⟨W1, h1, h2, h3, h4, _⟩ := mousePressEvent_right_wellFormed F W q hW
      exact ⟨W1, h1, h2, h3, h4⟩
    | OtherButton => exact ⟨W, rfl, hW, rfl, rfl⟩
  | move q =>
    obtain ⟨h1, h2, h3⟩ := mouseMoveEvent_wellFormed F W q hW
    exact ⟨_, rfl, h1, h2, h3⟩
  | release q =>
    obtain ⟨h1, _, _, h2, h3⟩ := mouseReleaseEvent_wellFormed W hW
    exact ⟨_, rfl, h1, h2, h3⟩

theorem handleEvents_wellFormed (F : FloatEnv) (hF : F.Lawful) (events : List MouseEvent)
    (W : TransferFunctionPiecewiseLinearWidget) (hW : WellFormed W)
    (hp : ∀ e ∈ events, W.inside e.posF) :
    ∃ W1, W.handleEvents F events = .ok W1 ∧ WellFormed W1 ∧ W1.width = W.width
      ∧ W1.height = W.height := by
  induction events generalizing W with
  | nil => exact ⟨W, rfl, hW, rfl, rfl⟩
  | cons e es ih =>
    obtain ⟨W1, h1, h2, h3, h4⟩ :=
      handleEvent_wellFormed F hF W e hW (hp e (List.mem_cons_self e es))
    have hp1 : ∀ e1 ∈ es, W1.inside e1.posF := by
      intro e1 he1
      have := hp e1 (List.mem_cons_of_mem e he1)
      unfold inside at this ⊢
      rw [h3, h4]
      exact this
    obtain ⟨W2, g1, g2, g3, g4⟩ := ih W1 h2 hp1
    refine ⟨W2, ?_, g2, by rw [g3, h3], by rw [g4, h4]⟩
    simp only [handleEvents, h1]
    exact g1

theorem mouseMoveEvent_inner (F : FloatEnv) (W : TransferFunctionPiecewiseLinearWidget)
    (p : QPointF) (i : Nat) (hg : GoodPoints W.points_) (hsel : W.selectedPointIndex_ = (i : Int))
    (h0 : 0 < i) (h1 : i + 1 < W.points_.length) :
    ∃ a q b, W.points_[i - 1]? = some a ∧ W.points_[i + 1]? = some b
      ∧ (W.mouseMoveEvent F p).points_ = W.points_.set i q
      ∧ a.x ≤ q.x ∧ q.x ≤ b.x ∧ 0 ≤ q.y ∧ q.y ≤ 1 := by
  have hA : i - 1 < W.points_.length := by omega
  have hpw := List.pairwise_iff_getElem.mp hg.2.1
  have hab : W.points_[i - 1].x ≤ W.points_[i + 1].x := hpw (i - 1) (i + 1) hA h1 (by omega)
  obtain ⟨c1, c2⟩ := clamp_between (W.widgetPointToPoint F p).x _ _ hab
  obtain ⟨d1, d2⟩ := clamp_unit (W.widgetPointToPoint F p).y
  have hq : (W.mouseMoveEvent F p).points_ = W.points_.set i
      (QPointF.mk (min (max (W.widgetPointToPoint F p).x W.points_[i - 1].x) W.points_[i + 1].x)
        (max (min (W.widgetPointToPoint F p).y 1) 0)) := by
    rw [mouseMoveEvent_selected F W p i hsel]
    simp only [if_neg (by omega : ¬ i = 0), if_neg (by omega : ¬ i + 1 = W.points_.length),
      List.getD_eq_getElem W.points_ _ hA, List.getD_eq_getElem W.points_ _ h1]
  exact ⟨W.points_[i - 1], _, W.points_[i + 1], List.getElem?_eq_getElem hA,
    List.getElem?_eq_getElem h1, hq, c1, c2, d1, d2⟩

theorem new_wellFormed (width height : Int) (hw : 0 < width) (hh : 0 < height) :
    WellFormed (new width height) := by
  refine ⟨⟨by simp [new], ?_, rfl, rfl, ?_⟩, Or.inl rfl, hw, hh⟩
  · simp [new, List.Sorted]
  · intro p hp
    simp only [new, List.mem_cons, List.mem_singleton, List.not_mem_nil, or_false] at hp
    rcases hp with hp | hp <;> subst hp <;> norm_num

/-- C20: a widget of positive size starts with the points (0,0) and (1,1).
For every arithmetic whose roundings are monotone and keep 0 and 1, and in
which a point equals itself, every sequence of press, move and release events
whose positions lie inside the widget is handled without an exception, and in
the state it leaves the point list has at least two points, is sorted by
non-decreasing x, starts at x = 0 and ends at x = 1, with every y in [0, 1].
In that state a right-click at any position keeps the first and the last
point, and a move that drags an intermediate point replaces only that point,
by one whose x lies between the x of its two neighbours and whose y is in
[0, 1]. -/
theorem handleEvents_keeps_points (F : FloatEnv) (hF : F.Lawful) (width height : Int)
    (hw : 0 < width) (hh : 0 < height) (events : List MouseEvent)
    (hin : ∀ e ∈ events, (new width height).inside e.posF) :
    ∃ W, (new width height).handleEvents F events = .ok W
      ∧ 2 ≤ W.points_.length
      ∧ W.points_.Sorted (fun u v => u.x ≤ v.x)
      ∧ W.points_.head?.map QPointF.x = some 0
      ∧ W.points_.getLast?.map QPointF.x = some 1
      ∧ (∀ q ∈ W.points_, 0 ≤ q.y ∧ q.y ≤ 1)
      ∧ (∀ p, ∃ W1, W.mousePressEvent F .RightButton p = .ok W1
            ∧ W1.points_.head? = W.points_.head?
            ∧ W1.points_.getLast? = W.points_.getLast?)
      ∧ (∀ (p : QPointF) (i : Nat), W.selectedPointIndex_ = (i : Int) → 0 < i →
            i + 1 < W.points_.length →
            ∃ a q b, W.points_[i - 1]? = some a ∧ W.points_[i + 1]? = some b
              ∧ (W.mouseMoveEvent F p).points_ = W.points_.set i q
              ∧ a.x ≤ q.x ∧ q.x ≤ b.x ∧ 0 ≤ q.y ∧ q.y ≤ 1) := by
  obtain ⟨W, h1, hW, _, _⟩ :=
    handleEvents_wellFormed F hF events (new width height)
      (new_wellFormed width height hw hh) hin
  refine ⟨W, h1, hW.1.1, hW.1.2.1, hW.1.2.2.1, hW.1.2.2.2.1,
    fun q hq => (hW.1.2.2.2.2 q hq).2.2, ?_, ?_⟩
  · intro p
    obtain ⟨W1, g1, _, _, _, g2, g3, _⟩ := mousePressEvent_right_wellFormed F W p hW
    exact ⟨W1, g1, g2, g3⟩
  · intro p i hsel h0 hi
    exact mouseMoveEvent_inner F W p i hW.1 hsel h0 hi

/-- C20 (witness): IEEE 754 arithmetic meets the laws; in a 100 by 100 widget
a left press at (50, 50) creates a point, a move drags it to (80, 20), the
button is released and a right press at (80, 20) removes it again; all four
positions are inside the widget. -/
theorem handleEvents_keeps_points_witness :
    (ieee754.Lawful ∧ (0 : Int) < 100
      ∧ ∀ e ∈ exampleEvents, (new 100 100).inside e.posF)
    ∧ ∃ W, (new 100 100).handleEvents ieee754 exampleEvents = .ok W
      ∧ 2 ≤ W.points_.length
      ∧ W.points_.Sorted (fun u v => u.x ≤ v.x)
      ∧ W.points_.head?.map QPointF.x = some 0
      ∧ W.points_.getLast?.map QPointF.x = some 1
      ∧ (∀ q ∈ W.points_, 0 ≤ q.y ∧ q.y ≤ 1)
      ∧ (∀ p, ∃ W1, W.mousePressEvent ieee754 .RightButton p = .ok W1
            ∧ W1.points_.head? = W.points_.head?
            ∧ W1.points_.getLast? = W.points_.getLast?)
      ∧ (∀ (p : QPointF) (i : Nat), W.selectedPointIndex_ = (i : Int) → 0 < i →
            i + 1 < W.points_.length →
            ∃ a q b, W.points_[i - 1]? = some a ∧ W.points_[i + 1]? = some b
              ∧ (W.mouseMoveEvent ieee754 p).points_ = W.points_.set i q
              ∧ a.x ≤ q.x ∧ q.x ≤ b.x ∧ 0 ≤ q.y ∧ q.y ≤ 1) := by
  have hin : ∀ e ∈ exampleEvents, (new 100 100).inside e.posF := by
    intro e he
    simp only [exampleEvents, List.mem_cons, List.mem_singleton, List.not_mem_nil,
      or_false] at he
    rcases he with he | he | he | he <;> subst he <;>
      simp only [inside, new, MouseEvent.posF] <;> norm_num
  exact ⟨⟨ieee754_lawful, by decide, hin⟩,
    handleEvents_keeps_points ieee754 ieee754_lawful 100 100 (by decide) (by decide)
      exampleEvents hin⟩

end TransferFunctionPiecewiseLinearWidget

/-! ### ospRemoveGeometry, ospRemoveVolume: the list that is left -/

theorem eraseIdx_findIdx?_eq_erase (l : List Nat) (g i : Nat)
    (h : l.findIdx? (fun x => g == x) = some i) : l.eraseIdx i = l.erase g := by
  induction l generalizing i with
  | nil => simp at h
  | cons a l ih =>
    simp only [List.findIdx?_cons] at h
    by_cases hga : (g == a) = true
    · simp only [hga, if_true, Option.some.injEq] at h
      subst h
      have : g = a := by simpa using hga
      subst this
      simp
    · simp only [hga] at h
      rw [findIdx?_succ_start] at h
      cases hj : List.findIdx? (fun x => g == x) l with
      | none => simp [hj] at h
      | some j =>
        simp [hj] at h
        subst h
        have hag : ¬ a = g := fun e => hga (by simp [e])
        simp only [List.eraseIdx_cons_succ, ih j hj]
        rw [List.erase_cons_tail (by simpa using hag)]

theorem not_mem_of_findIdx?_eq_none (l : List Nat) (g : Nat)
    (h : l.findIdx? (fun x => g == x) = none) : g ∉ l := by
  rw [List.findIdx?_eq_none_iff] at h
  intro hmem
  have := h g hmem
  simp at this

theorem erase_first_occurrence (l1 l2 : List Nat) (g : Nat) (h : g ∉ l1) :
    (l1 ++ g :: l2).erase g = l1 ++ l2 := by
  rw [List.erase_append_right _ h, List.erase_cons_head]

theorem RankState.geometryOf_modifyObj (s : RankState) (p q : Nat)
    (f : ManagedObject → ManagedObject) (hf : ∀ o, (f o).geometry = o.geometry) :
    (s.modifyObj p f).geometryOf q = s.geometryOf q := by
  by_cases hqp : q = p
  · subst hqp
    cases ho : s.objAt q with
    | none => simp [RankState.modifyObj, ho]
    | some o =>
      simp only [RankState.geometryOf, RankState.objAt_modifyObj_same f ho, ho, hf]
  · simp only [RankState.geometryOf, RankState.objAt_modifyObj_ne f hqp]

theorem RankState.volumeOf_modifyObj (s : RankState) (p q : Nat)
    (f : ManagedObject → ManagedObject) (hf : ∀ o, (f o).volume = o.volume) :
    (s.modifyObj p f).volumeOf q = s.volumeOf q := by
  by_cases hqp : q = p
  · subst hqp
    cases ho : s.objAt q with
    | none => simp [RankState.modifyObj, ho]
    | some o =>
      simp only [RankState.volumeOf, RankState.objAt_modifyObj_same f ho, ho, hf]
  · simp only [RankState.volumeOf, RankState.objAt_modifyObj_ne f hqp]

theorem RankState.refCountOf_modifyObj (s : RankState) (p q : Nat)
    (f : ManagedObject → ManagedObject) (hf : ∀ o, (f o).refCount = o.refCount) :
    (s.modifyObj p f).refCountOf q = s.refCountOf q := by
  by_cases hqp : q = p
  · subst hqp
    cases ho : s.objAt q with
    | none => simp [RankState.modifyObj, ho]
    | some o =>
      simp only [RankState.refCountOf, RankState.objAt_modifyObj_same f ho, ho, hf]
  · simp only [RankState.refCountOf, RankState.objAt_modifyObj_ne f hqp]

theorem RankState.geometryOf_modifyObj_same (s : RankState) (p : Nat) (o : ManagedObject)
    (f : ManagedObject → ManagedObject) (h : s.objAt p = some o) :
    (s.modifyObj p f).geometryOf p = (f o).geometry := by
  simp only [RankState.geometryOf, RankState.objAt_modifyObj_same f h]

theorem RankState.volumeOf_modifyObj_same (s : RankState) (p : Nat) (o : ManagedObject)
    (f : ManagedObject → ManagedObject) (h : s.objAt p = some o) :
    (s.modifyObj p f).volumeOf p = (f o).volume := by
  simp only [RankState.volumeOf, RankState.objAt_modifyObj_same f h]

theorem RankState.refCountOf_modifyObj_same (s : RankState) (p : Nat) (o : ManagedObject)
    (f : ManagedObject → ManagedObject) (h : s.objAt p = some o) :
    (s.modifyObj p f).refCountOf p = (f o).refCount := by
  simp only [RankState.refCountOf, RankState.objAt_modifyObj_same f h]

theorem RankState.geometryOf_refInc (s : RankState) (p q : Nat) :
    (s.refInc p).geometryOf q = s.geometryOf q :=
  RankState.geometryOf_modifyObj s p q _ (fun _ => rfl)

theorem RankState.geometryOf_refDec (s : RankState) (p q : Nat) :
    (s.refDec p).geometryOf q = s.geometryOf q :=
  RankState.geometryOf_modifyObj s p q _ (fun _ => rfl)

theorem RankState.volumeOf_refInc (s : RankState) (p q : Nat) :
    (s.refInc p).volumeOf q = s.volumeOf q :=
  RankState.volumeOf_modifyObj s p q _ (fun _ => rfl)

theorem RankState.volumeOf_refDec (s : RankState) (p q : Nat) :
    (s.refDec p).volumeOf q = s.volumeOf q :=
  RankState.volumeOf_modifyObj s p q _ (fun _ => rfl)

theorem RankState.exists_objAt_modifyObj (s : RankState) (p q : Nat) (o : ManagedObject)
    (f : ManagedObject → ManagedObject) (h : s.objAt q = some o) :
    ∃ o1, (s.modifyObj p f).objAt q = some o1 := by
  by_cases hqp : q = p
  · subst hqp
    exact ⟨f o, RankState.objAt_modifyObj_same f h⟩
  · exact ⟨o, by rw [RankState.objAt_modifyObj_ne f hqp, h]⟩

/-- C22: for a model m and a geometry g, RemoveGeometry(m, g).run returns
normally and leaves as m's geometry list the old list with its first
occurrence of g erased: written as l1 ++ g :: l2 with g not in l1 it becomes
l1 ++ l2, every other element (later occurrences of g included) staying in
place and order; when g is not in the list the list is unchanged; m's volume
list is unchanged; and AddGeometry(m, g).run appends g whether or not it is
already present. -/
theorem RemoveGeometry.run_erases_first (u : ModelWork) (s : RankState) (mo : ManagedObject)
    (hm : s.objAt (u.modelHandle.lookup s) = some mo)
    (hg : u.objectHandle.lookup s ≠ nullptr) :
    (∃ s1, RemoveGeometry.run u s = .ok s1
      ∧ s1.geometryOf (u.modelHandle.lookup s) = mo.geometry.erase (u.objectHandle.lookup s)
      ∧ (∀ l1 l2, mo.geometry = l1 ++ u.objectHandle.lookup s :: l2 →
          u.objectHandle.lookup s ∉ l1 → s1.geometryOf (u.modelHandle.lookup s) = l1 ++ l2)
      ∧ (u.objectHandle.lookup s ∉ mo.geometry →
          s1.geometryOf (u.modelHandle.lookup s) = mo.geometry)
      ∧ s1.volumeOf (u.modelHandle.lookup s) = mo.volume)
    ∧ (∃ s2, AddGeometry.run u s = .ok s2
      ∧ s2.geometryOf (u.modelHandle.lookup s) = mo.geometry ++ [u.objectHandle.lookup s]) := by
  generalize hmp : u.modelHandle.lookup s = m at hm
  generalize hgp : u.objectHandle.lookup s = g at hg
  have hm0 : m ≠ 0 := RankState.objAt_ne_null hm
  have hgeo : s.geometryOf m = mo.geometry := by simp only [RankState.geometryOf, hm]
  have hvol : s.volumeOf m = mo.volume := by simp only [RankState.volumeOf, hm]
  have hrest : ∀ s1 : RankState, s1.geometryOf m = mo.geometry.erase g →
      (∀ l1 l2, mo.geometry = l1 ++ g :: l2 → g ∉ l1 → s1.geometryOf m = l1 ++ l2)
      ∧ (g ∉ mo.geometry → s1.geometryOf m = mo.geometry) := by
    intro s1 h1
    refine ⟨?_, ?_⟩
    · intro l1 l2 hl hn
      rw [h1, hl, erase_first_occurrence l1 l2 g hn]
    · intro hn
      rw [h1, List.erase_of_not_mem hn]
  refine ⟨?_, ?_⟩
  · cases hfi : mo.geometry.findIdx? (fun x => g == x) with
    | none =>
      have hR : RemoveGeometry.run u s = .ok s := by
        simp [RemoveGeometry.run, hmp, hgp, hm0, hg, hgeo, hfi]
      have h1 : s.geometryOf m = mo.geometry.erase g := by
        rw [hgeo, List.erase_of_not_mem (not_mem_of_findIdx?_eq_none _ g hfi)]
      exact ⟨s, hR, h1, (hrest s h1).1, (hrest s h1).2, hvol⟩
    | some it =>
      have hR : RemoveGeometry.run u s = .ok ((s.modifyObj m
          (fun m => { m with geometry := m.geometry.eraseIdx it })).refDec g) := by
        simp [RemoveGeometry.run, hmp, hgp, hm0, hg, hgeo, hfi]
      have h1 : ((s.modifyObj m
          (fun m => { m with geometry := m.geometry.eraseIdx it })).refDec g).geometryOf m
            = mo.geometry.erase g := by
        rw [RankState.geometryOf_refDec, RankState.geometryOf_modifyObj_same s m mo _ hm]
        exact eraseIdx_findIdx?_eq_erase _ g it hfi
      have h2 : ((s.modifyObj m
          (fun m => { m with geometry := m.geometry.eraseIdx it })).refDec g).volumeOf m
            = mo.volume := by
        rw [RankState.volumeOf_refDec, RankState.volumeOf_modifyObj_same s m mo _ hm]
      exact ⟨_, hR, h1, (hrest _ h1).1, (hrest _ h1).2, h2⟩
  · have hA : AddGeometry.run u s = .ok ((s.refInc g).modifyObj m
        (fun m => { m with geometry := m.geometry ++ [g] })) := by
      simp [AddGeometry.run, hmp, hgp, hm0, hg]
    obtain ⟨o1, ho1⟩ := RankState.exists_objAt_modifyObj s g m mo
      (fun o => { o with refCount := o.refCount + 1 }) hm
    have hg1 : (s.refInc g).geometryOf m = mo.geometry := by
      rw [RankState.geometryOf_refInc, hgeo]
    have ho1g : o1.geometry = mo.geometry := by
      have : (s.refInc g).geometryOf m = o1.geometry := by
        simp only [RankState.geometryOf, RankState.refInc, ho1]
      rw [← this, hg1]
    refine ⟨_, hA, ?_⟩
    rw [RankState.geometryOf_modifyObj_same (s.refInc g) m o1 _ ho1, ho1g]

/-- C22 (witness): the model bound to handle 11 holds the geometry list
[3, 2, 3, 2]; removing the geometry bound to handle 12 (address 2) leaves
[3, 3, 2], and the volume list as it was. -/
theorem RemoveGeometry.run_erases_first_witness :
    (RemoveGeometry.run { modelHandle := { i64 := 11 }, objectHandle := { i64 := 12 } }
        exampleSceneState).state.geometryOf 1 = [3, 3, 2]
    ∧ ((∃ s1, RemoveGeometry.run { modelHandle := { i64 := 11 }, objectHandle := { i64 := 12 } }
          exampleSceneState = .ok s1
        ∧ s1.geometryOf 1 = exampleModel.geometry.erase 2
        ∧ (∀ l1 l2, exampleModel.geometry = l1 ++ 2 :: l2 → 2 ∉ l1 →
            s1.geometryOf 1 = l1 ++ l2)
        ∧ (2 ∉ exampleModel.geometry → s1.geometryOf 1 = exampleModel.geometry)
        ∧ s1.volumeOf 1 = exampleModel.volume)
      ∧ (∃ s2, AddGeometry.run { modelHandle := { i64 := 11 }, objectHandle := { i64 := 12 } }
          exampleSceneState = .ok s2
        ∧ s2.geometryOf 1 = exampleModel.geometry ++ [2])) :=
  ⟨by decide,
   RemoveGeometry.run_erases_first
    { modelHandle := { i64 := 11 }, objectHandle := { i64 := 12 } } exampleSceneState
    exampleModel (by decide) (by decide)⟩

theorem erase_append_self_perm (l : List Nat) (v : Nat) : ((l ++ [v]).erase v).Perm l := by
  have h1 : (l ++ [v]).Perm (v :: (l ++ [v]).erase v) := List.perm_cons_erase (by simp)
  have h2 : (l ++ [v]).Perm (v :: l) := List.perm_append_singleton v l
  exact (h1.symm.trans h2).cons_inv

theorem erase_append_self_of_not_mem (l : List Nat) (v : Nat) (h : v ∉ l) :
    (l ++ [v]).erase v = l := by
  rw [List.erase_append_right _ h, List.erase_cons_head, List.append_nil]

theorem erase_append_self_of_first (l1 l2 : List Nat) (v : Nat) (h : v ∉ l1) :
    ((l1 ++ v :: l2) ++ [v]).erase v = l1 ++ l2 ++ [v] := by
  rw [List.append_assoc, List.cons_append, erase_first_occurrence l1 (l2 ++ [v]) v h,
    List.append_assoc]

/-- The state `RemoveVolume::run` returns in, for the model at `m` and the
volume at `v`, and what it holds for the two. -/
theorem RemoveVolume.run_state (u : ModelWork) (s : RankState) (m v : Nat)
    (mo vo : ManagedObject) (hmp : u.modelHandle.lookup s = m)
    (hvp : u.objectHandle.lookup s = v) (hm : s.objAt m = some mo)
    (hv : s.objAt v = some vo) :
    ∃ s1, RemoveVolume.run u s = .ok s1
      ∧ s1.volumeOf m = (mo.volume ++ [v]).erase v
      ∧ s1.geometryOf m = mo.geometry
      ∧ s1.refCountOf v = vo.refCount := by
  have hm0 : m ≠ 0 := RankState.objAt_ne_null hm
  have hv0 : v ≠ 0 := RankState.objAt_ne_null hv
  -- after the reference taken by push_back
  obtain ⟨o1, ho1⟩ := RankState.exists_objAt_modifyObj s v m mo
    (fun o => { o with refCount := o.refCount + 1 }) hm
  have ho1' : (s.refInc v).objAt m = some o1 := ho1
  have ho1v : o1.volume = mo.volume := by
    have h1 : (s.refInc v).volumeOf m = o1.volume := by
      simp only [RankState.volumeOf, ho1']
    have h2 : s.volumeOf m = mo.volume := by simp only [RankState.volumeOf, hm]
    rw [← h1, RankState.volumeOf_refInc, h2]
  have ho1g : o1.geometry = mo.geometry := by
    have h1 : (s.refInc v).geometryOf m = o1.geometry := by
      simp only [RankState.geometryOf, ho1']
    have h2 : s.geometryOf m = mo.geometry := by simp only [RankState.geometryOf, hm]
    rw [← h1, RankState.geometryOf_refInc, h2]
  have hrc1 : (s.refInc v).refCountOf v = vo.refCount + 1 :=
    RankState.refCountOf_modifyObj_same s v vo _ hv
  -- after push_back
  generalize hs2 : (s.refInc v).modifyObj m (fun m => { m with volume := m.volume ++ [v] })
    = s2
  have hvol2 : s2.volumeOf m = mo.volume ++ [v] := by
    rw [← hs2, RankState.volumeOf_modifyObj_same (s.refInc v) m o1 _ ho1', ho1v]
  have ho2 : s2.objAt m = some { o1 with volume := o1.volume ++ [v] } := by
    rw [← hs2]
    exact RankState.objAt_modifyObj_same _ ho1'
  have hrc2 : s2.refCountOf v = vo.refCount + 1 := by
    rw [← hs2, RankState.refCountOf_modifyObj (s.refInc v) m v
      (fun m => { m with volume := m.volume ++ [v] }) (fun _ => rfl), hrc1]
  obtain ⟨it, hit⟩ := findIdx?_append_self mo.volume v
  have hR : RemoveVolume.run u s = .ok ((s2.modifyObj m
      (fun m => { m with volume := m.volume.eraseIdx it })).refDec v) := by
    simp only [RemoveVolume.run, hmp, hvp, if_neg hm0, if_neg hv0, hs2, hvol2, hit]
  -- after erase
  have hrc3 : (s2.modifyObj m (fun m => { m with volume := m.volume.eraseIdx it })).refCountOf v
      = vo.refCount + 1 := by
    rw [RankState.refCountOf_modifyObj s2 m v
      (fun m => { m with volume := m.volume.eraseIdx it }) (fun _ => rfl), hrc2]
  obtain ⟨ov1, hov1⟩ := RankState.exists_objAt_modifyObj s v v vo
    (fun o => { o with refCount := o.refCount + 1 }) hv
  have hov1' : (s.refInc v).objAt v = some ov1 := hov1
  obtain ⟨ov2, hov2⟩ := RankState.exists_objAt_modifyObj (s.refInc v) m v ov1
    (fun m => { m with volume := m.volume ++ [v] }) hov1'
  rw [hs2] at hov2
  obtain ⟨ov3, hov3⟩ := RankState.exists_objAt_modifyObj s2 m v ov2
    (fun m => { m with volume := m.volume.eraseIdx it }) hov2
  have hov3r : ov3.refCount = vo.refCount + 1 := by
    rw [← hrc3]
    simp only [RankState.refCountOf, hov3]
  refine ⟨_, hR, ?_, ?_, ?_⟩
  · rw [RankState.volumeOf_refDec, RankState.volumeOf_modifyObj_same s2 m _ _ ho2]
    show (o1.volume ++ [v]).eraseIdx it = _
    rw [ho1v]
    exact eraseIdx_findIdx?_eq_erase _ v it hit
  · rw [RankState.geometryOf_refDec, RankState.geometryOf_modifyObj_same s2 m _ _ ho2]
    exact ho1g
  · unfold RankState.refDec
    rw [RankState.refCountOf_modifyObj_same _ v ov3 _ hov3]
    show ov3.refCount - 1 = vo.refCount
    omega

/-- C23: for a model m and a volume v, RemoveVolume(m, v).run returns normally
and leaves m's volume list with the same length and the same number of
occurrences of every volume, and v's reference count at its old value: the
list is the old list with v appended and the first v then erased, which is the
old list when v was absent, and l1 ++ l2 ++ [v] when the old list was
l1 ++ v :: l2 with v not in l1; m's geometry list is unchanged. -/
theorem RemoveVolume.run_moves_first_to_end (u : ModelWork) (s : RankState)
    (mo vo : ManagedObject) (hm : s.objAt (u.modelHandle.lookup s) = some mo)
    (hv : s.objAt (u.objectHandle.lookup s) = some vo) :
    ∃ s1, RemoveVolume.run u s = .ok s1
      ∧ (s1.volumeOf (u.modelHandle.lookup s)).length = mo.volume.length
      ∧ (∀ w, (s1.volumeOf (u.modelHandle.lookup s)).count w = mo.volume.count w)
      ∧ s1.refCountOf (u.objectHandle.lookup s) = vo.refCount
      ∧ (u.objectHandle.lookup s ∉ mo.volume →
          s1.volumeOf (u.modelHandle.lookup s) = mo.volume)
      ∧ (∀ l1 l2, mo.volume = l1 ++ u.objectHandle.lookup s :: l2 →
          u.objectHandle.lookup s ∉ l1 →
          s1.volumeOf (u.modelHandle.lookup s) = l1 ++ l2 ++ [u.objectHandle.lookup s])
      ∧ s1.geometryOf (u.modelHandle.lookup s) = mo.geometry := by
  obtain ⟨s1, hR, hvol, hgeo, hrc⟩ := RemoveVolume.run_state u s _ _ mo vo rfl rfl hm hv
  have hperm := erase_append_self_perm mo.volume (u.objectHandle.lookup s)
  refine ⟨s1, hR, ?_, ?_, hrc, ?_, ?_, hgeo⟩
  · rw [hvol]
    exact hperm.length_eq
  · intro w
    rw [hvol]
    exact hperm.count_eq w
  · intro hn
    rw [hvol, erase_append_self_of_not_mem _ _ hn]
  · intro l1 l2 hl hn
    rw [hvol, hl, erase_append_self_of_first l1 l2 _ hn]

/-- C23 (witness): the model bound to handle 11 holds the volume list
[5, 4, 5]; RemoveVolume for the volume bound to handle 15 (address 5) leaves
[4, 5, 5], and for the volume bound to handle 16 (address 6, absent) leaves
[5, 4, 5]. -/
theorem RemoveVolume.run_moves_first_to_end_witness :
    (RemoveVolume.run { modelHandle := { i64 := 11 }, objectHandle := { i64 := 15 } }
        exampleSceneState).state.volumeOf 1 = [4, 5, 5]
    ∧ (RemoveVolume.run { modelHandle := { i64 := 11 }, objectHandle := { i64 := 16 } }
        exampleSceneState).state.volumeOf 1 = [5, 4, 5]
    ∧ ∃ s1, RemoveVolume.run { modelHandle := { i64 := 11 }, objectHandle := { i64 := 15 } }
          exampleSceneState = .ok s1
      ∧ (s1.volumeOf 1).length = exampleModel.volume.length
      ∧ (∀ w, (s1.volumeOf 1).count w = exampleModel.volume.count w)
      ∧ s1.refCountOf 5 = 3
      ∧ (5 ∉ exampleModel.volume → s1.volumeOf 1 = exampleModel.volume)
      ∧ (∀ l1 l2, exampleModel.volume = l1 ++ 5 :: l2 → 5 ∉ l1 →
          s1.volumeOf 1 = l1 ++ l2 ++ [5])
      ∧ s1.geometryOf 1 = exampleModel.geometry :=
  ⟨by decide, by decide,
   RemoveVolume.run_moves_first_to_end
    { modelHandle := { i64 := 11 }, objectHandle := { i64 := 15 } } exampleSceneState
    exampleModel { kind := .volume, refCount := 3 } (by decide) (by decide)⟩

/-! ### ospNewData: empty arrays and null payloads -/

theorem NewData.new_without_bytes (C : OSPConstants) (handle : ObjectHandle) (nItems : Nat)
    (format : Int) (init : Option (List Nat)) (flags : Int) (h : init = none ∨ nItems = 0) :
    NewData.new C handle nItems format init flags
      = { handle := handle, nItems := nItems, format := format, data := [], localData := none,
          flags := flags } := by
  rcases h with h | h
  · subst h
    rfl
  · subst h
    cases init <;> rfl

theorem NewData.run_without_loop (C : OSPConstants) (u : NewData) (s : RankState)
    (hd : u.data = []) (hl : u.localData = none) (hstr : u.format ≠ C.OSP_STRING)
    (h : isObjectFormat C u.format = false ∨ u.nItems = 0) :
    NewData.run C u s
      = .ok (u.handle.assign (s.heap.length + 1)
          (s.alloc { kind := .data,
                     array := some (Data.new C u.nItems u.format none u.flags) }).2) := by
  rcases h with h | h
  · simp only [NewData.run, hd, hl, RankState.alloc, if_neg hstr, h]
    rfl
  · simp only [NewData.run, hd, hl, RankState.alloc, if_neg hstr, h]
    cases isObjectFormat C u.format <;> rfl

theorem NewData.run_without_loop_spec (C : OSPConstants) (u : NewData) (s : RankState)
    (hd : u.data = []) (hl : u.localData = none) (hstr : u.format ≠ C.OSP_STRING)
    (h : isObjectFormat C u.format = false ∨ u.nItems = 0) :
    ∃ s1 d, NewData.run C u s = .ok s1
      ∧ s1.objAt (u.handle.lookup s1) = some { kind := .data, array := some d }
      ∧ d.numItems = u.nItems ∧ d.type = u.format ∧ d.flags = u.flags ∧ d.data = none
      ∧ (∀ (q : Nat) o, s.objAt q = some o → s1.objAt q = some o)
      ∧ s1.trace = s.trace := by
  refine ⟨_, Data.new C u.nItems u.format none u.flags,
    NewData.run_without_loop C u s hd hl hstr h, ?_, ?_, ?_, ?_, ?_, ?_, rfl⟩
  · rw [ObjectHandle.lookup_assign_self]
    exact RankState.objAt_alloc_new s _
  · unfold Data.new
    split <;> rfl
  · unfold Data.new
    split <;> rfl
  · unfold Data.new
    split <;> rfl
  · unfold Data.new
    split <;> rfl
  · intro q o ho
    exact RankState.objAt_alloc_old _ ho

/-- C21 (counterexample): a NewData unit constructed with a null payload and
nItems = 3 for a 4-byte element type carries no bytes and runs without error,
but the data array it binds to handle 7 has three items, not zero, and no
content. -/
theorem NewData.run_null_payload_keeps_nItems :
    (NewData.new exampleConstants { i64 := 7 } 3 2500 none 0).data = []
    ∧ ∃ s1, NewData.run exampleConstants
          (NewData.new exampleConstants { i64 := 7 } 3 2500 none 0) exampleState = .ok s1
      ∧ s1.objAt (ObjectHandle.lookup { i64 := 7 } s1)
          = some { kind := .data,
                   array := some { numItems := 3, type := 2500, flags := 0, ownsBuffer := true,
                                   data := none } } :=
  ⟨by decide, _, rfl, by decide⟩

/-- C21 (amended): for every element type other than OSP_STRING and every
flags value, a NewData unit constructed with nItems = 0, with or without a
payload, runs without error and binds to the handle a data array of zero
items; the handle-resolution loop then makes no iteration, and no existing
object (so no reference count) and no recorded call changes.  A unit
constructed with a null payload and n items carries no bytes, and for an
element type outside the object kinds it runs without error and binds an
array of n items without content, again changing no existing object. -/
theorem NewData.run_empty_array (C : OSPConstants) (handle : ObjectHandle) (format : Int)
    (init : Option (List Nat)) (flags : Int) (n : Nat) (s : RankState)
    (hstr : format ≠ C.OSP_STRING) :
    (∃ s1 d, NewData.run C (NewData.new C handle 0 format init flags) s = .ok s1
      ∧ s1.objAt (handle.lookup s1) = some { kind := .data, array := some d }
      ∧ d.numItems = 0 ∧ d.type = format ∧ d.flags = flags
      ∧ (∀ p s2, translateHandles p (NewData.new C handle 0 format init flags).nItems 0 s2
          = .ok s2)
      ∧ (∀ (q : Nat) o, s.objAt q = some o → s1.objAt q = some o)
      ∧ s1.trace = s.trace)
    ∧ ((NewData.new C handle n format none flags).data = []
      ∧ (NewData.new C handle n format none flags).localData = none
      ∧ (NewData.new C handle n format none flags).nItems = n)
    ∧ (isObjectFormat C format = false →
      ∃ s1 d, NewData.run C (NewData.new C handle n format none flags) s = .ok s1
        ∧ s1.objAt (handle.lookup s1) = some { kind := .data, array := some d }
        ∧ d.numItems = n ∧ d.type = format ∧ d.flags = flags ∧ d.data = none
        ∧ (∀ (q : Nat) o, s.objAt q = some o → s1.objAt q = some o)
        ∧ s1.trace = s.trace) := by
  have e0 := NewData.new_without_bytes C handle 0 format init flags (Or.inr rfl)
  have en := NewData.new_without_bytes C handle n format none flags (Or.inl rfl)
  refine ⟨?_, ?_, ?_⟩
  · rw [e0]
    obtain ⟨s1, d, h1, h2, h3, h4, h5, _, h7, h8⟩ :=
      NewData.run_without_loop_spec C
        { handle := handle, nItems := 0, format := format, data := [], localData := none,
          flags := flags } s rfl rfl hstr (Or.inr rfl)
    exact ⟨s1, d, h1, h2, h3, h4, h5, fun _ _ => rfl, h7, h8⟩
  · rw [en]
    exact ⟨rfl, rfl, rfl⟩
  · intro hfmt
    rw [en]
    exact NewData.run_without_loop_spec C
      { handle := handle, nItems := n, format := format, data := [], localData := none,
        flags := flags } s rfl rfl hstr (Or.inl hfmt)

/-- C21 (witness): on the example rank, an empty array of the object kind
OSP_GEOMETRY with a payload pointer and the shared-buffer flag, and a null
payload announced as three items of a 4-byte element type. -/
theorem NewData.run_empty_array_witness :
    ((1004 : Int) ≠ exampleConstants.OSP_STRING ∧ (2500 : Int) ≠ exampleConstants.OSP_STRING
      ∧ isObjectFormat exampleConstants 1004 = true
      ∧ isObjectFormat exampleConstants 2500 = false)
    ∧ (∃ s1 d, NewData.run exampleConstants
          (NewData.new exampleConstants { i64 := 7 } 0 1004 (some [1, 2]) 1) exampleState = .ok s1
      ∧ s1.objAt (ObjectHandle.lookup { i64 := 7 } s1) = some { kind := .data, array := some d }
      ∧ d.numItems = 0 ∧ d.type = 1004 ∧ d.flags = 1
      ∧ (∀ p s2, translateHandles p
            (NewData.new exampleConstants { i64 := 7 } 0 1004 (some [1, 2]) 1).nItems 0 s2
          = .ok s2)
      ∧ (∀ (q : Nat) o, exampleState.objAt q = some o → s1.objAt q = some o)
      ∧ s1.trace = exampleState.trace)
    ∧ (∃ s1 d, NewData.run exampleConstants
          (NewData.new exampleConstants { i64 := 7 } 3 2500 none 1) exampleState = .ok s1
        ∧ s1.objAt (ObjectHandle.lookup { i64 := 7 } s1)
            = some { kind := .data, array := some d }
        ∧ d.numItems = 3 ∧ d.type = 2500 ∧ d.flags = 1 ∧ d.data = none
        ∧ (∀ (q : Nat) o, exampleState.objAt q = some o → s1.objAt q = some o)
        ∧ s1.trace = exampleState.trace) :=
  ⟨⟨by decide, by decide, by decide, by decide⟩,
   (NewData.run_empty_array exampleConstants { i64 := 7 } 1004 (some [1, 2]) 1 3 exampleState
    (by decide)).1,
   (NewData.run_empty_array exampleConstants { i64 := 7 } 2500 none 1 3 exampleState
    (by decide)).2.2 (by decide)⟩

end ospray

